import Mathlib

/-!
# YuvaSetu: relevance scoring and position expiry

A shallow embedding of `src/utils/index.js` (`isPositionExpired`,
`calculateRelevanceScore`, `calculateMatchPercentage`, `getDaysRemaining`) and of
the handlers that create positions and applications and change the status of
an application (`src/pages/CreatePositionPage.jsx`,
`src/pages/PositionDetailsPage.jsx`, `src/pages/ApplicationsPage.jsx`,
`src/pages/PositionApplicationsPage.jsx`) and of the two dashboards
(`src/pages/VolunteerDashboard.jsx`, `src/pages/NGODashboard.jsx`) over the
record store of `src/storage/index.js`.

## State and effects

The store and the state of a page component are explicit records, and a
handler is a function from the state before to the state after.  What a handler
takes from its environment is passed as an argument: the clock (`Date.now()`),
the generated id (`generateId()`), whether the write to `localStorage` succeeds
(`setData` returns `false` and changes nothing when it does not) and how the
notification request ends.  A page keeps what it read when it loaded; the store
is shared by all pages.

## Numbers

JavaScript numbers are IEEE-754 binary64 values.  Two kinds of arithmetic occur
in the embedded functions and they are modelled differently.

* The scoring code works with fractions (`matches / length`, `0.4`, `0.05`, ...).
  Every finite double is a rational number, so a double is modelled as the
  rational it denotes and every arithmetic operation is the exact operation
  followed by `fl`, rounding to the nearest double with ties to the even
  significand (53 bits of precision, gradual underflow below `2 ^ (-1022)`).
  Overflow to infinity is outside the model: with an urgency between 1 and 5
  every value the scoring code produces lies between 0 and 100 (see
  `calculateMatchPercentage_le`, `jsMul_urgency_range` and `weightedSum_le`).

* The expiry code works with millisecond timestamps and day counts, which are
  integers far below `2 ^ 53`.  On such integers `+`, `-` and `*` are exact in
  binary64, so they are modelled as integer arithmetic.  The one division,
  `timeRemaining / (24 * 60 * 60 * 1000)`, is followed by `Math.ceil`;
  `ceil_fl_div_msPerDay` shows that rounding the quotient to a double does not
  change its ceiling, so the exact ceiling is used.
-/

namespace YuvaSetu

/-! ## Binary64 rounding -/

/-- Number of halvings needed to bring `n` below 2 (at most `fuel` of them). -/
def log2Fuel : Nat → Nat → Nat
  | 0, _ => 0
  | fuel + 1, n => if n < 2 then 0 else log2Fuel fuel (n / 2) + 1

/-- Floor of the base-2 logarithm of a natural number (0 at 0). -/
def natLog2 (n : Nat) : Nat := log2Fuel n n

/-- Floor of the base-2 logarithm of `|x|` for a non-zero rational `x`. -/
def ilog2 (x : ℚ) : ℤ :=
  let k : ℤ := (natLog2 x.num.natAbs : ℤ) - (natLog2 x.den : ℤ)
  if (2 : ℚ) ^ k ≤ |x| then k else k - 1

/-- Exponent of the unit in the last place of the doubles around `x`:
52 below the binade of `x`, and never below the subnormal spacing `2 ^ (-1074)`. -/
def ulpExp (x : ℚ) : ℤ := max (ilog2 x - 52) (-1074)

/-- Nearest integer, ties to the even one. -/
def rne (q : ℚ) : ℤ :=
  let f := ⌊q⌋
  let r := q - f
  if r < 1 / 2 then f
  else if 1 / 2 < r then f + 1
  else if f % 2 = 0 then f else f + 1

/-- Round a rational to the nearest binary64 value (ties to even). -/
def fl (x : ℚ) : ℚ := (rne (x / 2 ^ ulpExp x) : ℚ) * 2 ^ ulpExp x

/-- The double denoted by a decimal literal of the source. -/
def jsLit (x : ℚ) : ℚ := fl x

/-- JavaScript `a + b` on finite doubles. -/
def jsAdd (a b : ℚ) : ℚ := fl (a + b)

/-- JavaScript `a * b` on finite doubles. -/
def jsMul (a b : ℚ) : ℚ := fl (a * b)

/-- JavaScript `a / b` on finite doubles, `b` non-zero. -/
def jsDiv (a b : ℚ) : ℚ := fl (a / b)

/-- JavaScript `Math.round`: the nearest integer, ties towards `+∞`. -/
def jsRound (x : ℚ) : ℤ := ⌊x + 1 / 2⌋

/-! ## Records -/

/-- A stored user profile.  Fields that the scoring code guards with `||` or
`&&` may be absent (`none` stands for `undefined`). -/
structure User where
  id : String
  role : String
  name : String
  email : String
  location : Option String
  skills : Option (List String)
  causes : Option (List String)
  availability : Option (List String)

/-- A stored position.  `none` stands for an absent (`undefined`) field;
`createdAt` is a millisecond timestamp. -/
structure Position where
  positionId : String
  ngoId : String
  title : String
  description : String
  cause : Option String
  location : Option String
  requiredSkills : Option (List String)
  availability : Option (List String)
  urgency : Option ℤ
  createdAt : Option ℤ
  validForDays : Option ℤ

/-! ## `src/utils/index.js` -/

/-- JavaScript truthiness of a numeric field: absent and `0` are falsy. -/
def truthy : Option ℤ → Bool
  | none => false
  | some n => n != 0

/-- Milliseconds added by `validForDays * 24 * 60 * 60 * 1000`. -/
def validityMs (validForDays : ℤ) : ℤ := validForDays * 24 * 60 * 60 * 1000

/-- The source's `isPositionExpired`, with `Date.now()` passed as `now`. -/
def isPositionExpired (position : Position) (now : ℤ) : Bool :=
  if !truthy position.createdAt || !truthy position.validForDays then false
  else
    match position.createdAt, position.validForDays with
    | some createdAt, some validForDays =>
      let expiryTime := createdAt + validityMs validForDays
      decide (now > expiryTime)
    | _, _ => false

/-- The loop of `calculateMatchPercentage`: one more match for every required
item that the user's list includes. -/
def countMatches (userItems requiredItems : List String) : ℕ :=
  requiredItems.foldl (fun found item => if userItems.contains item then found + 1 else found) 0

/-- The source's `calculateMatchPercentage`. -/
def calculateMatchPercentage (userItems requiredItems : List String) : ℚ :=
  if userItems.length = 0 ∨ requiredItems.length = 0 then 0
  else jsMul (jsDiv (countMatches userItems requiredItems) requiredItems.length) 100

/-- The source's `causeMatch`: 100 when `volunteer.causes` is present and
includes `position.cause`. -/
def causeMatch (volunteer : User) (position : Position) : ℚ :=
  match volunteer.causes, position.cause with
  | some causes, some cause => if causes.contains cause then 100 else 0
  | _, _ => 0

/-- The source's `proximityMatch`: strict equality of the two locations. -/
def proximityMatch (volunteer : User) (position : Position) : ℚ :=
  if volunteer.location = position.location then 100 else 0

/-- The source's `urgencyScore`: `(position.urgency || 1) * 20`. -/
def urgencyScore (position : Position) : ℚ :=
  jsMul (if truthy position.urgency then ((position.urgency.getD 1 : ℤ) : ℚ) else 1) 20

/-- The weighted sum of `calculateRelevanceScore`, evaluated left to right in
double arithmetic. -/
def weightedSum (skillMatch causeMatch availabilityMatch proximityMatch urgencyScore : ℚ) : ℚ :=
  jsAdd (jsAdd (jsAdd (jsAdd (jsMul skillMatch (jsLit (4 / 10))) (jsMul causeMatch (jsLit (25 / 100))))
    (jsMul availabilityMatch (jsLit (2 / 10)))) (jsMul proximityMatch (jsLit (1 / 10))))
    (jsMul urgencyScore (jsLit (5 / 100)))

/-- The source's `calculateRelevanceScore`; `none` stands for a null or
undefined argument. -/
def calculateRelevanceScore (volunteer : Option User) (position : Option Position) : ℤ :=
  match volunteer, position with
  | some volunteer, some position =>
    let skillMatch := calculateMatchPercentage (volunteer.skills.getD []) (position.requiredSkills.getD [])
    let causeMatch := causeMatch volunteer position
    let availabilityMatch :=
      calculateMatchPercentage (volunteer.availability.getD []) (position.availability.getD [])
    let proximityMatch := proximityMatch volunteer position
    let urgencyScore := urgencyScore position
    jsRound (weightedSum skillMatch causeMatch availabilityMatch proximityMatch urgencyScore)
  | _, _ => 0

/-- The source's `getDaysRemaining`, with `Date.now()` passed as `now`.
`none` stands for `NaN`, which the arithmetic yields when `createdAt` or
`validForDays` is absent. -/
def getDaysRemaining (position : Position) (now : ℤ) : Option ℤ :=
  if isPositionExpired position now then some 0
  else
    match position.createdAt, position.validForDays with
    | some createdAt, some validForDays =>
      let expiryTime := createdAt + validityMs validForDays
      let timeRemaining := expiryTime - now
      some (max 0 ⌈(timeRemaining : ℚ) / (24 * 60 * 60 * 1000)⌉)
    | _, _ => none

/-! ## Sample records -/

/-- A position created at `t = 1000` and valid for 30 days. -/
def samplePosition : Position :=
  { positionId := "p1", ngoId := "ngo1", title := "Tutor", description := "Evening classes",
    cause := some "education", location := some "delhi",
    requiredSkills := some ["teaching", "fundraising"],
    availability := some ["weekends"], urgency := some 3,
    createdAt := some 1000, validForDays := some 30 }

/-- A volunteer matching `samplePosition` on every criterion. -/
def sampleVolunteer : User :=
  { id := "u1", role := "volunteer", name := "Asha", email := "asha@example.org",
    location := some "delhi", skills := some ["teaching", "fundraising"],
    causes := some ["education"], availability := some ["weekends"] }

/-- The sample position with the highest urgency. -/
def urgentPosition : Position := { samplePosition with urgency := some 5 }

/-- The urgent position with an empty list of required skills. -/
def noSkillPosition : Position := { urgentPosition with requiredSkills := some [] }

/-- A volunteer from another city with no skills, causes or availability. -/
def blankVolunteer : User :=
  { id := "u2", role := "volunteer", name := "Ravi", email := "ravi@example.org",
    location := some "mumbai", skills := some [], causes := some [], availability := some [] }

/-- The sample position with the lowest urgency. -/
def lowPosition : Position := { samplePosition with urgency := some 1 }

/-- A volunteer with one skill and five availability windows. -/
def tieVolunteer : User :=
  { id := "u3", role := "volunteer", name := "Meera", email := "meera@example.org",
    location := some "delhi", skills := some ["teaching"], causes := some ["education"],
    availability := some ["slot1", "slot2", "slot3", "slot4", "slot5"] }

/-- A position in another city asking for three skills and listing 24
availability windows, five of which `tieVolunteer` offers. -/
def tiePosition : Position :=
  { positionId := "p2", ngoId := "ngo1", title := "Camp", description := "Health camp",
    cause := some "education", location := some "mumbai",
    requiredSkills := some ["teaching", "fundraising", "medicalAid"],
    availability := some ["slot1", "slot2", "slot3", "slot4", "slot5", "slot6", "slot7",
      "slot8", "slot9", "slot10", "slot11", "slot12", "slot13", "slot14", "slot15", "slot16",
      "slot17", "slot18", "slot19", "slot20", "slot21", "slot22", "slot23", "slot24"],
    urgency := some 1, createdAt := some 1000, validForDays := some 30 }

/-! ## The scoring formula in exact arithmetic -/

/-- The match percentage of the specification, in exact rational arithmetic:
0 when either list is empty, otherwise the share of required items that the
user's list contains, times 100. -/
def exactMatchPercentage (userItems requiredItems : List String) : ℚ :=
  if userItems.length = 0 ∨ requiredItems.length = 0 then 0
  else (requiredItems.countP (fun item => userItems.contains item) : ℚ) /
    requiredItems.length * 100

/-- The weighted sum of the specification,
`(40 * skillMatch + 25 * causeMatch + 20 * availabilityMatch + 10 * proximityMatch
+ 5 * urgencyScore) / 100`, computed exactly, with `urgencyScore = urgency * 20`. -/
def exactWeightedSum (volunteer : User) (position : Position) (urgency : ℤ) : ℚ :=
  (40 * exactMatchPercentage (volunteer.skills.getD []) (position.requiredSkills.getD []) +
    25 * causeMatch volunteer position +
    20 * exactMatchPercentage (volunteer.availability.getD []) (position.availability.getD []) +
    10 * proximityMatch volunteer position + 5 * ((urgency : ℚ) * 20)) / 100

/-- Round-half-up of the exact weighted sum. -/
def exactRelevanceScore (volunteer : User) (position : Position) (urgency : ℤ) : ℤ :=
  ⌊exactWeightedSum volunteer position urgency + 1 / 2⌋

/-- The ratios `m / n` with `m ≤ n ≤ 4`. -/
def smallRatios : List ℚ := [0, 1 / 4, 1 / 3, 1 / 2, 2 / 3, 3 / 4, 1]

/-! ## Applications and the record store -/

/-- The value of `ROLES.VOLUNTEER`. -/
def ROLES.VOLUNTEER : String := "volunteer"

/-- The value of `ROLES.NGO`. -/
def ROLES.NGO : String := "ngo"

/-- The value of `APPLICATION_STATUS.PENDING`. -/
def APPLICATION_STATUS.PENDING : String := "pending"

/-- The value of `APPLICATION_STATUS.ACCEPTED`. -/
def APPLICATION_STATUS.ACCEPTED : String := "accepted"

/-- The value of `APPLICATION_STATUS.REJECTED`. -/
def APPLICATION_STATUS.REJECTED : String := "rejected"

/-- A stored application, as built by `handleApply`. -/
structure Application where
  applicationId : String
  volunteerId : String
  positionId : String
  ngoId : String
  status : String
  appliedAt : ℤ
  deriving DecidableEq

/-- The record store (`localStorage`), as the pages read it: what
`getData(STORAGE_KEYS.POSITIONS, [])` and `getData(STORAGE_KEYS.APPLICATIONS, [])`
return (an absent key reads as the empty list) and the user records stored
under the keys `user_<id>`. -/
structure Store where
  positions : List Position
  applications : List Application
  users : List User

/-- The source's `setData(STORAGE_KEYS.APPLICATIONS, value)`.  `writeOk` says
whether `localStorage.setItem` succeeds; when it throws, `setData` catches the
error, leaves the store as it was and returns `false`. -/
def setApplications (store : Store) (value : List Application) (writeOk : Bool) : Store × Bool :=
  if writeOk then ({ store with applications := value }, true) else (store, false)

/-- The user record under the key `user_<id>`; `none` when `getData` returns its
default `{}`. -/
def getUser (store : Store) (id : String) : Option User :=
  store.users.find? (fun u => u.id == id)

/-- The source's `isVolunteer`: `user?.role === ROLES.VOLUNTEER`. -/
def isVolunteer (user : Option User) : Bool :=
  match user with
  | some u => u.role == ROLES.VOLUNTEER
  | none => false

/-- The source's `isNgo`: `user?.role === ROLES.NGO`. -/
def isNgo (user : Option User) : Bool :=
  match user with
  | some u => u.role == ROLES.NGO
  | none => false

/-- The `map` of both `handleUpdateStatus` functions: every application with
the given id gets the new status, the others are returned as they are. -/
def updateStatusIn (applicationId newStatus : String) (apps : List Application) :
    List Application :=
  apps.map (fun app =>
    if app.applicationId = applicationId then { app with status := newStatus } else app)

/-! ## `src/pages/PositionDetailsPage.jsx` -/

/-- The five sub-scores that the page keeps as `scoreBreakdown`. -/
structure ScoreBreakdown where
  skillMatch : ℚ
  causeMatch : ℚ
  availabilityMatch : ℚ
  proximityMatch : ℚ
  urgencyScore : ℚ

/-- The component state of `PositionDetailsPage`.  `position`, `daysRemaining`
and `isExpired` stand for the object
`{ ...foundPosition, daysRemaining, isExpired }` that `loadPositionData` builds:
the last two are computed once, when the page loads. -/
structure PositionDetailsState where
  position : Option Position
  daysRemaining : Option ℤ
  isExpired : Bool
  ngo : Option User
  relevanceScore : ℤ
  scoreBreakdown : Option ScoreBreakdown
  hasApplied : Bool
  applicationStatus : Option String
  isLoading : Bool
  isSubmitting : Bool
  error : String
  successMessage : String

/-- The state of a freshly mounted `PositionDetailsPage` (the `useState`
defaults). -/
def PositionDetailsPage.initialState : PositionDetailsState :=
  { position := none, daysRemaining := none, isExpired := false, ngo := none,
    relevanceScore := 0, scoreBreakdown := none, hasApplied := false,
    applicationStatus := none, isLoading := true, isSubmitting := false, error := "",
    successMessage := "" }

/-- The page's own copy of `calculateMatchPercentage`. -/
def PositionDetailsPage.calculateMatchPercentage (userItems requiredItems : List String) : ℚ :=
  if userItems.length = 0 ∨ requiredItems.length = 0 then 0
  else jsMul (jsDiv (countMatches userItems requiredItems) requiredItems.length) 100

/-- The source's `loadPositionData`, run on a freshly mounted page with
`Date.now()` passed as `now`. -/
def PositionDetailsPage.loadPositionData (store : Store) (user : Option User)
    (positionId : String) (now : ℤ) : PositionDetailsState :=
  let init := PositionDetailsPage.initialState
  match store.positions.find? (fun pos => pos.positionId == positionId) with
  | none => { init with error := "Position not found", isLoading := false }
  | some foundPosition =>
    if isNgo user && foundPosition.ngoId != (user.map (fun u => u.id)).getD "" then
      { init with error := "You do not have permission to view this position",
                  isLoading := false }
    else
      let loaded : PositionDetailsState :=
        { init with position := some foundPosition,
                    daysRemaining := getDaysRemaining foundPosition now,
                    isExpired := isPositionExpired foundPosition now,
                    ngo := getUser store foundPosition.ngoId }
      match user with
      | some u =>
        if isVolunteer user then
          let scored : PositionDetailsState :=
            { loaded with
                relevanceScore := calculateRelevanceScore user (some foundPosition),
                scoreBreakdown := some
                  { skillMatch := PositionDetailsPage.calculateMatchPercentage
                      (u.skills.getD []) (foundPosition.requiredSkills.getD []),
                    causeMatch := causeMatch u foundPosition,
                    availabilityMatch := PositionDetailsPage.calculateMatchPercentage
                      (u.availability.getD []) (foundPosition.availability.getD []),
                    proximityMatch := proximityMatch u foundPosition,
                    urgencyScore := urgencyScore foundPosition } }
          match store.applications.find?
              (fun app => app.positionId == positionId && app.volunteerId == u.id) with
          | some existingApplication =>
            { scored with hasApplied := true,
                          applicationStatus := some existingApplication.status,
                          isLoading := false }
          | none => { scored with isLoading := false }
        else { loaded with isLoading := false }
      | none => { loaded with isLoading := false }

/-- The source's `handleApply`, with the result of `generateId()` passed as
`newId` and `Date.now()` as `now`.  When `user` or the page's position is null
the property access throws and the `catch` block sets the error.  The timers
that clear the messages after three seconds are left out. -/
def PositionDetailsPage.handleApply (page : PositionDetailsState) (store : Store)
    (user : Option User) (now : ℤ) (newId : String) (writeOk : Bool) :
    PositionDetailsState × Store :=
  if page.hasApplied then (page, store)
  else
    match user, page.position with
    | some u, some position =>
      let application : Application :=
        { applicationId := newId, volunteerId := u.id, positionId := position.positionId,
          ngoId := position.ngoId, status := APPLICATION_STATUS.PENDING, appliedAt := now }
      let applications := store.applications ++ [application]
      let written := setApplications store applications writeOk
      ({ page with hasApplied := true,
                   applicationStatus := some APPLICATION_STATUS.PENDING,
                   successMessage := "Application submitted successfully!",
                   isSubmitting := false }, written.1)
    | _, _ =>
      ({ page with error := "Failed to submit application. Please try again.",
                   isSubmitting := false }, store)

/-- Whether the page renders the "Apply Now" button and the button is not
disabled: the page has loaded without error, shows a position to a volunteer
who has not applied, and `isSubmitting || position.isExpired` is false. -/
def PositionDetailsPage.applyEnabled (page : PositionDetailsState) (user : Option User) : Bool :=
  !page.isLoading && page.error == "" && page.position.isSome && isVolunteer user &&
    !page.hasApplied && !(page.isSubmitting || page.isExpired)

/-- A click on the "Apply Now" button: `handleApply` runs only when the button
is rendered and enabled. -/
def PositionDetailsPage.clickApply (page : PositionDetailsState) (store : Store)
    (user : Option User) (now : ℤ) (newId : String) (writeOk : Bool) :
    PositionDetailsState × Store :=
  if PositionDetailsPage.applyEnabled page user then
    PositionDetailsPage.handleApply page store user now newId writeOk
  else (page, store)

/-- The `(volunteerId, positionId)` pairs of a list of applications. -/
def applicationPairs (apps : List Application) : List (String × String) :=
  apps.map (fun app => (app.volunteerId, app.positionId))

/-! ## `src/pages/ApplicationsPage.jsx` -/

/-- The component state of `ApplicationsPage`.  `volunteers` is the object
`volunteersMap`: for each listed volunteer id the user record read from the
store, or `none` for the default `{}`. -/
structure ApplicationsPageState where
  applications : List Application
  positions : List Position
  volunteers : List (String × Option User)
  isLoading : Bool
  successMessage : String
  error : String

/-- The state of a freshly mounted `ApplicationsPage`. -/
def ApplicationsPage.initialState : ApplicationsPageState :=
  { applications := [], positions := [], volunteers := [], isLoading := true,
    successMessage := "", error := "" }

/-- The source's `loadApplicationsData`.  The sort with the comparator
`b.appliedAt - a.appliedAt` is a stable sort by `appliedAt`, newest first; the
keys of `volunteersMap` are the distinct volunteer ids of the listed
applications. -/
def ApplicationsPage.loadApplicationsData (store : Store) (user : Option User) :
    ApplicationsPageState :=
  let allApplications := store.applications
  let userId := (user.map (fun u => u.id)).getD ""
  let filteredApplications :=
    if isVolunteer user then allApplications.filter (fun app => app.volunteerId == userId)
    else if isNgo user then allApplications.filter (fun app => app.ngoId == userId)
    else []
  let volunteers :=
    if isNgo user then
      ((filteredApplications.map (fun app => app.volunteerId)).dedup).map
        (fun id => (id, getUser store id))
    else []
  { ApplicationsPage.initialState with
      applications :=
        filteredApplications.insertionSort (fun a b => b.appliedAt ≤ a.appliedAt),
      positions := store.positions,
      volunteers := volunteers,
      isLoading := false }

/-- How the notification request ends: the response is ok, the response is not
ok, or `fetch` throws. -/
inductive NotifyOutcome where
  | ok
  | notOk
  | throws
  deriving DecidableEq

/-- The body of the notification request: the volunteer's email and the
lower-cased new status. -/
structure NotifyRequest where
  email : String
  status : String
  deriving DecidableEq

/-- What a status update leaves behind: the page state, the store, the
notification requests sent and the messages written with `console.error`. -/
structure UpdateResult where
  page : ApplicationsPageState
  store : Store
  requests : List NotifyRequest
  consoleErrors : List String

/-- The source's `volunteers[application.volunteerId]?.email`, when truthy. -/
def ApplicationsPage.volunteerEmail (volunteers : List (String × Option User))
    (volunteerId : String) : Option String :=
  match volunteers.find? (fun entry => entry.1 == volunteerId) with
  | some (_, some volunteer) => if volunteer.email = "" then none else some volunteer.email
  | _ => none

/-- The source's `handleUpdateStatus` of `ApplicationsPage`.  `writeOk` is the
outcome of the write and `outcome` that of the notification request.  When the
page does not list an application with the given id, `application` is
undefined, reading `application.volunteerId` throws, and the outer `catch`
sets the error, after the store and the page's list have been updated.  The
timers that clear the messages are left out. -/
def ApplicationsPage.handleUpdateStatus (page : ApplicationsPageState) (store : Store)
    (applicationId newStatus : String) (writeOk : Bool) (outcome : NotifyOutcome) :
    UpdateResult :=
  let allApplications := store.applications
  let updatedApplications := updateStatusIn applicationId newStatus allApplications
  let written := setApplications store updatedApplications writeOk
  let page1 := { page with applications := updateStatusIn applicationId newStatus page.applications }
  match page.applications.find? (fun app => app.applicationId == applicationId) with
  | none =>
    { page := { page1 with error := "Failed to update application status" },
      store := written.1, requests := [],
      consoleErrors := ["Error updating application status:"] }
  | some application =>
    let done := { page1 with successMessage := "Application status updated to " ++ newStatus }
    match ApplicationsPage.volunteerEmail page.volunteers application.volunteerId with
    | some email =>
      let request : NotifyRequest := { email := email, status := newStatus.toLower }
      match outcome with
      | NotifyOutcome.ok =>
        { page := done, store := written.1, requests := [request], consoleErrors := [] }
      | NotifyOutcome.notOk =>
        { page := done, store := written.1, requests := [request],
          consoleErrors := ["Failed to send email notification"] }
      | NotifyOutcome.throws =>
        { page := done, store := written.1, requests := [request],
          consoleErrors := ["Error sending email notification:"] }
    | none => { page := done, store := written.1, requests := [], consoleErrors := [] }

/-! ## `src/pages/PositionApplicationsPage.jsx` -/

/-- The component state of `PositionApplicationsPage`. -/
structure PositionApplicationsState where
  position : Option Position
  applications : List Application
  volunteers : List (String × Option User)
  isLoading : Bool
  successMessage : String
  error : String

/-- The source's `handleUpdateStatus` of `PositionApplicationsPage`: the same
write as on `ApplicationsPage`, with no notification.  The timers that clear
the messages are left out. -/
def PositionApplicationsPage.handleUpdateStatus (page : PositionApplicationsState)
    (store : Store) (applicationId newStatus : String) (writeOk : Bool) :
    PositionApplicationsState × Store :=
  let allApplications := store.applications
  let updatedApplications := updateStatusIn applicationId newStatus allApplications
  let written := setApplications store updatedApplications writeOk
  ({ page with applications := updateStatusIn applicationId newStatus page.applications,
               successMessage := "Application status updated to " ++ newStatus }, written.1)

/-! ## Sample store -/

/-- An organization other than the owner of the sample position. -/
def otherNgo : User :=
  { id := "ngo2", role := "ngo", name := "Seva", email := "seva@example.org",
    location := some "kolkata", skills := none, causes := none, availability := none }

/-- The owner of the sample position. -/
def ownerNgo : User :=
  { id := "ngo1", role := "ngo", name := "Vidya", email := "vidya@example.org",
    location := some "delhi", skills := none, causes := none, availability := none }

/-- A pending application of the sample volunteer for the sample position. -/
def sampleApplication : Application :=
  { applicationId := "a1", volunteerId := "u1", positionId := "p1", ngoId := "ngo1",
    status := "pending", appliedAt := 5000 }

/-- A store holding the sample position and users and no application. -/
def emptyStore : Store :=
  { positions := [samplePosition], applications := [],
    users := [sampleVolunteer, ownerNgo, otherNgo] }

/-- The store after the sample volunteer has applied for the sample position. -/
def sampleStore : Store := { emptyStore with applications := [sampleApplication] }

/-- A `PositionApplicationsPage` that lists nothing. -/
def blankPositionApplications : PositionApplicationsState :=
  { position := none, applications := [], volunteers := [], isLoading := false,
    successMessage := "", error := "" }

/-- The sample position without its `createdAt` field. -/
def undatedPosition : Position := { samplePosition with createdAt := none }

/-- An application that belongs to the organization `ngo2`. -/
def otherApplication : Application :=
  { applicationId := "a2", volunteerId := "u1", positionId := "p9", ngoId := "ngo2",
    status := "pending", appliedAt := 6000 }

/-- A store with one application for each of the two organizations. -/
def twoOwnerStore : Store :=
  { emptyStore with applications := [sampleApplication, otherApplication] }

/-! ## `src/pages/CreatePositionPage.jsx` -/

/-- The white space that `parseInt` skips before the number
(`StrWhiteSpaceChar`: white space and line terminators). -/
def jsWhiteSpace (c : Char) : Bool :=
  [0x9, 0xA, 0xB, 0xC, 0xD, 0x20, 0xA0, 0x1680, 0x2028, 0x2029, 0x202F, 0x205F, 0x3000,
    0xFEFF].contains c.toNat || (0x2000 ≤ c.toNat && c.toNat ≤ 0x200A)

/-- The number written by a list of decimal digits. -/
def digitsValue (digits : List Char) : ℕ :=
  digits.foldl (fun n c => 10 * n + (c.toNat - '0'.toNat)) 0

/-- The characters after an optional sign. -/
def stripSign : List Char → List Char
  | '-' :: rest => rest
  | '+' :: rest => rest
  | rest => rest

/-- JavaScript `parseInt(s, 10)`: leading white space is skipped, an optional
sign is read, and the longest run of decimal digits that follows is the
number; what comes after the digits is ignored.  `none` stands for `NaN`, the
result when no digit is found. -/
def parseInt (s : String) : Option ℤ :=
  let trimmed := s.toList.dropWhile jsWhiteSpace
  let negative := trimmed.head? == some '-'
  let unsigned := stripSign trimmed
  let digits := unsigned.takeWhile Char.isDigit
  if digits.isEmpty then none
  else if negative then some (-(digitsValue digits : ℤ)) else some (digitsValue digits : ℤ)

/-- The value of `VALIDATION_MESSAGES.REQUIRED`. -/
def VALIDATION_MESSAGES.REQUIRED : String := "This field is required"

/-- The page's `formData`. -/
structure PositionForm where
  title : String
  description : String
  requiredSkills : List String
  cause : String
  location : String
  availability : List String
  urgency : String
  validForDays : String

/-- The page's `errors` object; `none` stands for a key that is not set. -/
structure FormErrors where
  title : Option String
  description : Option String
  cause : Option String
  location : Option String
  urgency : Option String
  validForDays : Option String
  requiredSkills : Option String
  availability : Option String
  form : Option String
  deriving DecidableEq

/-- The empty `errors` object. -/
def FormErrors.none : FormErrors :=
  { title := Option.none, description := Option.none, cause := Option.none,
    location := Option.none, urgency := Option.none, validForDays := Option.none,
    requiredSkills := Option.none, availability := Option.none, form := Option.none }

/-- The error that `validateForm` records for a required text field. -/
def requiredError (value : String) : Option String :=
  if value = "" then some VALIDATION_MESSAGES.REQUIRED else Option.none

/-- The error that `validateForm` records for `validForDays`: the required
check first, then, when the field is not empty, the numeric checks on
`parseInt(formData.validForDays, 10)`, which overwrite it. -/
def validForDaysError (value : String) : Option String :=
  if value = "" then some VALIDATION_MESSAGES.REQUIRED
  else
    match parseInt value with
    | Option.none => some "Please enter a valid number greater than 0"
    | some days =>
      if days ≤ 0 then some "Please enter a valid number greater than 0"
      else if days > 365 then some "Maximum validity period is 365 days"
      else Option.none

/-- The source's `validateForm`. -/
def CreatePositionPage.validateForm (formData : PositionForm) : FormErrors :=
  { title := requiredError formData.title,
    description := requiredError formData.description,
    cause := requiredError formData.cause,
    location := requiredError formData.location,
    urgency := requiredError formData.urgency,
    validForDays := validForDaysError formData.validForDays,
    requiredSkills :=
      if formData.requiredSkills.length = 0 then
        some "Please select at least one required skill"
      else Option.none,
    availability :=
      if formData.availability.length = 0 then
        some "Please select at least one availability option"
      else Option.none,
    form := Option.none }

/-- The component state of `CreatePositionPage` that `handleSubmit` sets. -/
structure CreatePositionState where
  errors : FormErrors
  isLoading : Bool
  successMessage : String

/-- The state of a freshly mounted `CreatePositionPage`. -/
def CreatePositionPage.initialState : CreatePositionState :=
  { errors := FormErrors.none, isLoading := false, successMessage := "" }

/-- The source's `setData(STORAGE_KEYS.POSITIONS, value)`; `writeOk` as in
`setApplications`. -/
def setPositions (store : Store) (value : List Position) (writeOk : Bool) : Store × Bool :=
  if writeOk then ({ store with positions := value }, true) else (store, false)

/-- The position object that `handleSubmit` builds from the form. -/
def CreatePositionPage.newPosition (formData : PositionForm) (user : User) (now : ℤ)
    (newId : String) : Position :=
  { positionId := newId, ngoId := user.id, title := formData.title,
    description := formData.description, cause := some formData.cause,
    location := some formData.location, requiredSkills := some formData.requiredSkills,
    availability := some formData.availability, urgency := parseInt formData.urgency,
    createdAt := some now, validForDays := parseInt formData.validForDays }

/-- The source's `handleSubmit`, with the result of `generateId()` passed as
`newId` and `Date.now()` as `now`.  When `user` is null, reading `user.id`
throws and the `catch` block sets the form error.  The timer that resets the
form and navigates away is left out. -/
def CreatePositionPage.handleSubmit (page : CreatePositionState) (formData : PositionForm)
    (user : Option User) (store : Store) (now : ℤ) (newId : String) (writeOk : Bool) :
    CreatePositionState × Store :=
  let formErrors := CreatePositionPage.validateForm formData
  if formErrors ≠ FormErrors.none then ({ page with errors := formErrors }, store)
  else
    match user with
    | some u =>
      let position := CreatePositionPage.newPosition formData u now newId
      let positions := store.positions ++ [position]
      let written := setPositions store positions writeOk
      ({ page with successMessage := "Position created successfully!", isLoading := false },
        written.1)
    | Option.none =>
      ({ page with
          errors := { FormErrors.none with
            form := some "Failed to create position. Please try again." },
          isLoading := false }, store)

/-! ## `src/pages/VolunteerDashboard.jsx` and `src/pages/NGODashboard.jsx` -/

/-- A position with the two fields that the volunteer dashboard adds to it. -/
structure ScoredPosition where
  position : Position
  relevanceScore : ℤ
  daysRemaining : Option ℤ

/-- The positions that `loadDashboardData` of `VolunteerDashboard` scores: the
stored positions that are not expired, each with its relevance score. -/
def VolunteerDashboard.scoredPositions (store : Store) (user : Option User) (now : ℤ) :
    List ScoredPosition :=
  let allPositions := store.positions
  let activePositions := allPositions.filter (fun position => !isPositionExpired position now)
  activePositions.map (fun position =>
    { position := position, relevanceScore := calculateRelevanceScore user (some position),
      daysRemaining := getDaysRemaining position now })

/-- The scored positions sorted with the comparator
`b.relevanceScore - a.relevanceScore` (a stable sort, highest score first). -/
def VolunteerDashboard.sortedPositions (store : Store) (user : Option User) (now : ℤ) :
    List ScoredPosition :=
  (VolunteerDashboard.scoredPositions store user now).insertionSort
    (fun a b => b.relevanceScore ≤ a.relevanceScore)

/-- The state `recommendedPositions` that `loadDashboardData` of
`VolunteerDashboard` sets, with `Date.now()` passed as `now`: the first three
sorted positions.  Without a user, reading `user.id` further down throws before
the state is set, and the list stays empty. -/
def VolunteerDashboard.recommendedPositions (store : Store) (user : Option User) (now : ℤ) :
    List ScoredPosition :=
  match user with
  | some _ => (VolunteerDashboard.sortedPositions store user now).take 3
  | Option.none => []

/-- The applications that `loadDashboardData` of `NGODashboard` selects: those
whose `positionId` is the id of one of the organization's own positions. -/
def NGODashboard.positionApplications (store : Store) (user : User) : List Application :=
  let allPositions := store.positions
  let myPositions := allPositions.filter (fun position => position.ngoId == user.id)
  let allApplications := store.applications
  let myPositionIds := myPositions.map (fun position => position.positionId)
  allApplications.filter (fun app => myPositionIds.contains app.positionId)

/-! ## Notification on `PositionApplicationsPage` and reachable stores -/

/-- The notification requests that `handleUpdateStatus` of
`PositionApplicationsPage` sends: its body (lines 90-132) contains no `fetch`
call, so there are none, whatever its arguments. -/
def PositionApplicationsPage.requestsSent (_page : PositionApplicationsState) (_store : Store)
    (_applicationId _newStatus : String) (_writeOk : Bool) : List NotifyRequest :=
  []

/-- The three values of `APPLICATION_STATUS`. -/
def APPLICATION_STATUS.values : List String :=
  [APPLICATION_STATUS.PENDING, APPLICATION_STATUS.ACCEPTED, APPLICATION_STATUS.REJECTED]

/-- One step of the application life cycle on the store: `handleApply` on any
page state, or a status update from either page with one of the three
statuses. -/
inductive StatusStep : Store → Store → Prop where
  | apply (store : Store) (page : PositionDetailsState) (user : Option User) (now : ℤ)
      (newId : String) (writeOk : Bool) :
      StatusStep store (PositionDetailsPage.handleApply page store user now newId writeOk).2
  | updateOnApplicationsPage (store : Store) (page : ApplicationsPageState)
      (applicationId newStatus : String) (writeOk : Bool) (outcome : NotifyOutcome)
      (h : newStatus ∈ APPLICATION_STATUS.values) :
      StatusStep store
        (ApplicationsPage.handleUpdateStatus page store applicationId newStatus writeOk
          outcome).store
  | updateOnPositionPage (store : Store) (page : PositionApplicationsState)
      (applicationId newStatus : String) (writeOk : Bool)
      (h : newStatus ∈ APPLICATION_STATUS.values) :
      StatusStep store
        (PositionApplicationsPage.handleUpdateStatus page store applicationId newStatus
          writeOk).2

/-- The stores reachable from a store without applications by `handleApply`
and by status updates with one of the three statuses. -/
inductive StatusReachable : Store → Prop where
  | empty (store : Store) (h : store.applications = []) : StatusReachable store
  | step (store next : Store) (h : StatusReachable store) (hstep : StatusStep store next) :
      StatusReachable next

/-- One step of the whole life cycle on the store: the creation of a position
(with an id that `generateId`, "a unique ID", has not given to a stored
position), `handleApply` on a page that shows the position which the store
holds under its id, or a status update from either page. -/
inductive LifecycleStep : Store → Store → Prop where
  | create (store : Store) (page : CreatePositionState) (formData : PositionForm)
      (user : Option User) (now : ℤ) (newId : String) (writeOk : Bool)
      (hfresh : ∀ position ∈ store.positions, position.positionId ≠ newId) :
      LifecycleStep store
        (CreatePositionPage.handleSubmit page formData user store now newId writeOk).2
  | apply (store : Store) (page : PositionDetailsState) (position : Position)
      (user : Option User) (now : ℤ) (newId : String) (writeOk : Bool)
      (hpage : page.position = some position)
      (hstored : store.positions.find? (fun pos => pos.positionId == position.positionId) =
        some position) :
      LifecycleStep store (PositionDetailsPage.handleApply page store user now newId writeOk).2
  | updateOnApplicationsPage (store : Store) (page : ApplicationsPageState)
      (applicationId newStatus : String) (writeOk : Bool) (outcome : NotifyOutcome) :
      LifecycleStep store
        (ApplicationsPage.handleUpdateStatus page store applicationId newStatus writeOk
          outcome).store
  | updateOnPositionPage (store : Store) (page : PositionApplicationsState)
      (applicationId newStatus : String) (writeOk : Bool) :
      LifecycleStep store
        (PositionApplicationsPage.handleUpdateStatus page store applicationId newStatus
          writeOk).2

/-- The stores reachable from a store without positions and applications by
the steps of the life cycle. -/
inductive LifecycleReachable : Store → Prop where
  | empty (store : Store) (hp : store.positions = []) (ha : store.applications = []) :
      LifecycleReachable store
  | step (store next : Store) (h : LifecycleReachable store)
      (hstep : LifecycleStep store next) : LifecycleReachable next

/-! ## Further sample records -/

/-- A complete form for a position that is valid for 30 days. -/
def sampleForm : PositionForm :=
  { title := "Tutor", description := "Evening classes", requiredSkills := ["teaching"],
    cause := "education", location := "delhi", availability := ["weekends"],
    urgency := "3", validForDays := "30" }

/-- The sample volunteer with one skill fewer. -/
def lesserVolunteer : User := { sampleVolunteer with skills := some ["teaching"] }

/-- A store without positions and applications. -/
def blankStore : Store :=
  { positions := [], applications := [], users := [sampleVolunteer, ownerNgo, otherNgo] }

/-- The `PositionApplicationsPage` of the owner of the sample position, loaded
from `sampleStore`. -/
def samplePositionApplications : PositionApplicationsState :=
  { position := some samplePosition, applications := [sampleApplication],
    volunteers := [("u1", some sampleVolunteer)], isLoading := false, successMessage := "",
    error := "" }


/-- A store with the sample position and four positions created later, which
the sample volunteer scores 96, 90, 100 and 75. -/
def dashboardStore : Store :=
  { positions :=
      [samplePosition,
       { lowPosition with positionId := "p3", createdAt := some 2000000000 },
       { urgentPosition with
           positionId := "p4", location := some "mumbai", createdAt := some 2000000000 },
       { urgentPosition with positionId := "p5", createdAt := some 2000000000 },
       { urgentPosition with
           positionId := "p6", cause := some "health", createdAt := some 2000000000 }],
    applications := [], users := [sampleVolunteer, ownerNgo, otherNgo] }

/-- The `PositionDetailsPage` of the sample volunteer for the position that
the owner creates from the sample form. -/
def createdPositionPage : PositionDetailsState :=
  PositionDetailsPage.loadPositionData
    (CreatePositionPage.handleSubmit CreatePositionPage.initialState sampleForm (some ownerNgo)
      blankStore 1000 "p1" true).2 (some sampleVolunteer) "p1" 2000

/-- The store after the owner has created a position from the sample form, the
sample volunteer has applied for it and the owner has accepted the
application. -/
def lifecycleStore : Store :=
  (PositionApplicationsPage.handleUpdateStatus samplePositionApplications
    (PositionDetailsPage.handleApply createdPositionPage
      (CreatePositionPage.handleSubmit CreatePositionPage.initialState sampleForm (some ownerNgo)
        blankStore 1000 "p1" true).2 (some sampleVolunteer) 5000 "a1" true).2
    "a1" "accepted" true).2

/-! ## Properties of the rounding -/

/-- With enough fuel, `log2Fuel` brackets `n` between two consecutive powers of 2. -/
theorem log2Fuel_spec : ∀ (fuel n : ℕ), n ≠ 0 → n ≤ fuel →
    2 ^ log2Fuel fuel n ≤ n ∧ n < 2 ^ (log2Fuel fuel n + 1)
  | 0, n, h0, hle => absurd (Nat.le_zero.mp hle) h0
  | fuel + 1, n, h0, hle => by
    unfold log2Fuel
    split
    · constructor <;> simp <;> omega
    · have ih := log2Fuel_spec fuel (n / 2) (by omega) (by omega)
      obtain ⟨ih1, ih2⟩ := ih
      simp only [pow_succ] at ih2 ⊢
      generalize 2 ^ log2Fuel fuel (n / 2) = t at ih1 ih2 ⊢
      constructor <;> omega

theorem natLog2_spec (n : ℕ) (h0 : n ≠ 0) : 2 ^ natLog2 n ≤ n ∧ n < 2 ^ (natLog2 n + 1) :=
  log2Fuel_spec n n h0 le_rfl

theorem two_zpow_pos (e : ℤ) : (0 : ℚ) < 2 ^ e := zpow_pos (by norm_num) e

/-- The exponent `ilog2 x` brackets `|x|` between two consecutive powers of 2. -/
theorem ilog2_spec (x : ℚ) (hx : x ≠ 0) : (2 : ℚ) ^ ilog2 x ≤ |x| ∧ |x| < 2 ^ (ilog2 x + 1) := by
  have hp : x.num.natAbs ≠ 0 := by
    simpa using hx
  have hq : x.den ≠ 0 := x.den_nz
  obtain ⟨a1, a2⟩ := natLog2_spec _ hp
  obtain ⟨b1, b2⟩ := natLog2_spec _ hq
  have habs : |x| = (x.num.natAbs : ℚ) / (x.den : ℚ) := by
    rw [Nat.cast_natAbs, ← Rat.num_div_den x, abs_div]
    simp [Rat.num_div_den]
  have a1' : (2 : ℚ) ^ (natLog2 x.num.natAbs : ℤ) ≤ (x.num.natAbs : ℚ) := by
    rw [zpow_natCast]; exact_mod_cast a1
  have a2' : (x.num.natAbs : ℚ) < (2 : ℚ) ^ ((natLog2 x.num.natAbs : ℤ) + 1) := by
    rw [show ((natLog2 x.num.natAbs : ℤ) + 1) = ((natLog2 x.num.natAbs + 1 : ℕ) : ℤ) by push_cast; rfl,
      zpow_natCast]
    exact_mod_cast a2
  have b1' : (2 : ℚ) ^ (natLog2 x.den : ℤ) ≤ (x.den : ℚ) := by
    rw [zpow_natCast]; exact_mod_cast b1
  have b2' : (x.den : ℚ) < (2 : ℚ) ^ ((natLog2 x.den : ℤ) + 1) := by
    rw [show ((natLog2 x.den : ℤ) + 1) = ((natLog2 x.den + 1 : ℕ) : ℤ) by push_cast; rfl,
      zpow_natCast]
    exact_mod_cast b2
  have hqpos : (0 : ℚ) < x.den := by exact_mod_cast Nat.pos_of_ne_zero hq
  have hlow : (2 : ℚ) ^ ((natLog2 x.num.natAbs : ℤ) - natLog2 x.den - 1) ≤ |x| := by
    rw [habs, show ((natLog2 x.num.natAbs : ℤ) - natLog2 x.den - 1) =
      (natLog2 x.num.natAbs : ℤ) - ((natLog2 x.den : ℤ) + 1) by ring, zpow_sub₀ (by norm_num)]
    exact div_le_div₀ (by positivity) a1' hqpos b2'.le
  have hup : |x| < (2 : ℚ) ^ ((natLog2 x.num.natAbs : ℤ) - natLog2 x.den + 1) := by
    rw [habs, show ((natLog2 x.num.natAbs : ℤ) - natLog2 x.den + 1) =
      ((natLog2 x.num.natAbs : ℤ) + 1) - (natLog2 x.den : ℤ) by ring, zpow_sub₀ (by norm_num)]
    exact div_lt_div₀ a2' b1' (two_zpow_pos _).le (two_zpow_pos _)
  unfold ilog2
  simp only
  split
  · rename_i h
    exact ⟨h, hup⟩
  · rename_i h
    refine ⟨hlow, ?_⟩
    rw [sub_add_cancel]
    exact lt_of_not_le h

theorem floor_le_rne (q : ℚ) : ⌊q⌋ ≤ rne q := by
  unfold rne
  simp only
  split_ifs <;> omega

theorem rne_le_floor_add_one (q : ℚ) : rne q ≤ ⌊q⌋ + 1 := by
  unfold rne
  simp only
  split_ifs <;> omega

theorem rne_intCast (n : ℤ) : rne (n : ℚ) = n := by
  simp [rne]

/-- Rounding to the nearest integer is monotone. -/
theorem rne_mono {q1 q2 : ℚ} (h : q1 ≤ q2) : rne q1 ≤ rne q2 := by
  have hf : ⌊q1⌋ ≤ ⌊q2⌋ := Int.floor_le_floor h
  rcases lt_or_eq_of_le hf with hlt | heq
  · calc rne q1 ≤ ⌊q1⌋ + 1 := rne_le_floor_add_one q1
      _ ≤ ⌊q2⌋ := hlt
      _ ≤ rne q2 := floor_le_rne q2
  · unfold rne
    simp only
    rw [heq]
    split_ifs <;> first | omega | linarith

/-- More than half a unit above an integer, the rounded value is above it. -/
theorem lt_rne_of_half_lt (K : ℤ) (q : ℚ) (h : (K : ℚ) + 1 / 2 < q) : K < rne q := by
  have hK : K ≤ ⌊q⌋ := Int.le_floor.mpr (by linarith)
  rcases lt_or_eq_of_le hK with hlt | heq
  · exact lt_of_lt_of_le hlt (floor_le_rne q)
  · unfold rne
    simp only
    rw [← heq]
    split_ifs <;> first | omega | linarith

theorem fl_zero : fl 0 = 0 := by
  simp [fl, rne]

theorem fl_nonneg {x : ℚ} (h : 0 ≤ x) : 0 ≤ fl x := by
  unfold fl
  apply mul_nonneg _ (two_zpow_pos _).le
  have : rne 0 ≤ rne (x / 2 ^ ulpExp x) := rne_mono (div_nonneg h (two_zpow_pos _).le)
  rw [show (0 : ℚ) = ((0 : ℤ) : ℚ) by simp, rne_intCast] at this
  exact_mod_cast this

theorem ilog2_mono {x y : ℚ} (hx : 0 < x) (h : x ≤ y) : ilog2 x ≤ ilog2 y := by
  have hy : 0 < y := lt_of_lt_of_le hx h
  have h1 := (ilog2_spec x hx.ne').1
  have h2 := (ilog2_spec y hy.ne').2
  rw [abs_of_pos hx] at h1
  rw [abs_of_pos hy] at h2
  have : (2 : ℚ) ^ ilog2 x < 2 ^ (ilog2 y + 1) := lt_of_le_of_lt (le_trans h1 h) h2
  rw [zpow_lt_zpow_iff_right₀ (by norm_num)] at this
  omega

theorem ulpExp_ge (x : ℚ) : -1074 ≤ ulpExp x := le_max_right _ _

theorem ulpExp_ge_log (x : ℚ) : ilog2 x - 52 ≤ ulpExp x := le_max_left _ _

theorem ulpExp_mono {x y : ℚ} (hx : 0 < x) (h : x ≤ y) : ulpExp x ≤ ulpExp y :=
  max_le_max (by have := ilog2_mono hx h; omega) le_rfl

/-- Below `2 ^ (ulpExp x + 53)` the rounded value does not exceed that power. -/
theorem fl_le_top {x : ℚ} (hx : 0 < x) : fl x ≤ 2 ^ (ulpExp x + 53) := by
  have h2 := (ilog2_spec x hx.ne').2
  rw [abs_of_pos hx] at h2
  have hle : x ≤ 2 ^ (ulpExp x + 53) :=
    le_trans h2.le (zpow_le_zpow_right₀ (by norm_num) (by have := ulpExp_ge_log x; omega))
  have hq : x / 2 ^ ulpExp x ≤ ((2 ^ 53 : ℤ) : ℚ) := by
    rw [div_le_iff₀ (two_zpow_pos _)]
    rw [zpow_add₀ (by norm_num)] at hle
    push_cast
    rw [mul_comm]
    exact_mod_cast hle
  have := rne_mono hq
  rw [rne_intCast] at this
  unfold fl
  rw [zpow_add₀ (by norm_num), mul_comm ((2 : ℚ) ^ ulpExp x)]
  apply mul_le_mul_of_nonneg_right _ (two_zpow_pos _).le
  exact_mod_cast this

/-- In the normal range the rounded value is at least the bottom of its binade. -/
theorem bot_le_fl {y : ℚ} (hy : 0 < y) (hn : -1074 < ulpExp y) : 2 ^ (ulpExp y + 52) ≤ fl y := by
  have he : ulpExp y = ilog2 y - 52 := by
    unfold ulpExp at hn ⊢
    rcases le_total (ilog2 y - 52) (-1074) with h | h
    · rw [max_eq_right h] at hn; omega
    · exact max_eq_left h
  have h1 := (ilog2_spec y hy.ne').1
  rw [abs_of_pos hy] at h1
  have hle : (2 : ℚ) ^ (ulpExp y + 52) ≤ y := by
    rw [he, sub_add_cancel]; exact h1
  have hq : ((2 ^ 52 : ℤ) : ℚ) ≤ y / 2 ^ ulpExp y := by
    rw [le_div_iff₀ (two_zpow_pos _)]
    rw [zpow_add₀ (by norm_num)] at hle
    push_cast
    rw [mul_comm]
    exact_mod_cast hle
  have := rne_mono hq
  rw [rne_intCast] at this
  unfold fl
  rw [zpow_add₀ (by norm_num), mul_comm ((2 : ℚ) ^ ulpExp y)]
  apply mul_le_mul_of_nonneg_right _ (two_zpow_pos _).le
  exact_mod_cast this

/-- Rounding to the nearest double is monotone on the non-negative rationals. -/
theorem fl_mono {x y : ℚ} (hx : 0 ≤ x) (h : x ≤ y) : fl x ≤ fl y := by
  rcases eq_or_lt_of_le hx with h0 | hpos
  · rw [← h0, fl_zero]; exact fl_nonneg (le_trans hx h)
  · have hy : 0 < y := lt_of_lt_of_le hpos h
    rcases eq_or_lt_of_le (ulpExp_mono hpos h) with he | hlt
    · unfold fl
      rw [← he]
      apply mul_le_mul_of_nonneg_right _ (two_zpow_pos _).le
      have := rne_mono (div_le_div_of_nonneg_right h (two_zpow_pos (ulpExp x)).le)
      exact_mod_cast this
    · calc fl x ≤ 2 ^ (ulpExp x + 53) := fl_le_top hpos
        _ ≤ 2 ^ (ulpExp y + 52) := zpow_le_zpow_right₀ (by norm_num) (by omega)
        _ ≤ fl y := bot_le_fl hy (lt_of_le_of_lt (ulpExp_ge x) hlt)

/-- Rounding the quotient of a millisecond count by the length of a day to a
double does not change its ceiling, for every count of fewer than `2 ^ 27`
days in either direction (the range of JavaScript time values is `10 ^ 8`
days). -/
theorem ceil_fl_div_msPerDay (a : ℤ) (h : |a| < 2 ^ 27 * 86400000) :
    ⌈fl ((a : ℚ) / (24 * 60 * 60 * 1000))⌉ = ⌈(a : ℚ) / (24 * 60 * 60 * 1000)⌉ := by
  have h8 : (24 * 60 * 60 * 1000 : ℚ) = 86400000 := by norm_num
  rw [h8]
  by_cases ha : a = 0
  · simp [ha, fl_zero]
  set q : ℚ := (a : ℚ) / 86400000 with hq
  have hq0 : q ≠ 0 := by
    rw [hq]
    apply div_ne_zero _ (by norm_num)
    exact_mod_cast ha
  have habs : |q| < 2 ^ (27 : ℤ) := by
    rw [hq, abs_div, abs_of_pos (by norm_num : (0 : ℚ) < 86400000), div_lt_iff₀ (by norm_num)]
    have : ((|a| : ℤ) : ℚ) < ((2 ^ 27 * 86400000 : ℤ) : ℚ) := by exact_mod_cast h
    rw [Int.cast_abs] at this
    refine lt_of_lt_of_le this ?_
    norm_num
  have hlog : ilog2 q ≤ 26 := by
    have := lt_of_le_of_lt (ilog2_spec q hq0).1 habs
    rw [zpow_lt_zpow_iff_right₀ (by norm_num)] at this
    omega
  have he : ulpExp q ≤ -26 := by
    unfold ulpExp
    exact max_le (by omega) (by norm_num)
  obtain ⟨n, hn⟩ : ∃ n : ℕ, ulpExp q = -(n : ℤ) := ⟨(-ulpExp q).toNat, by omega⟩
  have hn26 : 26 ≤ n := by omega
  have hP : (2 : ℚ) ^ ulpExp q = ((2 : ℚ) ^ n)⁻¹ := by
    rw [hn, zpow_neg, zpow_natCast]
  have hpos : (0 : ℚ) < 2 ^ n := by positivity
  have hfl : fl q = (rne (q * 2 ^ n) : ℚ) / 2 ^ n := by
    unfold fl
    rw [hP, div_inv_eq_mul, div_eq_mul_inv]
  have hbig : (2 : ℚ) ^ 26 ≤ 2 ^ n := pow_le_pow_right₀ (by norm_num) hn26
  rw [Int.ceil_eq_iff]
  set c : ℤ := ⌈q⌉ with hc
  have hup : q ≤ c := Int.le_ceil q
  have hlo : ((c : ℚ) - 1) < q := by
    have := Int.ceil_lt_add_one q
    rw [← hc] at this
    linarith
  constructor
  · -- the grid point below `q` is more than half a unit away
    have hint : (c - 1) * 86400000 + 1 ≤ a := by
      have h1 : (((c - 1) * 86400000 : ℤ) : ℚ) < (a : ℚ) := by
        rw [hq, lt_div_iff₀ (by norm_num)] at hlo
        push_cast
        exact hlo
      have : (c - 1) * 86400000 < a := by exact_mod_cast h1
      omega
    have hq1 : (c : ℚ) - 1 + 1 / 86400000 ≤ q := by
      rw [hq, le_div_iff₀ (by norm_num)]
      have : (((c - 1) * 86400000 + 1 : ℤ) : ℚ) ≤ (a : ℚ) := by exact_mod_cast hint
      push_cast at this
      linarith
    have hhalf : (((c - 1) * 2 ^ n : ℤ) : ℚ) + 1 / 2 < q * 2 ^ n := by
      push_cast
      have h2 : ((c : ℚ) - 1 + 1 / 86400000) * 2 ^ n ≤ q * 2 ^ n :=
        mul_le_mul_of_nonneg_right hq1 hpos.le
      have h3 : (1 : ℚ) / 2 < 1 / 86400000 * 2 ^ n := by
        have : (1 : ℚ) / 86400000 * 2 ^ 26 ≤ 1 / 86400000 * 2 ^ n :=
          mul_le_mul_of_nonneg_left hbig (by norm_num)
        refine lt_of_lt_of_le ?_ this
        norm_num
      linarith
    have hr := lt_rne_of_half_lt _ _ hhalf
    have hr' : (((c - 1) * 2 ^ n + 1 : ℤ) : ℚ) ≤ (rne (q * 2 ^ n) : ℚ) := by
      exact_mod_cast Int.add_one_le_iff.mpr hr
    rw [hfl, lt_div_iff₀ hpos]
    push_cast at hr'
    linarith
  · have hr : rne (q * 2 ^ n) ≤ rne (((c * 2 ^ n : ℤ) : ℚ)) := by
      apply rne_mono
      push_cast
      exact mul_le_mul_of_nonneg_right hup hpos.le
    rw [rne_intCast] at hr
    rw [hfl, div_le_iff₀ hpos]
    exact_mod_cast hr

/-! ## Auxiliary facts about the embedded functions -/

/-- The counting loop adds the number of required items found in the user's list. -/
theorem foldl_countMatches (userItems : List String) :
    ∀ (requiredItems : List String) (acc : ℕ),
      requiredItems.foldl
        (fun found item => if userItems.contains item then found + 1 else found) acc =
        acc + requiredItems.countP (fun item => userItems.contains item)
  | [], acc => by simp
  | item :: rest, acc => by
    rw [List.foldl_cons, foldl_countMatches userItems rest, List.countP_cons]
    by_cases h : userItems.contains item = true
    · simp only [h, if_true]; omega
    · simp only [h, if_false]; simp

theorem countMatches_eq_countP (userItems requiredItems : List String) :
    countMatches userItems requiredItems =
      requiredItems.countP (fun item => userItems.contains item) := by
  unfold countMatches
  rw [foldl_countMatches]
  simp

theorem countMatches_le_length (userItems requiredItems : List String) :
    countMatches userItems requiredItems ≤ requiredItems.length := by
  rw [countMatches_eq_countP]
  exact List.countP_le_length _

theorem countMatches_eq_length (userItems requiredItems : List String)
    (h : ∀ item ∈ requiredItems, item ∈ userItems) :
    countMatches userItems requiredItems = requiredItems.length := by
  rw [countMatches_eq_countP, List.countP_eq_length]
  intro item hi
  simpa using h item hi

theorem countMatches_eq_zero (userItems requiredItems : List String)
    (h : ∀ item ∈ requiredItems, item ∉ userItems) :
    countMatches userItems requiredItems = 0 := by
  rw [countMatches_eq_countP, List.countP_eq_zero]
  intro item hi
  simpa using h item hi

theorem fl_one : fl 1 = 1 := by decide!

theorem jsMul_nonneg {a b : ℚ} (ha : 0 ≤ a) (hb : 0 ≤ b) : 0 ≤ jsMul a b :=
  fl_nonneg (mul_nonneg ha hb)

theorem jsAdd_nonneg {a b : ℚ} (ha : 0 ≤ a) (hb : 0 ≤ b) : 0 ≤ jsAdd a b :=
  fl_nonneg (add_nonneg ha hb)

theorem jsMul_mono {a a' b : ℚ} (ha : 0 ≤ a) (hb : 0 ≤ b) (h : a ≤ a') :
    jsMul a b ≤ jsMul a' b :=
  fl_mono (mul_nonneg ha hb) (mul_le_mul_of_nonneg_right h hb)

theorem jsAdd_mono {a a' b b' : ℚ} (ha : 0 ≤ a) (hb : 0 ≤ b) (h : a ≤ a') (h' : b ≤ b') :
    jsAdd a b ≤ jsAdd a' b' :=
  fl_mono (add_nonneg ha hb) (add_le_add h h')

theorem jsLit_nonneg {x : ℚ} (h : 0 ≤ x) : 0 ≤ jsLit x := fl_nonneg h

theorem calculateMatchPercentage_nonneg (userItems requiredItems : List String) :
    0 ≤ calculateMatchPercentage userItems requiredItems := by
  unfold calculateMatchPercentage
  split
  · exact le_rfl
  · exact jsMul_nonneg (fl_nonneg (div_nonneg (Nat.cast_nonneg _) (Nat.cast_nonneg _)))
      (by norm_num)

theorem calculateMatchPercentage_le (userItems requiredItems : List String) :
    calculateMatchPercentage userItems requiredItems ≤ 100 := by
  unfold calculateMatchPercentage
  split
  · norm_num
  · have hq : ((countMatches userItems requiredItems : ℕ) : ℚ) / (requiredItems.length : ℚ) ≤ 1 := by
      apply div_le_one_of_le₀ _ (Nat.cast_nonneg _)
      exact_mod_cast countMatches_le_length userItems requiredItems
    have h0 : (0 : ℚ) ≤ ((countMatches userItems requiredItems : ℕ) : ℚ) / (requiredItems.length : ℚ) :=
      div_nonneg (Nat.cast_nonneg _) (Nat.cast_nonneg _)
    have h1 : jsDiv (countMatches userItems requiredItems) requiredItems.length ≤ 1 := by
      have := fl_mono h0 hq
      rwa [fl_one] at this
    have h2 := jsMul_mono (fl_nonneg h0) (by norm_num : (0 : ℚ) ≤ 100) h1
    have h3 : jsMul 1 100 = 100 := by decide!
    rw [h3] at h2
    exact h2

theorem weightedSum_nonneg {s c a p u : ℚ} (hs : 0 ≤ s) (hc : 0 ≤ c) (ha : 0 ≤ a) (hp : 0 ≤ p)
    (hu : 0 ≤ u) : 0 ≤ weightedSum s c a p u := by
  unfold weightedSum
  have l1 : (0 : ℚ) ≤ jsLit (4 / 10) := jsLit_nonneg (by norm_num)
  have l2 : (0 : ℚ) ≤ jsLit (25 / 100) := jsLit_nonneg (by norm_num)
  have l3 : (0 : ℚ) ≤ jsLit (2 / 10) := jsLit_nonneg (by norm_num)
  have l4 : (0 : ℚ) ≤ jsLit (1 / 10) := jsLit_nonneg (by norm_num)
  have l5 : (0 : ℚ) ≤ jsLit (5 / 100) := jsLit_nonneg (by norm_num)
  exact jsAdd_nonneg (jsAdd_nonneg (jsAdd_nonneg (jsAdd_nonneg (jsMul_nonneg hs l1)
    (jsMul_nonneg hc l2)) (jsMul_nonneg ha l3)) (jsMul_nonneg hp l4)) (jsMul_nonneg hu l5)

/-- The weighted sum is monotone in each of its five non-negative arguments. -/
theorem weightedSum_mono {s c a p u s' c' a' p' u' : ℚ} (hs : 0 ≤ s) (hc : 0 ≤ c) (ha : 0 ≤ a)
    (hp : 0 ≤ p) (hu : 0 ≤ u) (hss : s ≤ s') (hcc : c ≤ c') (haa : a ≤ a') (hpp : p ≤ p')
    (huu : u ≤ u') : weightedSum s c a p u ≤ weightedSum s' c' a' p' u' := by
  unfold weightedSum
  have l1 : (0 : ℚ) ≤ jsLit (4 / 10) := jsLit_nonneg (by norm_num)
  have l2 : (0 : ℚ) ≤ jsLit (25 / 100) := jsLit_nonneg (by norm_num)
  have l3 : (0 : ℚ) ≤ jsLit (2 / 10) := jsLit_nonneg (by norm_num)
  have l4 : (0 : ℚ) ≤ jsLit (1 / 10) := jsLit_nonneg (by norm_num)
  have l5 : (0 : ℚ) ≤ jsLit (5 / 100) := jsLit_nonneg (by norm_num)
  have t1 := jsMul_nonneg hs l1
  have t2 := jsMul_nonneg hc l2
  have t3 := jsMul_nonneg ha l3
  have t4 := jsMul_nonneg hp l4
  have t5 := jsMul_nonneg hu l5
  exact jsAdd_mono (jsAdd_nonneg (jsAdd_nonneg (jsAdd_nonneg t1 t2) t3) t4) t5
    (jsAdd_mono (jsAdd_nonneg (jsAdd_nonneg t1 t2) t3) t4
      (jsAdd_mono (jsAdd_nonneg t1 t2) t3
        (jsAdd_mono t1 t2 (jsMul_mono hs l1 hss) (jsMul_mono hc l2 hcc))
        (jsMul_mono ha l3 haa))
      (jsMul_mono hp l4 hpp))
    (jsMul_mono hu l5 huu)

/-- Five sub-scores of 100 sum to exactly 100 in double arithmetic. -/
theorem weightedSum_top : weightedSum 100 100 100 100 100 = 100 := by decide!

/-- Every weighted sum of sub-scores between 0 and 100 is at most 100. -/
theorem weightedSum_le {s c a p u : ℚ} (hs : 0 ≤ s) (hc : 0 ≤ c) (ha : 0 ≤ a) (hp : 0 ≤ p)
    (hu : 0 ≤ u) (hs' : s ≤ 100) (hc' : c ≤ 100) (ha' : a ≤ 100) (hp' : p ≤ 100)
    (hu' : u ≤ 100) : weightedSum s c a p u ≤ 100 := by
  have := weightedSum_mono hs hc ha hp hu hs' hc' ha' hp' hu'
  rwa [weightedSum_top] at this

theorem causeMatch_cases (volunteer : User) (position : Position) :
    causeMatch volunteer position = 0 ∨ causeMatch volunteer position = 100 := by
  unfold causeMatch
  split
  · split <;> simp
  · simp

theorem proximityMatch_cases (volunteer : User) (position : Position) :
    proximityMatch volunteer position = 0 ∨ proximityMatch volunteer position = 100 := by
  unfold proximityMatch
  split <;> simp

theorem urgencyScore_of_some (position : Position) (u : ℤ) (h : position.urgency = some u)
    (h0 : u ≠ 0) : urgencyScore position = jsMul u 20 := by
  simp [urgencyScore, h, truthy, h0]

theorem jsMul_urgency_range (u : ℤ) (h1 : 1 ≤ u) (h5 : u ≤ 5) :
    0 ≤ jsMul (u : ℚ) 20 ∧ jsMul (u : ℚ) 20 ≤ 100 := by
  have hu0 : (0 : ℚ) ≤ (u : ℚ) := by exact_mod_cast (by omega : (0 : ℤ) ≤ u)
  refine ⟨jsMul_nonneg hu0 (by norm_num), ?_⟩
  have h := jsMul_mono hu0 (by norm_num : (0 : ℚ) ≤ 20)
    (by exact_mod_cast h5 : (u : ℚ) ≤ ((5 : ℤ) : ℚ))
  have e : jsMul ((5 : ℤ) : ℚ) 20 = 100 := by decide!
  rwa [e] at h

theorem jsRound_range {x : ℚ} (h0 : 0 ≤ x) (h1 : x ≤ 100) : 0 ≤ jsRound x ∧ jsRound x ≤ 100 := by
  unfold jsRound
  constructor
  · exact Int.floor_nonneg.mpr (by linarith)
  · have : ⌊x + 1 / 2⌋ < 101 := Int.floor_lt.mpr (by push_cast; linarith)
    omega

theorem jsDiv_zero_mul (n : ℚ) : jsMul (jsDiv ((0 : ℕ) : ℚ) n) 100 = 0 := by
  simp [jsMul, jsDiv, fl_zero]

theorem calculateMatchPercentage_of_subset (userItems requiredItems : List String)
    (hne : requiredItems ≠ []) (h : ∀ item ∈ requiredItems, item ∈ userItems) :
    calculateMatchPercentage userItems requiredItems = 100 := by
  have hu : userItems ≠ [] := by
    obtain ⟨item, hi⟩ := List.exists_mem_of_ne_nil _ hne
    exact List.ne_nil_of_mem (h item hi)
  have hlen : (requiredItems.length : ℚ) ≠ 0 := by
    exact_mod_cast (fun h0 => hne (List.length_eq_zero.mp h0))
  unfold calculateMatchPercentage
  rw [if_neg (by simp [hu, hne]), countMatches_eq_length _ _ h]
  have e : jsMul 1 100 = 100 := by decide!
  rw [jsDiv, div_self hlen, fl_one, e]

theorem calculateMatchPercentage_of_disjoint (userItems requiredItems : List String)
    (h : ∀ item ∈ requiredItems, item ∉ userItems) :
    calculateMatchPercentage userItems requiredItems = 0 := by
  unfold calculateMatchPercentage
  split
  · rfl
  · rw [countMatches_eq_zero _ _ h, jsDiv_zero_mul]

/-- Every ratio `m / n` with `m ≤ n ≤ 4` is one of seven fractions. -/
theorem ratio_mem_smallRatios (m n : ℕ) (hm : m ≤ n) (hn : n ≤ 4) :
    (m : ℚ) / (n : ℚ) ∈ smallRatios := by
  unfold smallRatios
  interval_cases n <;> interval_cases m <;> norm_num

/-- The rounded double-precision sum agrees with round-half-up of the exact
sum for every pair of match ratios with denominators up to 4, either cause and
proximity value and every urgency in 1..5 (checked case by case). -/
theorem jsRound_weightedSum_small :
    ∀ r ∈ smallRatios, ∀ t ∈ smallRatios, ∀ c ∈ [(0 : ℚ), 100], ∀ p ∈ [(0 : ℚ), 100],
      ∀ u ∈ [(1 : ℤ), 2, 3, 4, 5],
        jsRound (weightedSum (jsMul (fl r) 100) c (jsMul (fl t) 100) p (jsMul (u : ℚ) 20)) =
          ⌊(40 * (r * 100) + 25 * c + 20 * (t * 100) + 10 * p + 5 * ((u : ℚ) * 20)) / 100 +
            1 / 2⌋ := by
  decide!

/-- Both match percentages are determined by a number of matches `m` out of
the length of the required list. -/
theorem matchPercentage_ratio (userItems requiredItems : List String) :
    ∃ m : ℕ, m ≤ requiredItems.length ∧
      calculateMatchPercentage userItems requiredItems =
        jsMul (jsDiv (m : ℚ) (requiredItems.length : ℚ)) 100 ∧
      exactMatchPercentage userItems requiredItems =
        (m : ℚ) / (requiredItems.length : ℚ) * 100 := by
  by_cases h : userItems.length = 0 ∨ requiredItems.length = 0
  · refine ⟨0, Nat.zero_le _, ?_, ?_⟩
    · rw [jsDiv_zero_mul]; simp only [calculateMatchPercentage, if_pos h]
    · simp only [exactMatchPercentage, if_pos h]; simp
  · refine ⟨countMatches userItems requiredItems, countMatches_le_length _ _, ?_, ?_⟩
    · simp only [calculateMatchPercentage, if_neg h]
    · simp only [exactMatchPercentage, if_neg h, countMatches_eq_countP]

/-- With both fields present and non-zero, `isPositionExpired` compares `now`
with the expiry instant. -/
theorem isPositionExpired_eq (position : Position) (now createdAt validForDays : ℤ)
    (hc : position.createdAt = some createdAt) (hv : position.validForDays = some validForDays)
    (hc0 : createdAt ≠ 0) (hv0 : validForDays ≠ 0) :
    isPositionExpired position now = decide (now > createdAt + validForDays * 86400000) := by
  have h : validityMs validForDays = validForDays * 86400000 := by
    unfold validityMs; ring
  simp [isPositionExpired, hc, hv, truthy, hc0, hv0, h]

/-- With both fields present, `getDaysRemaining` of a position that is not
expired is the clamped ceiling of the remaining time in days. -/
theorem getDaysRemaining_eq (position : Position) (now createdAt validForDays : ℤ)
    (hc : position.createdAt = some createdAt) (hv : position.validForDays = some validForDays)
    (h : isPositionExpired position now = false) :
    getDaysRemaining position now =
      some (max 0 ⌈((createdAt + validForDays * 86400000 - now : ℤ) : ℚ) / 86400000⌉) := by
  have hm : validityMs validForDays = validForDays * 86400000 := by
    unfold validityMs; ring
  have h8 : (24 * 60 * 60 * 1000 : ℚ) = 86400000 := by norm_num
  simp only [getDaysRemaining, h, hc, hv, hm, h8]
  simp

/-! ## Rounding error of the weighted sum -/

/-- Rounding to the nearest integer moves a number by at most one half. -/
theorem abs_rne_sub_le (q : ℚ) : |(rne q : ℚ) - q| ≤ 1 / 2 := by
  have h1 : ((⌊q⌋ : ℤ) : ℚ) ≤ q := Int.floor_le q
  have h2 : q < ((⌊q⌋ : ℤ) : ℚ) + 1 := Int.lt_floor_add_one q
  rw [abs_le]
  unfold rne
  simp only
  split_ifs <;> push_cast <;> constructor <;> linarith

/-- Rounding to the nearest double moves a number by at most half a unit in
the last place. -/
theorem abs_fl_sub_le (x : ℚ) : |fl x - x| ≤ 2 ^ ulpExp x / 2 := by
  have hP := two_zpow_pos (ulpExp x)
  have hx : x = x / 2 ^ ulpExp x * 2 ^ ulpExp x := by
    rw [div_mul_cancel₀ _ hP.ne']
  have e : fl x - x = ((rne (x / 2 ^ ulpExp x) : ℚ) - x / 2 ^ ulpExp x) * 2 ^ ulpExp x := by
    unfold fl
    rw [sub_mul, ← hx]
  rw [e, abs_mul, abs_of_pos hP]
  have := abs_rne_sub_le (x / 2 ^ ulpExp x)
  calc |(rne (x / 2 ^ ulpExp x) : ℚ) - x / 2 ^ ulpExp x| * 2 ^ ulpExp x
      ≤ 1 / 2 * 2 ^ ulpExp x := mul_le_mul_of_nonneg_right this hP.le
    _ = 2 ^ ulpExp x / 2 := by ring

/-- Below 128 in absolute value, rounding to a double moves a number by at
most `2 ^ (-47)`. -/
theorem abs_fl_sub_le_small (x : ℚ) (h : |x| < 128) : |fl x - x| ≤ 1 / 2 ^ 47 := by
  by_cases h0 : x = 0
  · rw [h0, fl_zero]; norm_num
  · have hlog : ilog2 x ≤ 6 := by
      have h7 : |x| < (2 : ℚ) ^ (7 : ℤ) := by
        refine lt_of_lt_of_le h ?_
        norm_num
      have := lt_of_le_of_lt (ilog2_spec x h0).1 h7
      rw [zpow_lt_zpow_iff_right₀ (by norm_num)] at this
      omega
    have he : ulpExp x ≤ -46 := by
      unfold ulpExp
      exact max_le (by omega) (by norm_num)
    have hz : (2 : ℚ) ^ ulpExp x ≤ 2 ^ (-46 : ℤ) := zpow_le_zpow_right₀ (by norm_num) he
    have h46 : (2 : ℚ) ^ (-46 : ℤ) = 1 / 2 ^ 46 := by
      rw [zpow_neg, one_div]; norm_cast
    calc |fl x - x| ≤ 2 ^ ulpExp x / 2 := abs_fl_sub_le x
      _ ≤ 1 / 2 ^ 46 / 2 := by
        rw [← h46]; exact div_le_div_of_nonneg_right hz (by norm_num)
      _ = 1 / 2 ^ 47 := by norm_num

/-- Error of a rounded product of two approximated factors. -/
theorem jsMul_err {a b a0 b0 ea eb : ℚ} (ha : |a - a0| ≤ ea) (hb : |b - b0| ≤ eb)
    (hab : |a * b| < 128) :
    |jsMul a b - a0 * b0| ≤ 1 / 2 ^ 47 + |a| * eb + |b0| * ea := by
  have h1 := abs_fl_sub_le_small (a * b) hab
  have e : jsMul a b - a0 * b0 = (fl (a * b) - a * b) + (a * (b - b0) + b0 * (a - a0)) := by
    unfold jsMul; ring
  rw [e]
  have h2 : |a * (b - b0)| ≤ |a| * eb := by
    rw [abs_mul]; exact mul_le_mul_of_nonneg_left hb (abs_nonneg a)
  have h3 : |b0 * (a - a0)| ≤ |b0| * ea := by
    rw [abs_mul]; exact mul_le_mul_of_nonneg_left ha (abs_nonneg b0)
  calc |(fl (a * b) - a * b) + (a * (b - b0) + b0 * (a - a0))|
      ≤ |fl (a * b) - a * b| + |a * (b - b0) + b0 * (a - a0)| := abs_add _ _
    _ ≤ |fl (a * b) - a * b| + (|a * (b - b0)| + |b0 * (a - a0)|) := by
        linarith [abs_add (a * (b - b0)) (b0 * (a - a0))]
    _ ≤ 1 / 2 ^ 47 + |a| * eb + |b0| * ea := by linarith

/-- Error of a rounded sum of two approximated terms. -/
theorem jsAdd_err {a b a0 b0 ea eb : ℚ} (ha : |a - a0| ≤ ea) (hb : |b - b0| ≤ eb)
    (hab : |a + b| < 128) :
    |jsAdd a b - (a0 + b0)| ≤ 1 / 2 ^ 47 + ea + eb := by
  have h1 := abs_fl_sub_le_small (a + b) hab
  have e : jsAdd a b - (a0 + b0) = (fl (a + b) - (a + b)) + ((a - a0) + (b - b0)) := by
    unfold jsAdd; ring
  rw [e]
  calc |(fl (a + b) - (a + b)) + ((a - a0) + (b - b0))|
      ≤ |fl (a + b) - (a + b)| + |(a - a0) + (b - b0)| := abs_add _ _
    _ ≤ |fl (a + b) - (a + b)| + (|a - a0| + |b - b0|) := by
        linarith [abs_add (a - a0) (b - b0)]
    _ ≤ 1 / 2 ^ 47 + ea + eb := by linarith

theorem abs_mul_lt {a b A B : ℚ} (ha : |a| ≤ A) (hb : |b| ≤ B) (h : A * B < 128) :
    |a * b| < 128 := by
  rw [abs_mul]
  exact lt_of_le_of_lt (mul_le_mul ha hb (abs_nonneg b) (le_trans (abs_nonneg a) ha)) h

theorem abs_le_of_err {x x0 e B : ℚ} (h : |x - x0| ≤ e) (h0 : |x0| ≤ B) : |x| ≤ B + e := by
  have : x = x0 + (x - x0) := by ring
  rw [this]
  linarith [abs_add x0 (x - x0)]

theorem jsLit_err (x : ℚ) (h : |x| < 128) : |jsLit x - x| ≤ 1 / 2 ^ 47 :=
  abs_fl_sub_le_small x h

/-- The double match percentage is within `101 * 2 ^ (-47)` of the exact one,
which lies between 0 and 100. -/
theorem calculateMatchPercentage_err (userItems requiredItems : List String) :
    |calculateMatchPercentage userItems requiredItems -
        exactMatchPercentage userItems requiredItems| ≤ 101 / 2 ^ 47 ∧
      0 ≤ exactMatchPercentage userItems requiredItems ∧
      exactMatchPercentage userItems requiredItems ≤ 100 := by
  obtain ⟨m, hm, e1, x1⟩ := matchPercentage_ratio userItems requiredItems
  have hx0 : (0 : ℚ) ≤ (m : ℚ) / (requiredItems.length : ℚ) :=
    div_nonneg (Nat.cast_nonneg _) (Nat.cast_nonneg _)
  have hx1 : (m : ℚ) / (requiredItems.length : ℚ) ≤ 1 := by
    apply div_le_one_of_le₀ _ (Nat.cast_nonneg _)
    exact_mod_cast hm
  have hxa : |(m : ℚ) / (requiredItems.length : ℚ)| ≤ 1 := by
    rw [abs_of_nonneg hx0]; exact hx1
  have hd : |jsDiv (m : ℚ) (requiredItems.length : ℚ) - (m : ℚ) / (requiredItems.length : ℚ)| ≤
      1 / 2 ^ 47 := abs_fl_sub_le_small _ (lt_of_le_of_lt hxa (by norm_num))
  have hda := abs_le_of_err hd hxa
  have h100 : |(100 : ℚ) - 100| ≤ 0 := by norm_num
  have hprod : |jsDiv (m : ℚ) (requiredItems.length : ℚ) * 100| < 128 :=
    abs_mul_lt hda (by norm_num : |(100 : ℚ)| ≤ 100) (by norm_num)
  have := jsMul_err hd h100 hprod
  rw [e1, x1]
  refine ⟨?_, by positivity, by linarith⟩
  have h3 : |(100 : ℚ)| = 100 := by norm_num
  rw [h3] at this
  linarith

/-- The cause and proximity terms and the urgency term are computed without
rounding error. -/
theorem exact_terms :
    (∀ c ∈ [(0 : ℚ), 100], jsMul c (jsLit (25 / 100)) = 25 * c / 100 ∧
      jsMul c (jsLit (1 / 10)) = 10 * c / 100) ∧
      ∀ u ∈ [(1 : ℤ), 2, 3, 4, 5], jsMul (jsMul (u : ℚ) 20) (jsLit (5 / 100)) = (u : ℚ) := by
  decide!

/-- The double-precision weighted sum is within `2 ^ (-38)` of the exact one. -/
theorem weightedSum_err {s a s0 a0 c p : ℚ} {u : ℤ} (hs : |s - s0| ≤ 101 / 2 ^ 47)
    (ha : |a - a0| ≤ 101 / 2 ^ 47) (hs0 : 0 ≤ s0) (hs1 : s0 ≤ 100) (ha0 : 0 ≤ a0)
    (ha1 : a0 ≤ 100) (hc : c ∈ [(0 : ℚ), 100]) (hp : p ∈ [(0 : ℚ), 100])
    (hu : u ∈ [(1 : ℤ), 2, 3, 4, 5]) :
    |weightedSum s c a p (jsMul (u : ℚ) 20) -
        (40 * s0 + 25 * c + 20 * a0 + 10 * p + 5 * ((u : ℚ) * 20)) / 100| ≤ 1 / 2 ^ 38 := by
  have k4 := jsLit_err (4 / 10) (by rw [abs_of_pos (by norm_num)]; norm_num)
  have k2 := jsLit_err (2 / 10) (by rw [abs_of_pos (by norm_num)]; norm_num)
  have k4a := abs_le_of_err k4 (by rw [abs_of_pos (by norm_num)] : |(4 / 10 : ℚ)| ≤ 4 / 10)
  have k2a := abs_le_of_err k2 (by rw [abs_of_pos (by norm_num)] : |(2 / 10 : ℚ)| ≤ 2 / 10)
  have hsa := abs_le_of_err hs (by rw [abs_of_nonneg hs0]; exact hs1 : |s0| ≤ 100)
  have haa := abs_le_of_err ha (by rw [abs_of_nonneg ha0]; exact ha1 : |a0| ≤ 100)
  -- the two rounded products
  have t1 := jsMul_err hs k4 (abs_mul_lt hsa k4a (by norm_num))
  have t3 := jsMul_err ha k2 (abs_mul_lt haa k2a (by norm_num))
  have e4 : |(4 / 10 : ℚ)| = 4 / 10 := by rw [abs_of_pos]; norm_num
  have e2 : |(2 / 10 : ℚ)| = 2 / 10 := by rw [abs_of_pos]; norm_num
  rw [e4] at t1
  rw [e2] at t3
  have t1' : |jsMul s (jsLit (4 / 10)) - s0 * (4 / 10)| ≤ 143 / 2 ^ 47 := by
    have : |s| * (1 / 2 ^ 47) ≤ (100 + 101 / 2 ^ 47) * (1 / 2 ^ 47) :=
      mul_le_mul_of_nonneg_right hsa (by norm_num)
    norm_num at this t1 ⊢
    linarith
  have t3' : |jsMul a (jsLit (2 / 10)) - a0 * (2 / 10)| ≤ 123 / 2 ^ 47 := by
    have : |a| * (1 / 2 ^ 47) ≤ (100 + 101 / 2 ^ 47) * (1 / 2 ^ 47) :=
      mul_le_mul_of_nonneg_right haa (by norm_num)
    norm_num at this t3 ⊢
    linarith
  -- the three exact products
  obtain ⟨x2, -⟩ := exact_terms.1 c hc
  obtain ⟨-, x4⟩ := exact_terms.1 p hp
  have x5 := exact_terms.2 u hu
  have hcb : 0 ≤ c ∧ c ≤ 100 := by
    simp only [List.mem_cons, List.mem_singleton, List.not_mem_nil, or_false] at hc
    rcases hc with h | h <;> rw [h] <;> norm_num
  have hpb : 0 ≤ p ∧ p ≤ 100 := by
    simp only [List.mem_cons, List.mem_singleton, List.not_mem_nil, or_false] at hp
    rcases hp with h | h <;> rw [h] <;> norm_num
  have hub : (1 : ℚ) ≤ (u : ℚ) ∧ (u : ℚ) ≤ 5 := by
    simp only [List.mem_cons, List.mem_singleton, List.not_mem_nil, or_false] at hu
    rcases hu with h | h | h | h | h <;> rw [h] <;> norm_num
  have z2 : |jsMul c (jsLit (25 / 100)) - 25 * c / 100| ≤ 0 := by rw [x2]; simp
  have z4 : |jsMul p (jsLit (1 / 10)) - 10 * p / 100| ≤ 0 := by rw [x4]; simp
  have z5 : |jsMul (jsMul (u : ℚ) 20) (jsLit (5 / 100)) - (u : ℚ)| ≤ 0 := by rw [x5]; simp
  -- magnitudes of the terms
  have b1 := abs_le_of_err t1' (by rw [abs_of_nonneg (by positivity)]; linarith :
    |s0 * (4 / 10)| ≤ 40)
  have b3 := abs_le_of_err t3' (by rw [abs_of_nonneg (by positivity)]; linarith :
    |a0 * (2 / 10)| ≤ 20)
  have b2 : |jsMul c (jsLit (25 / 100))| ≤ 25 := by
    rw [x2, abs_of_nonneg (by linarith)]; linarith
  have b4 : |jsMul p (jsLit (1 / 10))| ≤ 10 := by
    rw [x4, abs_of_nonneg (by linarith)]; linarith
  have b5 : |jsMul (jsMul (u : ℚ) 20) (jsLit (5 / 100))| ≤ 5 := by
    rw [x5, abs_of_nonneg (by linarith)]; linarith
  -- the four rounded additions
  have s1 := jsAdd_err t1' z2 (lt_of_le_of_lt (abs_add _ _) (by norm_num at b1 ⊢; linarith))
  have c1 := abs_le_of_err s1 (by
    rw [abs_of_nonneg (by linarith)]; linarith : |s0 * (4 / 10) + 25 * c / 100| ≤ 65)
  have s2 := jsAdd_err s1 t3' (lt_of_le_of_lt (abs_add _ _) (by norm_num at c1 b3 ⊢; linarith))
  have c2 := abs_le_of_err s2 (by
    rw [abs_of_nonneg (by linarith)]; linarith :
      |s0 * (4 / 10) + 25 * c / 100 + a0 * (2 / 10)| ≤ 85)
  have s3 := jsAdd_err s2 z4 (lt_of_le_of_lt (abs_add _ _) (by norm_num at c2 b4 ⊢; linarith))
  have c3 := abs_le_of_err s3 (by
    rw [abs_of_nonneg (by linarith)]; linarith :
      |s0 * (4 / 10) + 25 * c / 100 + a0 * (2 / 10) + 10 * p / 100| ≤ 95)
  have s4 := jsAdd_err s3 z5 (lt_of_le_of_lt (abs_add _ _) (by norm_num at c3 b5 ⊢; linarith))
  have e : (40 * s0 + 25 * c + 20 * a0 + 10 * p + 5 * ((u : ℚ) * 20)) / 100 =
      s0 * (4 / 10) + 25 * c / 100 + a0 * (2 / 10) + 10 * p / 100 + (u : ℚ) := by ring
  unfold weightedSum
  rw [e]
  refine le_trans s4 ?_
  norm_num

/-- A number within `ε` of a multiple `E` of `1 / (2 * D)`, with
`2 * D * ε < 1`, has the floor of `E`, unless `E` is an integer, where its
floor may be one less. -/
theorem floor_near_grid (T : ℤ) (D : ℕ) (hD : 0 < D) (w E ε : ℚ)
    (hE : E = (T : ℚ) / (2 * (D : ℚ))) (hw : |w - E| ≤ ε) (hε : 2 * (D : ℚ) * ε < 1) :
    ⌊w⌋ = ⌊E⌋ ∨ (E = ((⌊E⌋ : ℤ) : ℚ) ∧ ⌊w⌋ = ⌊E⌋ - 1) := by
  have hd : (0 : ℚ) < 2 * (D : ℚ) := by
    have : (0 : ℚ) < (D : ℚ) := by exact_mod_cast hD
    linarith
  have hd1 : (1 : ℚ) ≤ (D : ℚ) := by exact_mod_cast hD
  have hT : (T : ℚ) = E * (2 * (D : ℚ)) := by
    rw [hE, div_mul_cancel₀ _ hd.ne']
  obtain ⟨hw1, hw2⟩ := abs_le.mp hw
  have hε0 : 0 ≤ ε := le_trans (abs_nonneg _) hw
  have hε1 : ε < 1 := by nlinarith
  set z : ℤ := ⌊E⌋ with hz
  have hz1 : (z : ℚ) ≤ E := Int.floor_le E
  have hz2 : E < (z : ℚ) + 1 := Int.lt_floor_add_one E
  have hTz : z * (2 * (D : ℤ)) ≤ T := by
    have : ((z * (2 * (D : ℤ)) : ℤ) : ℚ) ≤ (T : ℚ) := by
      push_cast
      rw [hT]
      exact mul_le_mul_of_nonneg_right hz1 hd.le
    exact_mod_cast this
  have hTz' : T < (z + 1) * (2 * (D : ℤ)) := by
    have : (T : ℚ) < (((z + 1) * (2 * (D : ℤ)) : ℤ) : ℚ) := by
      push_cast
      rw [hT]
      exact mul_lt_mul_of_pos_right hz2 hd
    exact_mod_cast this
  rcases eq_or_lt_of_le hTz with heq | hlt
  · have hEz : E = (z : ℚ) := by
      have : (T : ℚ) = (z : ℚ) * (2 * (D : ℚ)) := by
        rw [← heq]; push_cast; ring
      rw [hT] at this
      exact mul_right_cancel₀ hd.ne' this
    by_cases hwz : (z : ℚ) ≤ w
    · left
      rw [Int.floor_eq_iff]
      exact ⟨hwz, by linarith⟩
    · right
      refine ⟨hEz, ?_⟩
      rw [Int.floor_eq_iff]
      push_cast
      constructor <;> linarith
  · left
    have h1 : ((z * (2 * (D : ℤ)) + 1 : ℤ) : ℚ) ≤ (T : ℚ) := by
      exact_mod_cast Int.add_one_le_iff.mpr hlt
    have h2 : (T : ℚ) + 1 ≤ (((z + 1) * (2 * (D : ℤ)) : ℤ) : ℚ) := by
      exact_mod_cast Int.add_one_le_iff.mpr hTz'
    push_cast at h1 h2
    rw [hT] at h1 h2
    rw [Int.floor_eq_iff]
    constructor
    · nlinarith
    · nlinarith

/-- A number within `ε < 1` of `E` has a floor within 1 of the floor of `E`. -/
theorem floor_near (w E ε : ℚ) (hw : |w - E| ≤ ε) (hε : ε < 1) :
    ⌊E⌋ - 1 ≤ ⌊w⌋ ∧ ⌊w⌋ ≤ ⌊E⌋ + 1 := by
  obtain ⟨hw1, hw2⟩ := abs_le.mp hw
  have hz1 : ((⌊E⌋ : ℤ) : ℚ) ≤ E := Int.floor_le E
  have hz2 : E < ((⌊E⌋ : ℤ) : ℚ) + 1 := Int.lt_floor_add_one E
  constructor
  · rw [Int.le_floor]
    push_cast
    linarith
  · have : ⌊w⌋ < ⌊E⌋ + 2 := by
      rw [Int.floor_lt]
      push_cast
      linarith
    omega

/-- Every ratio `m / n` of natural numbers (0 when `n = 0`) can be written
with a positive denominator that is at most `n` or 1. -/
theorem ratio_normal (m n : ℕ) :
    ∃ m' n' : ℕ, 0 < n' ∧ n' ≤ max n 1 ∧ (m : ℚ) / (n : ℚ) = (m' : ℚ) / (n' : ℚ) := by
  rcases Nat.eq_zero_or_pos n with h | h
  · exact ⟨0, 1, by norm_num, by simp, by simp [h]⟩
  · exact ⟨m, n, h, le_max_left _ _, rfl⟩

/-- With at most four required skills and four availability windows the score
is the round-half-up of the exact weighted sum. -/
theorem score_eq_exact_of_small (volunteer : User) (position : Position) (urgency : ℤ)
    (hu : position.urgency = some urgency) (h1 : 1 ≤ urgency) (h5 : urgency ≤ 5)
    (hr : (position.requiredSkills.getD []).length ≤ 4)
    (ha : (position.availability.getD []).length ≤ 4) :
    calculateRelevanceScore (some volunteer) (some position) =
      exactRelevanceScore volunteer position urgency := by
  obtain ⟨m, hm, e1, x1⟩ :=
    matchPercentage_ratio (volunteer.skills.getD []) (position.requiredSkills.getD [])
  obtain ⟨k, hk, e2, x2⟩ :=
    matchPercentage_ratio (volunteer.availability.getD []) (position.availability.getD [])
  have hc : causeMatch volunteer position ∈ [(0 : ℚ), 100] := by
    rcases causeMatch_cases volunteer position with h | h <;> simp [h]
  have hp : proximityMatch volunteer position ∈ [(0 : ℚ), 100] := by
    rcases proximityMatch_cases volunteer position with h | h <;> simp [h]
  have hmem : urgency ∈ [(1 : ℤ), 2, 3, 4, 5] := by
    simp only [List.mem_cons, List.mem_singleton]
    omega
  have key := jsRound_weightedSum_small _ (ratio_mem_smallRatios m _ hm hr) _
    (ratio_mem_smallRatios k _ hk ha) _ hc _ hp _ hmem
  simp only [calculateRelevanceScore, exactRelevanceScore, exactWeightedSum, e1, e2, x1, x2,
    urgencyScore_of_some position urgency hu (by omega), jsDiv]
  exact key

/-- The exact weighted sum plus one half is a multiple of `1 / (2 * D)` for a
positive `D` below `2 ^ 36`, when both lists of the position have fewer than
`2 ^ 18` entries. -/
theorem exactWeightedSum_grid (volunteer : User) (position : Position) (urgency : ℤ)
    (hr : (position.requiredSkills.getD []).length < 2 ^ 18)
    (ha : (position.availability.getD []).length < 2 ^ 18) :
    ∃ (T : ℤ) (D : ℕ), 0 < D ∧ D < 2 ^ 36 ∧
      exactWeightedSum volunteer position urgency + 1 / 2 = (T : ℚ) / (2 * (D : ℚ)) := by
  obtain ⟨m, -, -, x1⟩ :=
    matchPercentage_ratio (volunteer.skills.getD []) (position.requiredSkills.getD [])
  obtain ⟨k, -, -, x2⟩ :=
    matchPercentage_ratio (volunteer.availability.getD []) (position.availability.getD [])
  obtain ⟨m', n', hn0, hn, en⟩ := ratio_normal m (position.requiredSkills.getD []).length
  obtain ⟨k', l', hl0, hl, el⟩ := ratio_normal k (position.availability.getD []).length
  obtain ⟨C, hC⟩ : ∃ C : ℤ, causeMatch volunteer position = 4 * (C : ℚ) := by
    rcases causeMatch_cases volunteer position with h | h
    · exact ⟨0, by rw [h]; norm_num⟩
    · exact ⟨25, by rw [h]; norm_num⟩
  obtain ⟨P, hP⟩ : ∃ P : ℤ, proximityMatch volunteer position = 10 * (P : ℚ) := by
    rcases proximityMatch_cases volunteer position with h | h
    · exact ⟨0, by rw [h]; norm_num⟩
    · exact ⟨10, by rw [h]; norm_num⟩
  have hn' : n' < 2 ^ 18 := lt_of_le_of_lt hn (max_lt hr (by norm_num))
  have hl' : l' < 2 ^ 18 := lt_of_le_of_lt hl (max_lt ha (by norm_num))
  have hnq : (n' : ℚ) ≠ 0 := by exact_mod_cast hn0.ne'
  have hlq : (l' : ℚ) ≠ 0 := by exact_mod_cast hl0.ne'
  refine ⟨80 * m' * l' + 40 * k' * n' + (2 * (C + P + urgency) + 1) * (n' * l'), n' * l',
    Nat.mul_pos hn0 hl0, ?_, ?_⟩
  · calc n' * l' < 2 ^ 18 * 2 ^ 18 := Nat.mul_lt_mul'' hn' hl'
      _ = 2 ^ 36 := by norm_num
  · unfold exactWeightedSum
    rw [x1, x2, en, el, hC, hP]
    push_cast
    field_simp
    ring

/-- The double-precision weighted sum of `calculateRelevanceScore` is within
`2 ^ (-38)` of the exact weighted sum. -/
theorem score_sum_err (volunteer : User) (position : Position) (urgency : ℤ)
    (hu : position.urgency = some urgency) (h1 : 1 ≤ urgency) (h5 : urgency ≤ 5) :
    calculateRelevanceScore (some volunteer) (some position) =
        ⌊weightedSum
          (calculateMatchPercentage (volunteer.skills.getD []) (position.requiredSkills.getD []))
          (causeMatch volunteer position)
          (calculateMatchPercentage (volunteer.availability.getD [])
            (position.availability.getD []))
          (proximityMatch volunteer position) (jsMul (urgency : ℚ) 20) + 1 / 2⌋ ∧
      |weightedSum
          (calculateMatchPercentage (volunteer.skills.getD []) (position.requiredSkills.getD []))
          (causeMatch volunteer position)
          (calculateMatchPercentage (volunteer.availability.getD [])
            (position.availability.getD []))
          (proximityMatch volunteer position) (jsMul (urgency : ℚ) 20) + 1 / 2 -
        (exactWeightedSum volunteer position urgency + 1 / 2)| ≤ 1 / 2 ^ 38 := by
  obtain ⟨s1, s2, s3⟩ :=
    calculateMatchPercentage_err (volunteer.skills.getD []) (position.requiredSkills.getD [])
  obtain ⟨a1, a2, a3⟩ :=
    calculateMatchPercentage_err (volunteer.availability.getD []) (position.availability.getD [])
  have hc : causeMatch volunteer position ∈ [(0 : ℚ), 100] := by
    rcases causeMatch_cases volunteer position with h | h <;> simp [h]
  have hp : proximityMatch volunteer position ∈ [(0 : ℚ), 100] := by
    rcases proximityMatch_cases volunteer position with h | h <;> simp [h]
  have hmem : urgency ∈ [(1 : ℤ), 2, 3, 4, 5] := by
    simp only [List.mem_cons, List.mem_singleton]
    omega
  constructor
  · simp only [calculateRelevanceScore, urgencyScore_of_some position urgency hu (by omega),
      jsRound]
  · have := weightedSum_err s1 a1 s2 s3 a2 a3 hc hp hmem
    unfold exactWeightedSum
    rw [add_sub_add_right_eq_sub]
    exact this

/-! ## Relevance scoring -/

/-- C1: for every volunteer and position (either may be null) whose urgency
is an integer in 1..5, `calculateRelevanceScore` is an integer between 0 and
100. -/
theorem calculateRelevanceScore_range (volunteer : Option User) (position : Option Position)
    (hu : ∀ p, position = some p → ∃ u : ℤ, p.urgency = some u ∧ 1 ≤ u ∧ u ≤ 5) :
    0 ≤ calculateRelevanceScore volunteer position ∧
      calculateRelevanceScore volunteer position ≤ 100 := by
  cases volunteer with
  | none => simp [calculateRelevanceScore]
  | some v =>
    cases position with
    | none => simp [calculateRelevanceScore]
    | some p =>
      obtain ⟨u, hpu, h1, h5⟩ := hu p rfl
      have hur := jsMul_urgency_range u h1 h5
      rw [← urgencyScore_of_some p u hpu (by omega)] at hur
      have hc : 0 ≤ causeMatch v p ∧ causeMatch v p ≤ 100 := by
        rcases causeMatch_cases v p with h | h <;> rw [h] <;> norm_num
      have hp : 0 ≤ proximityMatch v p ∧ proximityMatch v p ≤ 100 := by
        rcases proximityMatch_cases v p with h | h <;> rw [h] <;> norm_num
      simp only [calculateRelevanceScore]
      exact jsRound_range
        (weightedSum_nonneg (calculateMatchPercentage_nonneg _ _) hc.1
          (calculateMatchPercentage_nonneg _ _) hp.1 hur.1)
        (weightedSum_le (calculateMatchPercentage_nonneg _ _) hc.1
          (calculateMatchPercentage_nonneg _ _) hp.1 hur.1 (calculateMatchPercentage_le _ _) hc.2
          (calculateMatchPercentage_le _ _) hp.2 hur.2)

/-- Witness of C1 on the sample volunteer and position. -/
theorem calculateRelevanceScore_range_witness :
    0 ≤ calculateRelevanceScore (some sampleVolunteer) (some samplePosition) ∧
      calculateRelevanceScore (some sampleVolunteer) (some samplePosition) ≤ 100 :=
  calculateRelevanceScore_range (some sampleVolunteer) (some samplePosition)
    (fun p hp => ⟨3, by cases hp; rfl, by decide, by decide⟩)

/-- C2, as stated, fails: with one of three required skills, the cause, five of
24 availability windows, another location and urgency 1 the exact weighted sum
is 43.5, which rounds half-up to 44, while the double-precision sum of the
source falls just below 43.5 and `calculateRelevanceScore` returns 43. -/
theorem calculateRelevanceScore_tie :
    tiePosition.urgency = some 1 ∧
      calculateRelevanceScore (some tieVolunteer) (some tiePosition) = 43 ∧
      exactWeightedSum tieVolunteer tiePosition 1 = 87 / 2 ∧
      exactRelevanceScore tieVolunteer tiePosition 1 = 44 := by
  decide!

/-- C2, amended: for every volunteer and position with urgency in 1..5,
`calculateRelevanceScore` is within 1 of round-half-up of the exact weighted
sum `(40 * skillMatch + 25 * causeMatch + 20 * availabilityMatch
+ 10 * proximityMatch + 5 * urgencyScore) / 100`; when the position's lists
of required skills and of availability windows have fewer than `2 ^ 18` entries
each it equals that round-half-up unless the exact sum lies exactly half-way
between two integers, where it may be the lower one; and when both lists have
at most four entries it always equals that round-half-up. -/
theorem calculateRelevanceScore_eq_exact (volunteer : User) (position : Position) (urgency : ℤ)
    (hu : position.urgency = some urgency) (h1 : 1 ≤ urgency) (h5 : urgency ≤ 5) :
    (exactRelevanceScore volunteer position urgency - 1 ≤
        calculateRelevanceScore (some volunteer) (some position) ∧
      calculateRelevanceScore (some volunteer) (some position) ≤
        exactRelevanceScore volunteer position urgency + 1) ∧
    ((position.requiredSkills.getD []).length < 2 ^ 18 →
      (position.availability.getD []).length < 2 ^ 18 →
      calculateRelevanceScore (some volunteer) (some position) =
          exactRelevanceScore volunteer position urgency ∨
        (exactWeightedSum volunteer position urgency + 1 / 2 =
            ((exactRelevanceScore volunteer position urgency : ℤ) : ℚ) ∧
          calculateRelevanceScore (some volunteer) (some position) =
            exactRelevanceScore volunteer position urgency - 1)) ∧
    ((position.requiredSkills.getD []).length ≤ 4 →
      (position.availability.getD []).length ≤ 4 →
      calculateRelevanceScore (some volunteer) (some position) =
        exactRelevanceScore volunteer position urgency) := by
  obtain ⟨hscore, herr⟩ := score_sum_err volunteer position urgency hu h1 h5
  refine ⟨?_, ?_, score_eq_exact_of_small volunteer position urgency hu h1 h5⟩
  · rw [hscore]
    exact floor_near _ _ _ herr (by norm_num)
  · intro hr ha
    obtain ⟨T, D, hD0, hD, hgrid⟩ := exactWeightedSum_grid volunteer position urgency hr ha
    have hε : 2 * (D : ℚ) * (1 / 2 ^ 38) < 1 := by
      have hDq : (D : ℚ) < 2 ^ 36 := by exact_mod_cast hD
      rw [show (2 : ℚ) ^ 36 = 68719476736 by norm_num] at hDq
      rw [show (2 : ℚ) ^ 38 = 274877906944 by norm_num]
      linarith
    rw [hscore]
    exact floor_near_grid T D hD0 _ _ _ hgrid herr hε

/-- Witness of the amended C2 on the sample volunteer and position, whose
lists have two and one entries. -/
theorem calculateRelevanceScore_eq_exact_witness :
    calculateRelevanceScore (some sampleVolunteer) (some samplePosition) =
      exactRelevanceScore sampleVolunteer samplePosition 3 :=
  (calculateRelevanceScore_eq_exact sampleVolunteer samplePosition 3 rfl (by decide)
    (by decide)).2.2 (by decide) (by decide)

/-- C3, as stated, fails: the sample volunteer meets every condition of the
perfect match against a position of urgency 5 whose list of required skills is
empty, and scores 60. -/
theorem perfect_match_empty_required :
    (∀ s ∈ noSkillPosition.requiredSkills.getD [], s ∈ sampleVolunteer.skills.getD []) ∧
      noSkillPosition.cause = some "education" ∧
      "education" ∈ sampleVolunteer.causes.getD [] ∧
      (∀ w ∈ noSkillPosition.availability.getD [], w ∈ sampleVolunteer.availability.getD []) ∧
      sampleVolunteer.location = noSkillPosition.location ∧
      noSkillPosition.urgency = some 5 ∧
      calculateRelevanceScore (some sampleVolunteer) (some noSkillPosition) = 60 := by
  decide!

/-- C3, amended: when the position's required skills and availability windows
are non-empty lists, every required skill is among the volunteer's skills, the
position's cause is among the volunteer's causes, every availability window of
the position is among the volunteer's, the two locations are equal and
urgency is 5, `calculateRelevanceScore` returns 100. -/
theorem calculateRelevanceScore_perfect (volunteer : User) (position : Position) (cause : String)
    (hrne : position.requiredSkills.getD [] ≠ [])
    (hs : ∀ s ∈ position.requiredSkills.getD [], s ∈ volunteer.skills.getD [])
    (hc : position.cause = some cause) (hcm : cause ∈ volunteer.causes.getD [])
    (hwne : position.availability.getD [] ≠ [])
    (ha : ∀ w ∈ position.availability.getD [], w ∈ volunteer.availability.getD [])
    (hloc : volunteer.location = position.location) (hu : position.urgency = some 5) :
    calculateRelevanceScore (some volunteer) (some position) = 100 := by
  have e1 := calculateMatchPercentage_of_subset _ _ hrne hs
  have e2 := calculateMatchPercentage_of_subset _ _ hwne ha
  have e3 : causeMatch volunteer position = 100 := by
    unfold causeMatch
    cases hv : volunteer.causes with
    | none => rw [hv] at hcm; simp at hcm
    | some causes =>
      rw [hv] at hcm
      simp only [Option.getD_some] at hcm
      simp [hc, hcm]
  have e4 : proximityMatch volunteer position = 100 := by
    simp [proximityMatch, hloc]
  have e5 : urgencyScore position = 100 := by
    rw [urgencyScore_of_some position 5 hu (by decide)]
    decide!
  have e6 : jsRound 100 = 100 := by decide!
  simp only [calculateRelevanceScore, e1, e2, e3, e4, e5, weightedSum_top, e6]

/-- Witness of the amended C3: the sample volunteer against the urgent
position. -/
theorem calculateRelevanceScore_perfect_witness :
    calculateRelevanceScore (some sampleVolunteer) (some urgentPosition) = 100 :=
  calculateRelevanceScore_perfect sampleVolunteer urgentPosition "education" (by decide)
    (by decide) rfl (by decide) (by decide) (by decide) rfl rfl

/-- C4: a volunteer with no skills, against a position whose cause is not
among the volunteer's causes, none of whose availability windows the volunteer
offers, in a different location and with urgency 1, scores 1. -/
theorem calculateRelevanceScore_zero_signal (volunteer : User) (position : Position)
    (hs : volunteer.skills.getD [] = [])
    (hc : ∀ c, position.cause = some c → c ∉ volunteer.causes.getD [])
    (ha : ∀ w ∈ position.availability.getD [], w ∉ volunteer.availability.getD [])
    (hloc : volunteer.location ≠ position.location) (hu : position.urgency = some 1) :
    calculateRelevanceScore (some volunteer) (some position) = 1 := by
  have e1 : calculateMatchPercentage (volunteer.skills.getD [])
      (position.requiredSkills.getD []) = 0 := by
    rw [hs]; simp [calculateMatchPercentage]
  have e2 := calculateMatchPercentage_of_disjoint _ _ ha
  have e3 : causeMatch volunteer position = 0 := by
    unfold causeMatch
    cases hv : volunteer.causes with
    | none => simp
    | some causes =>
      cases hp : position.cause with
      | none => simp
      | some c =>
        have := hc c hp
        rw [hv] at this
        simp only [Option.getD_some] at this
        simp [this]
  have e4 : proximityMatch volunteer position = 0 := by
    simp [proximityMatch, hloc]
  have e5 : urgencyScore position = jsMul ((1 : ℤ) : ℚ) 20 :=
    urgencyScore_of_some position 1 hu (by decide)
  have e6 : jsRound (weightedSum 0 0 0 0 (jsMul ((1 : ℤ) : ℚ) 20)) = 1 := by decide!
  simp only [calculateRelevanceScore, e1, e2, e3, e4, e5, e6]

/-- Witness of C4: the blank volunteer against the low-urgency position. -/
theorem calculateRelevanceScore_zero_signal_witness :
    calculateRelevanceScore (some blankVolunteer) (some lowPosition) = 1 :=
  calculateRelevanceScore_zero_signal blankVolunteer lowPosition rfl (by decide) (by decide)
    (by decide) rfl

/-- C5: `calculateMatchPercentage` is 0 when either list is empty and
otherwise the number of required items occurring in the user's list, divided
by the number of required items, times 100, in the double arithmetic of the
source, which is within `101 * 2 ^ (-47)` of the exact quotient times 100; a
user with `teaching` against `teaching, fundraising` scores exactly 50; and
`calculateRelevanceScore` computes both `skillMatch` and `availabilityMatch`
with this function. -/
theorem calculateMatchPercentage_spec :
    (∀ userItems requiredItems : List String,
      calculateMatchPercentage userItems requiredItems =
          (if userItems = [] ∨ requiredItems = [] then 0
          else jsMul (jsDiv (requiredItems.countP (fun item => userItems.contains item))
            requiredItems.length) 100) ∧
        |calculateMatchPercentage userItems requiredItems -
          (if userItems = [] ∨ requiredItems = [] then 0
          else (requiredItems.countP (fun item => userItems.contains item) : ℚ) /
            requiredItems.length * 100)| ≤ 101 / 2 ^ 47) ∧
      calculateMatchPercentage ["teaching"] ["teaching", "fundraising"] = 50 ∧
      ∀ (volunteer : User) (position : Position),
        calculateRelevanceScore (some volunteer) (some position) =
          jsRound (weightedSum
            (calculateMatchPercentage (volunteer.skills.getD []) (position.requiredSkills.getD []))
            (causeMatch volunteer position)
            (calculateMatchPercentage (volunteer.availability.getD [])
              (position.availability.getD []))
            (proximityMatch volunteer position) (urgencyScore position)) := by
  refine ⟨?_, by decide!, fun _ _ => rfl⟩
  intro userItems requiredItems
  constructor
  · unfold calculateMatchPercentage
    rw [countMatches_eq_countP]
    simp only [List.length_eq_zero]
  · have h := (calculateMatchPercentage_err userItems requiredItems).1
    unfold exactMatchPercentage at h
    simp only [List.length_eq_zero] at h
    exact h

/-! ## Expiry -/

/-- C6: for a position whose `createdAt` and `validForDays` are present and
non-zero, `isPositionExpired` holds exactly when `now` is strictly after
`createdAt + validForDays * 86,400,000`; at the expiry instant itself the
position is not expired. -/
theorem isPositionExpired_iff (position : Position) (now createdAt validForDays : ℤ)
    (hc : position.createdAt = some createdAt) (hv : position.validForDays = some validForDays)
    (hc0 : createdAt ≠ 0) (hv0 : validForDays ≠ 0) :
    (isPositionExpired position now = true ↔ now > createdAt + validForDays * 86400000) ∧
      isPositionExpired position (createdAt + validForDays * 86400000) = false := by
  constructor
  · rw [isPositionExpired_eq position now createdAt validForDays hc hv hc0 hv0]
    simp
  · rw [isPositionExpired_eq position _ createdAt validForDays hc hv hc0 hv0]
    simp

/-- Witness of C6 on the sample position. -/
theorem isPositionExpired_iff_witness :
    (isPositionExpired samplePosition 2592001001 = true ↔
        (2592001001 : ℤ) > 1000 + 30 * 86400000) ∧
      isPositionExpired samplePosition (1000 + 30 * 86400000) = false :=
  isPositionExpired_iff samplePosition 2592001001 1000 30 rfl rfl (by decide) (by decide)

/-- C7: `isPositionExpired` is monotonic in time: a position expired at `now1`
is expired at every later `now2`. -/
theorem isPositionExpired_mono (position : Position) (now1 now2 : ℤ) (h12 : now1 ≤ now2)
    (h1 : isPositionExpired position now1 = true) :
    isPositionExpired position now2 = true := by
  unfold isPositionExpired at h1 ⊢
  split at h1
  · exact absurd h1 (by simp)
  · rename_i hg
    rw [if_neg hg]
    split at h1
    · simp only [decide_eq_true_eq] at h1 ⊢
      omega
    · exact absurd h1 (by simp)

/-- Witness of C7 on the sample position, one and two days after expiry. -/
theorem isPositionExpired_mono_witness :
    isPositionExpired samplePosition (1000 + 32 * 86400000) = true :=
  isPositionExpired_mono samplePosition (1000 + 31 * 86400000) (1000 + 32 * 86400000)
    (by decide) (by decide)

/-- C8: whenever the position is expired at `now`, `getDaysRemaining` is 0. -/
theorem getDaysRemaining_of_expired (position : Position) (now : ℤ)
    (h : isPositionExpired position now = true) :
    getDaysRemaining position now = some 0 := by
  simp [getDaysRemaining, h]

/-- Witness of C8 on the sample position, 31 days after its creation. -/
theorem getDaysRemaining_of_expired_witness :
    getDaysRemaining samplePosition (1000 + 31 * 86400000) = some 0 :=
  getDaysRemaining_of_expired samplePosition (1000 + 31 * 86400000) (by decide)

/-- C9, as stated, fails: one millisecond apart on the same day the sample
position is not expired at either time and has 30 days remaining at both. -/
theorem getDaysRemaining_not_strictly_decreasing :
    (1000 : ℤ) < 1001 ∧ isPositionExpired samplePosition 1000 = false ∧
      isPositionExpired samplePosition 1001 = false ∧
      getDaysRemaining samplePosition 1000 = some 30 ∧
      getDaysRemaining samplePosition 1001 = some 30 := by
  decide!

/-- C9, amended: for a position whose `createdAt` and `validForDays` are
present and non-zero and times `now1 ≤ now2` at which it is not expired,
`getDaysRemaining` at `now2` is at most `getDaysRemaining` at `now1`, and it is
strictly smaller when `now2` is at least one day after `now1`. -/
theorem getDaysRemaining_antitone (position : Position) (now1 now2 createdAt validForDays : ℤ)
    (hc : position.createdAt = some createdAt) (hv : position.validForDays = some validForDays)
    (hc0 : createdAt ≠ 0) (hv0 : validForDays ≠ 0) (h12 : now1 ≤ now2)
    (h2 : isPositionExpired position now2 = false) :
    ∃ d1 d2 : ℤ, getDaysRemaining position now1 = some d1 ∧
      getDaysRemaining position now2 = some d2 ∧ d2 ≤ d1 ∧
      (now1 + 86400000 ≤ now2 → d2 < d1) := by
  have e2 := isPositionExpired_eq position now2 createdAt validForDays hc hv hc0 hv0
  have e1 := isPositionExpired_eq position now1 createdAt validForDays hc hv hc0 hv0
  rw [h2] at e2
  have hle2 : now2 ≤ createdAt + validForDays * 86400000 := by
    have := e2.symm
    simpa using this
  have h1 : isPositionExpired position now1 = false := by
    rw [e1]
    simp only [decide_eq_false_iff_not, not_lt, gt_iff_lt]
    omega
  refine ⟨_, _, getDaysRemaining_eq position now1 createdAt validForDays hc hv h1,
    getDaysRemaining_eq position now2 createdAt validForDays hc hv h2, ?_, ?_⟩
  · apply max_le_max le_rfl
    apply Int.ceil_le_ceil
    apply div_le_div_of_nonneg_right _ (by norm_num)
    exact_mod_cast (by omega : createdAt + validForDays * 86400000 - now2 ≤
      createdAt + validForDays * 86400000 - now1)
  · intro hday
    have hnn : (0 : ℤ) ≤ ⌈((createdAt + validForDays * 86400000 - now2 : ℤ) : ℚ) / 86400000⌉ := by
      apply Int.ceil_nonneg
      apply div_nonneg _ (by norm_num)
      exact_mod_cast (by omega : (0 : ℤ) ≤ createdAt + validForDays * 86400000 - now2)
    rw [max_eq_right hnn]
    apply lt_of_lt_of_le _ (le_max_right _ _)
    rw [← Int.add_one_le_iff, ← Int.ceil_add_one]
    apply Int.ceil_le_ceil
    rw [div_add_one (by norm_num)]
    apply div_le_div_of_nonneg_right _ (by norm_num)
    have : createdAt + validForDays * 86400000 - now2 + 86400000 ≤
        createdAt + validForDays * 86400000 - now1 := by omega
    exact_mod_cast this

/-- Witness of the amended C9 on the sample position, at `t = 1000` and two
days later. -/
theorem getDaysRemaining_antitone_witness :
    ∃ d1 d2 : ℤ, getDaysRemaining samplePosition 1000 = some d1 ∧
      getDaysRemaining samplePosition (1000 + 2 * 86400000) = some d2 ∧ d2 ≤ d1 ∧
      ((1000 : ℤ) + 86400000 ≤ 1000 + 2 * 86400000 → d2 < d1) :=
  getDaysRemaining_antitone samplePosition 1000 (1000 + 2 * 86400000) 1000 30 rfl rfl
    (by decide) (by decide) (by decide) (by decide)

/-- C10: for a position with `createdAt` present and non-zero and
`validForDays > 0` that is not expired at `now`, `getDaysRemaining` is the
ceiling of `(createdAt + validForDays * 86,400,000 - now) / 86,400,000`. -/
theorem getDaysRemaining_eq_ceil (position : Position) (now createdAt validForDays : ℤ)
    (hc : position.createdAt = some createdAt) (hv : position.validForDays = some validForDays)
    (hc0 : createdAt ≠ 0) (hv0 : 0 < validForDays)
    (h : isPositionExpired position now = false) :
    getDaysRemaining position now =
      some ⌈((createdAt + validForDays * 86400000 - now : ℤ) : ℚ) / 86400000⌉ := by
  have e := isPositionExpired_eq position now createdAt validForDays hc hv hc0 (ne_of_gt hv0)
  rw [h] at e
  have hle : now ≤ createdAt + validForDays * 86400000 := by
    have := e.symm
    simpa using this
  rw [getDaysRemaining_eq position now createdAt validForDays hc hv h, max_eq_right]
  apply Int.ceil_nonneg
  apply div_nonneg _ (by norm_num)
  exact_mod_cast (by omega : (0 : ℤ) ≤ createdAt + validForDays * 86400000 - now)

/-- Witness of C10 on the sample position, half a day after its creation. -/
theorem getDaysRemaining_eq_ceil_witness :
    isPositionExpired samplePosition 43201000 = false ∧
      getDaysRemaining samplePosition 43201000 =
        some ⌈(((1000 : ℤ) + 30 * 86400000 - 43201000 : ℤ) : ℚ) / 86400000⌉ :=
  ⟨by decide, getDaysRemaining_eq_ceil samplePosition 43201000 1000 30 rfl rfl (by decide)
    (by decide) (by decide)⟩

/-! ## Expiry: scenarios and absent fields -/

/-- C11: for a position created at `t0 > 0` with `validForDays = d`,
`1 ≤ d ≤ 365`, and an integer `k`: when `0 ≤ k < d`, at `t0 + k` days the
position is not expired and `getDaysRemaining` is `d - k`; when `k > d`, at
`t0 + k` days the position is expired and `getDaysRemaining` is 0. -/
theorem expiry_scenario (position : Position) (t0 d k : ℤ)
    (hc : position.createdAt = some t0) (hv : position.validForDays = some d)
    (ht : 0 < t0) (hd1 : 1 ≤ d) (hd365 : d ≤ 365) :
    (0 ≤ k → k < d →
        isPositionExpired position (t0 + k * 86400000) = false ∧
          getDaysRemaining position (t0 + k * 86400000) = some (d - k)) ∧
      (d < k →
        isPositionExpired position (t0 + k * 86400000) = true ∧
          getDaysRemaining position (t0 + k * 86400000) = some 0) := by
  have e := isPositionExpired_eq position (t0 + k * 86400000) t0 d hc hv (by omega) (by omega)
  constructor
  · intro hk0 hkd
    have hne : isPositionExpired position (t0 + k * 86400000) = false := by
      rw [e]
      simp only [decide_eq_false_iff_not, not_lt, gt_iff_lt]
      omega
    refine ⟨hne, ?_⟩
    rw [getDaysRemaining_eq position _ t0 d hc hv hne]
    have hq : ((t0 + d * 86400000 - (t0 + k * 86400000) : ℤ) : ℚ) / 86400000 =
        ((d - k : ℤ) : ℚ) := by
      push_cast
      field_simp
      ring
    rw [hq, Int.ceil_intCast, max_eq_right (by omega)]
  · intro hdk
    have hex : isPositionExpired position (t0 + k * 86400000) = true := by
      rw [e]
      simp only [decide_eq_true_eq, gt_iff_lt]
      omega
    exact ⟨hex, by simp [getDaysRemaining, hex]⟩

/-- Witness of C11: the sample position, created at 1000 and valid for 30
days, has one day left after 29 days and is expired after 31 days. -/
theorem expiry_scenario_witness :
    (isPositionExpired samplePosition (1000 + 29 * 86400000) = false ∧
        getDaysRemaining samplePosition (1000 + 29 * 86400000) = some (30 - 29)) ∧
      (isPositionExpired samplePosition (1000 + 31 * 86400000) = true ∧
        getDaysRemaining samplePosition (1000 + 31 * 86400000) = some 0) :=
  ⟨(expiry_scenario samplePosition 1000 30 29 rfl rfl (by decide) (by decide) (by decide)).1
      (by decide) (by decide),
    (expiry_scenario samplePosition 1000 30 31 rfl rfl (by decide) (by decide) (by decide)).2
      (by decide)⟩

/-- C12: a position whose `createdAt` or `validForDays` is absent or zero is
not expired at any time. -/
theorem isPositionExpired_of_absent (position : Position) (now : ℤ)
    (h : position.createdAt = none ∨ position.createdAt = some 0 ∨
      position.validForDays = none ∨ position.validForDays = some 0) :
    isPositionExpired position now = false := by
  unfold isPositionExpired
  rcases h with h | h | h | h <;> simp [h, truthy]

/-- Witness of C12: the sample position without `createdAt`, a thousand years
after the epoch. -/
theorem isPositionExpired_of_absent_witness :
    isPositionExpired undatedPosition 31536000000000 = false :=
  isPositionExpired_of_absent undatedPosition 31536000000000 (Or.inl rfl)

/-- C13 fails on a position without `createdAt`: the position is never expired,
so `getDaysRemaining` goes on to compute with the absent field and returns
`NaN` (`none`), at every time. -/
theorem getDaysRemaining_undated (now : ℤ) :
    undatedPosition.createdAt = none ∧ getDaysRemaining undatedPosition now = none := by
  refine ⟨rfl, ?_⟩
  simp [getDaysRemaining, isPositionExpired, truthy, undatedPosition]

/-- With both fields present `getDaysRemaining` returns a non-negative
integer. -/
theorem getDaysRemaining_nonneg (position : Position) (now createdAt validForDays : ℤ)
    (hc : position.createdAt = some createdAt) (hv : position.validForDays = some validForDays) :
    ∃ days : ℤ, getDaysRemaining position now = some days ∧ 0 ≤ days := by
  cases h : isPositionExpired position now with
  | true => exact ⟨0, by simp [getDaysRemaining, h], le_rfl⟩
  | false =>
    exact ⟨_, getDaysRemaining_eq position now createdAt validForDays hc hv h, le_max_left _ _⟩

/-! ## Submitting an application -/

/-- A position that is not expired at `now` was not expired at any earlier
time. -/
theorem isPositionExpired_false_of_le (position : Position) (earlier now : ℤ)
    (h12 : earlier ≤ now) (h : isPositionExpired position now = false) :
    isPositionExpired position earlier = false := by
  unfold isPositionExpired at h ⊢
  split
  · rfl
  · rename_i hg
    rw [if_neg hg] at h
    split
    · rename_i c v hc hv
      rw [hc, hv] at h
      simp only [decide_eq_false_iff_not, not_lt, gt_iff_lt] at h ⊢
      omega
    · rfl

/-- What `loadPositionData` leaves for a volunteer who opens a stored position
for which the store holds no application of theirs. -/
theorem loadPositionData_volunteer (store : Store) (user : User) (position : Position)
    (positionId : String) (loadTime : ℤ) (hvol : user.role = ROLES.VOLUNTEER)
    (hfind : store.positions.find? (fun pos => pos.positionId == positionId) = some position)
    (hnew : ∀ app ∈ store.applications,
      ¬(app.positionId = positionId ∧ app.volunteerId = user.id)) :
    let page := PositionDetailsPage.loadPositionData store (some user) positionId loadTime
    page.position = some position ∧ page.isExpired = isPositionExpired position loadTime ∧
      page.hasApplied = false ∧ page.error = "" ∧ page.isLoading = false ∧
      page.isSubmitting = false := by
  have hn : isNgo (some user) = false := by
    simp [isNgo, hvol, ROLES.VOLUNTEER, ROLES.NGO]
  have hv : isVolunteer (some user) = true := by
    simp [isVolunteer, hvol]
  have hfa : store.applications.find?
      (fun app => app.positionId == positionId && app.volunteerId == user.id) = none := by
    rw [List.find?_eq_none]
    intro app happ
    have := hnew app happ
    simpa using this
  simp [PositionDetailsPage.loadPositionData, hfind, hn, hv, hfa,
    PositionDetailsPage.initialState]

/-- C14: when a volunteer opens a stored position for which the store holds no
application of theirs and clicks "Apply Now" at a time `now` at which the
position is not expired, and the write succeeds, the store afterwards is the
previous store with exactly one application appended to the list: it has the
generated id, the volunteer's id, the position's id and `ngoId`, status
`pending` and `appliedAt = now`; the earlier applications, the positions and
the users are as before. -/
theorem handleApply_appends (store : Store) (user : User) (position : Position)
    (positionId : String) (loadTime now : ℤ) (newId : String)
    (hvol : user.role = ROLES.VOLUNTEER)
    (hfind : store.positions.find? (fun pos => pos.positionId == positionId) = some position)
    (hload : loadTime ≤ now) (hexp : isPositionExpired position now = false)
    (hnew : ∀ app ∈ store.applications,
      ¬(app.positionId = positionId ∧ app.volunteerId = user.id)) :
    position.positionId = positionId ∧
      (PositionDetailsPage.clickApply
          (PositionDetailsPage.loadPositionData store (some user) positionId loadTime) store
          (some user) now newId true).2 =
        { store with
            applications := store.applications ++
              [{ applicationId := newId, volunteerId := user.id,
                 positionId := position.positionId, ngoId := position.ngoId,
                 status := "pending", appliedAt := now }] } := by
  obtain ⟨h1, h2, h3, h4, h5, h6⟩ :=
    loadPositionData_volunteer store user position positionId loadTime hvol hfind hnew
  have hid : position.positionId = positionId := by
    have := List.find?_some hfind
    simpa using this
  have hx := isPositionExpired_false_of_le position loadTime now hload hexp
  have hv : isVolunteer (some user) = true := by
    simp [isVolunteer, hvol]
  refine ⟨hid, ?_⟩
  simp [PositionDetailsPage.clickApply, PositionDetailsPage.applyEnabled,
    PositionDetailsPage.handleApply, h1, h2, h3, h4, h5, h6, hx, hv, setApplications,
    APPLICATION_STATUS.PENDING]

/-- Witness of C14: the sample volunteer applies for the sample position in the
store without applications. -/
theorem handleApply_appends_witness :
    samplePosition.positionId = "p1" ∧
      (PositionDetailsPage.clickApply
          (PositionDetailsPage.loadPositionData emptyStore (some sampleVolunteer) "p1" 2000)
          emptyStore (some sampleVolunteer) 3000 "a1" true).2 =
        { emptyStore with
            applications := emptyStore.applications ++
              [{ applicationId := "a1", volunteerId := sampleVolunteer.id,
                 positionId := samplePosition.positionId, ngoId := samplePosition.ngoId,
                 status := "pending", appliedAt := 3000 }] } :=
  handleApply_appends emptyStore sampleVolunteer samplePosition "p1" 2000 3000 "a1" rfl rfl
    (by decide) (by decide) (by decide)

/-- After `handleApply` has run on a page, the "Apply Now" button of that page
is gone or disabled whatever the store holds: a second click on the same page
writes nothing. -/
theorem clickApply_after_handleApply (page : PositionDetailsState) (store later : Store)
    (user : Option User) (now now' : ℤ) (newId newId' : String) (writeOk writeOk' : Bool)
    (h : PositionDetailsPage.applyEnabled page user = true) :
    PositionDetailsPage.clickApply
        (PositionDetailsPage.handleApply page store user now newId writeOk).1 later user now'
        newId' writeOk' =
      ((PositionDetailsPage.handleApply page store user now newId writeOk).1, later) := by
  have hna : page.hasApplied = false := by
    simp only [PositionDetailsPage.applyEnabled, Bool.and_eq_true, Bool.not_eq_true'] at h
    exact h.1.2
  have hdis : PositionDetailsPage.applyEnabled
      (PositionDetailsPage.handleApply page store user now newId writeOk).1 user = false := by
    unfold PositionDetailsPage.handleApply
    rw [hna]
    cases user with
    | none => simp [PositionDetailsPage.applyEnabled]
    | some u =>
      cases hp : page.position with
      | none => simp [PositionDetailsPage.applyEnabled]
      | some p => simp [PositionDetailsPage.applyEnabled]
  simp [PositionDetailsPage.clickApply, hdis]

/-- The pairs `(volunteerId, positionId)` of the stored applications. -/
theorem applicationPairs_updateStatusIn (applicationId newStatus : String)
    (apps : List Application) :
    applicationPairs (updateStatusIn applicationId newStatus apps) = applicationPairs apps := by
  unfold applicationPairs updateStatusIn
  rw [List.map_map]
  apply List.map_congr_left
  intro app _
  by_cases h : app.applicationId = applicationId <;> simp [h]

/-- When the page has just been loaded from the current store, a click on
"Apply Now" keeps the stored applications free of duplicate
`(volunteerId, positionId)` pairs. -/
theorem clickApply_fresh_nodup (store : Store) (user : Option User) (positionId : String)
    (loadTime now : ℤ) (newId : String) (writeOk : Bool)
    (h : (applicationPairs store.applications).Nodup) :
    (applicationPairs
      (PositionDetailsPage.clickApply
        (PositionDetailsPage.loadPositionData store user positionId loadTime) store user now
        newId writeOk).2.applications).Nodup := by
  unfold PositionDetailsPage.clickApply
  split
  · rename_i hen
    -- the button is enabled: a volunteer sees the position and has not applied
    cases huser : user with
    | none => rw [huser] at hen; simp [PositionDetailsPage.applyEnabled, isVolunteer] at hen
    | some u =>
      rw [huser] at hen
      cases hfind : store.positions.find? (fun pos => pos.positionId == positionId) with
      | none =>
        simp [PositionDetailsPage.applyEnabled, PositionDetailsPage.loadPositionData, hfind,
          PositionDetailsPage.initialState] at hen
      | some position =>
        have hid : position.positionId = positionId := by
          have := List.find?_some hfind
          simpa using this
        have hvol : isVolunteer (some u) = true := by
          simp only [PositionDetailsPage.applyEnabled, Bool.and_eq_true] at hen
          exact hen.1.1.2
        have hrole : u.role = ROLES.VOLUNTEER := by simpa [isVolunteer] using hvol
        have hngo : isNgo (some u) = false := by
          simp [isNgo, hrole, ROLES.VOLUNTEER, ROLES.NGO]
        cases hfa : store.applications.find?
            (fun app => app.positionId == positionId && app.volunteerId == u.id) with
        | some existing =>
          simp [PositionDetailsPage.applyEnabled, PositionDetailsPage.loadPositionData, hfind,
            hngo, hvol, hfa, PositionDetailsPage.initialState] at hen
        | none =>
          have hnot : (u.id, positionId) ∉ applicationPairs store.applications := by
            intro hmem
            unfold applicationPairs at hmem
            rw [List.mem_map] at hmem
            obtain ⟨app, happ, hpair⟩ := hmem
            rw [List.find?_eq_none] at hfa
            have := hfa app happ
            simp only [Prod.mk.injEq] at hpair
            simp [hpair.1, hpair.2] at this
          cases writeOk with
          | false =>
            simp [PositionDetailsPage.handleApply, PositionDetailsPage.loadPositionData, hfind,
              hngo, hvol, hfa, PositionDetailsPage.initialState, setApplications, h]
          | true =>
            simp only [PositionDetailsPage.handleApply, PositionDetailsPage.loadPositionData,
              hfind, hngo, hvol, hfa, PositionDetailsPage.initialState, setApplications]
            simp only [Bool.false_and, Bool.false_eq_true, if_false, if_true]
            unfold applicationPairs
            rw [List.map_append, List.nodup_append]
            refine ⟨h, by simp, ?_⟩
            intro pair h1 h2
            simp only [List.map_cons, List.map_nil, List.mem_singleton] at h2
            rw [h2, hid] at h1
            exact hnot h1
  · exact h

/-- When the position was already expired as the page loaded, the "Apply Now"
button is disabled and a click writes nothing, at any later time. -/
theorem clickApply_expired_at_load (store : Store) (user : Option User) (positionId : String)
    (loadTime now : ℤ) (newId : String) (writeOk : Bool)
    (h : ∀ position, store.positions.find? (fun pos => pos.positionId == positionId) =
      some position → isPositionExpired position loadTime = true) :
    (PositionDetailsPage.clickApply
      (PositionDetailsPage.loadPositionData store user positionId loadTime) store user now newId
      writeOk).2 = store := by
  have hdis : PositionDetailsPage.applyEnabled
      (PositionDetailsPage.loadPositionData store user positionId loadTime) user = false := by
    unfold PositionDetailsPage.loadPositionData
    cases hfind : store.positions.find? (fun pos => pos.positionId == positionId) with
    | none => simp [PositionDetailsPage.applyEnabled, PositionDetailsPage.initialState]
    | some position =>
      have hx := h position hfind
      simp only
      split
      · simp [PositionDetailsPage.applyEnabled, PositionDetailsPage.initialState]
      · cases user with
        | none => simp [PositionDetailsPage.applyEnabled, isVolunteer]
        | some u =>
          simp only
          split
          · split <;> simp [PositionDetailsPage.applyEnabled, hx]
          · simp [PositionDetailsPage.applyEnabled, hx]
  simp [PositionDetailsPage.clickApply, hdis]

/-- C15 fails with two pages: the sample volunteer opens the sample position
twice while the store holds no application, so both pages load with
`hasApplied = false`, and clicks "Apply Now" on each.  Both clicks write, and
the store ends with two applications for the same volunteer and position. -/
theorem duplicate_application_two_pages :
    applicationPairs
        (PositionDetailsPage.clickApply
          (PositionDetailsPage.loadPositionData emptyStore (some sampleVolunteer) "p1" 2000)
          (PositionDetailsPage.clickApply
            (PositionDetailsPage.loadPositionData emptyStore (some sampleVolunteer) "p1" 2000)
            emptyStore (some sampleVolunteer) 3000 "a1" true).2
          (some sampleVolunteer) 4000 "a2" true).2.applications =
      [("u1", "p1"), ("u1", "p1")] := by
  decide!

/-- C16 fails on a page that was loaded before the expiry: the sample position
is not expired at its expiry instant, when the page loads, and is expired one
millisecond later, when the volunteer clicks "Apply Now"; the click still
writes the application. -/
theorem apply_after_expiry_stale_page :
    isPositionExpired samplePosition (1000 + 30 * 86400000) = false ∧
      isPositionExpired samplePosition (1000 + 30 * 86400000 + 1) = true ∧
      (PositionDetailsPage.clickApply
          (PositionDetailsPage.loadPositionData emptyStore (some sampleVolunteer) "p1"
            (1000 + 30 * 86400000))
          emptyStore (some sampleVolunteer) (1000 + 30 * 86400000 + 1) "a1" true).2.applications =
        [{ applicationId := "a1", volunteerId := "u1", positionId := "p1", ngoId := "ngo1",
           status := "pending", appliedAt := 1000 + 30 * 86400000 + 1 }] := by
  decide!

/-! ## Updating the status of an application -/

/-- An id that matches no application leaves the list as it is. -/
theorem updateStatusIn_of_no_match (applicationId newStatus : String)
    (apps : List Application) (h : ∀ app ∈ apps, app.applicationId ≠ applicationId) :
    updateStatusIn applicationId newStatus apps = apps := by
  unfold updateStatusIn
  conv_rhs => rw [← List.map_id apps]
  apply List.map_congr_left
  intro app happ
  simp [h app happ]

/-- An application with another id is still in the list after the update. -/
theorem mem_updateStatusIn_of_ne (applicationId newStatus : String) (apps : List Application)
    (app : Application) (happ : app ∈ apps) (hne : app.applicationId ≠ applicationId) :
    app ∈ updateStatusIn applicationId newStatus apps := by
  unfold updateStatusIn
  rw [List.mem_map]
  exact ⟨app, happ, by simp [hne]⟩

/-- The applications that `ApplicationsPage` lists for an organization are the
stored applications whose `ngoId` is the organization's id. -/
theorem mem_loadApplicationsData_ngo (store : Store) (user : User) (app : Application)
    (hrole : user.role = ROLES.NGO) :
    app ∈ (ApplicationsPage.loadApplicationsData store (some user)).applications ↔
      app ∈ store.applications ∧ app.ngoId = user.id := by
  have hv : isVolunteer (some user) = false := by
    simp [isVolunteer, hrole, ROLES.VOLUNTEER, ROLES.NGO]
  have hn : isNgo (some user) = true := by
    simp [isNgo, hrole]
  simp [ApplicationsPage.loadApplicationsData, hv, hn, List.mem_insertionSort]

/-- C17, as stated, fails: no status update checks who is acting.  The
organization `ngo2` does not own the sample application, whose `ngoId` is
`ngo1`; its `ApplicationsPage` lists nothing, and running either
`handleUpdateStatus` with the application's id writes the new status to the
store.  `PositionApplicationsPage` reports success; `ApplicationsPage` sets its
generic error only after the write. -/
theorem updateStatus_by_other_organization :
    isNgo (some otherNgo) = true ∧ otherNgo.id ≠ sampleApplication.ngoId ∧
      (PositionApplicationsPage.handleUpdateStatus blankPositionApplications sampleStore "a1"
          "accepted" true).2.applications = [{ sampleApplication with status := "accepted" }] ∧
      (PositionApplicationsPage.handleUpdateStatus blankPositionApplications sampleStore "a1"
          "accepted" true).1.error = "" ∧
      (ApplicationsPage.handleUpdateStatus
          (ApplicationsPage.loadApplicationsData sampleStore (some otherNgo)) sampleStore "a1"
          "accepted" true NotifyOutcome.ok).store.applications =
        [{ sampleApplication with status := "accepted" }] := by
  decide!

/-- C17, amended: the status update has no authorization check and does not
fail as unauthorized; ownership is enforced by what the page lists.  For an
organization whose `ApplicationsPage` has been loaded from the store, every
listed application (the only ones the page offers to update) has `ngoId` equal
to the organization's id, the update of a listed application reports no error,
and, when the stored `applicationId`s are distinct, it leaves every stored
application of another organization in the store as it was, status
included. -/
theorem updateStatus_listed_only (store : Store) (user : User) (target foreign : Application)
    (newStatus : String) (writeOk : Bool) (outcome : NotifyOutcome)
    (hrole : user.role = ROLES.NGO)
    (hids : (store.applications.map (fun app => app.applicationId)).Nodup)
    (htarget : target ∈ (ApplicationsPage.loadApplicationsData store (some user)).applications)
    (hforeign : foreign ∈ store.applications) (hne : foreign.ngoId ≠ user.id) :
    target.ngoId = user.id ∧
      (ApplicationsPage.handleUpdateStatus
          (ApplicationsPage.loadApplicationsData store (some user)) store target.applicationId
          newStatus writeOk outcome).page.error = "" ∧
      foreign ∈ (ApplicationsPage.handleUpdateStatus
          (ApplicationsPage.loadApplicationsData store (some user)) store target.applicationId
          newStatus writeOk outcome).store.applications := by
  obtain ⟨hts, htn⟩ := (mem_loadApplicationsData_ngo store user target hrole).mp htarget
  have hidne : foreign.applicationId ≠ target.applicationId := by
    intro heq
    have := List.inj_on_of_nodup_map hids hforeign hts heq
    rw [this] at hne
    exact hne htn
  have hstore : ∀ o, (ApplicationsPage.handleUpdateStatus
      (ApplicationsPage.loadApplicationsData store (some user)) store target.applicationId
      newStatus writeOk o).store =
        (setApplications store (updateStatusIn target.applicationId newStatus
          store.applications) writeOk).1 := by
    intro o
    unfold ApplicationsPage.handleUpdateStatus
    simp only
    split
    · rfl
    · split
      · cases o <;> rfl
      · rfl
  have hfound : ∃ application,
      (ApplicationsPage.loadApplicationsData store (some user)).applications.find?
        (fun app => app.applicationId == target.applicationId) = some application := by
    cases hf : (ApplicationsPage.loadApplicationsData store (some user)).applications.find?
        (fun app => app.applicationId == target.applicationId) with
    | some application => exact ⟨application, rfl⟩
    | none =>
      rw [List.find?_eq_none] at hf
      have := hf target htarget
      simp at this
  obtain ⟨application, hfa⟩ := hfound
  have herr : (ApplicationsPage.loadApplicationsData store (some user)).error = "" := by
    simp [ApplicationsPage.loadApplicationsData, ApplicationsPage.initialState]
  refine ⟨htn, ?_, ?_⟩
  · unfold ApplicationsPage.handleUpdateStatus
    simp only [hfa]
    split
    · cases outcome <;> exact herr
    · exact herr
  · rw [hstore]
    cases writeOk with
    | false => simpa [setApplications] using hforeign
    | true =>
      simp only [setApplications, if_true]
      exact mem_updateStatusIn_of_ne _ _ _ _ hforeign hidne

/-- Witness of the amended C17: the owner of the sample position accepts the
sample application while the store also holds an application that belongs to
`ngo2`. -/
theorem updateStatus_listed_only_witness :
    sampleApplication.ngoId = ownerNgo.id ∧
      (ApplicationsPage.handleUpdateStatus
          (ApplicationsPage.loadApplicationsData twoOwnerStore (some ownerNgo)) twoOwnerStore
          sampleApplication.applicationId "accepted" true NotifyOutcome.ok).page.error = "" ∧
      otherApplication ∈ (ApplicationsPage.handleUpdateStatus
          (ApplicationsPage.loadApplicationsData twoOwnerStore (some ownerNgo)) twoOwnerStore
          sampleApplication.applicationId "accepted" true NotifyOutcome.ok).store.applications :=
  updateStatus_listed_only twoOwnerStore ownerNgo sampleApplication otherApplication "accepted"
    true NotifyOutcome.ok rfl (by decide) (by decide) (by decide) (by decide)

/-- The store that `ApplicationsPage.handleUpdateStatus` leaves is the result
of its one write, whatever the page lists and however the notification
ends. -/
theorem ApplicationsPage.handleUpdateStatus_store (page : ApplicationsPageState)
    (store : Store) (applicationId newStatus : String) (writeOk : Bool)
    (outcome : NotifyOutcome) :
    (ApplicationsPage.handleUpdateStatus page store applicationId newStatus writeOk
        outcome).store =
      (setApplications store (updateStatusIn applicationId newStatus store.applications)
        writeOk).1 := by
  unfold ApplicationsPage.handleUpdateStatus
  simp only
  split
  · rfl
  · split
    · cases outcome <;> rfl
    · rfl

/-- C18, as stated, fails: `"missing"` is the id of no stored application, and
`handleUpdateStatus` of `PositionApplicationsPage` sets the success message and
no error. -/
theorem updateStatus_unknown_id_reports_success :
    (∀ app ∈ sampleStore.applications, app.applicationId ≠ "missing") ∧
      (PositionApplicationsPage.handleUpdateStatus blankPositionApplications sampleStore
          "missing" "accepted" true).1.successMessage =
        "Application status updated to accepted" ∧
      (PositionApplicationsPage.handleUpdateStatus blankPositionApplications sampleStore
          "missing" "accepted" true).1.error = "" := by
  decide

/-- C18, amended: when the `applicationId` matches no stored application, the
status update leaves the store unchanged, on both pages and whether or not the
write succeeds; there is no not-found result, and `handleUpdateStatus` of
`PositionApplicationsPage` sets the success message and leaves the error as it
was. -/
theorem updateStatus_unknown_id (store : Store) (positionPage : PositionApplicationsState)
    (page : ApplicationsPageState) (applicationId newStatus : String) (writeOk : Bool)
    (outcome : NotifyOutcome)
    (h : ∀ app ∈ store.applications, app.applicationId ≠ applicationId) :
    (PositionApplicationsPage.handleUpdateStatus positionPage store applicationId newStatus
        writeOk).2 = store ∧
      (ApplicationsPage.handleUpdateStatus page store applicationId newStatus writeOk
        outcome).store = store ∧
      (PositionApplicationsPage.handleUpdateStatus positionPage store applicationId newStatus
        writeOk).1.successMessage = "Application status updated to " ++ newStatus ∧
      (PositionApplicationsPage.handleUpdateStatus positionPage store applicationId newStatus
        writeOk).1.error = positionPage.error := by
  have hw : (setApplications store (updateStatusIn applicationId newStatus store.applications)
      writeOk).1 = store := by
    rw [updateStatusIn_of_no_match _ _ _ h]
    cases writeOk <;> simp [setApplications]
  refine ⟨hw, ?_, rfl, rfl⟩
  rw [ApplicationsPage.handleUpdateStatus_store, hw]

/-- Witness of the amended C18 on the sample store. -/
theorem updateStatus_unknown_id_witness :
    (PositionApplicationsPage.handleUpdateStatus blankPositionApplications sampleStore
        "missing" "accepted" true).2 = sampleStore ∧
      (ApplicationsPage.handleUpdateStatus ApplicationsPage.initialState sampleStore "missing"
        "accepted" true NotifyOutcome.ok).store = sampleStore ∧
      (PositionApplicationsPage.handleUpdateStatus blankPositionApplications sampleStore
        "missing" "accepted" true).1.successMessage = "Application status updated to " ++
          "accepted" ∧
      (PositionApplicationsPage.handleUpdateStatus blankPositionApplications sampleStore
        "missing" "accepted" true).1.error = blankPositionApplications.error :=
  updateStatus_unknown_id sampleStore blankPositionApplications ApplicationsPage.initialState
    "missing" "accepted" true NotifyOutcome.ok (by decide)

/-- C19: for every store, `applicationId` and new status, the list that
`handleUpdateStatus` writes (on either page) has the length and order of the
stored list; entry by entry the `applicationId`, `volunteerId`, `positionId`,
`ngoId` and `appliedAt` are those of the stored application, the status is the
new status when the `applicationId` matches, and the application is unchanged
when it does not; the positions and the users of the store are untouched,
whether or not the write succeeds. -/
theorem updateStatus_frame (store : Store) (positionPage : PositionApplicationsState)
    (page : ApplicationsPageState) (applicationId newStatus : String)
    (outcome : NotifyOutcome) :
    (PositionApplicationsPage.handleUpdateStatus positionPage store applicationId newStatus
        true).2.applications = updateStatusIn applicationId newStatus store.applications ∧
      (ApplicationsPage.handleUpdateStatus page store applicationId newStatus true
        outcome).store.applications = updateStatusIn applicationId newStatus store.applications ∧
      (updateStatusIn applicationId newStatus store.applications).length =
        store.applications.length ∧
      List.Forall₂
        (fun old new : Application =>
          new.applicationId = old.applicationId ∧ new.volunteerId = old.volunteerId ∧
            new.positionId = old.positionId ∧ new.ngoId = old.ngoId ∧
            new.appliedAt = old.appliedAt ∧
            (old.applicationId = applicationId → new.status = newStatus) ∧
            (old.applicationId ≠ applicationId → new = old))
        store.applications (updateStatusIn applicationId newStatus store.applications) ∧
      ∀ writeOk : Bool,
        (PositionApplicationsPage.handleUpdateStatus positionPage store applicationId newStatus
            writeOk).2.positions = store.positions ∧
          (PositionApplicationsPage.handleUpdateStatus positionPage store applicationId
            newStatus writeOk).2.users = store.users ∧
          (ApplicationsPage.handleUpdateStatus page store applicationId newStatus writeOk
            outcome).store.positions = store.positions ∧
          (ApplicationsPage.handleUpdateStatus page store applicationId newStatus writeOk
            outcome).store.users = store.users := by
  refine ⟨rfl, ?_, ?_, ?_, ?_⟩
  · rw [ApplicationsPage.handleUpdateStatus_store]
    rfl
  · simp [updateStatusIn]
  · unfold updateStatusIn
    rw [List.forall₂_map_right_iff, List.forall₂_same]
    intro app _
    by_cases h : app.applicationId = applicationId <;> simp [h]
  · intro writeOk
    rw [ApplicationsPage.handleUpdateStatus_store]
    cases writeOk <;>
      simp [PositionApplicationsPage.handleUpdateStatus, setApplications]

/-- C20: in `handleUpdateStatus` of `ApplicationsPage` the store, the page
state and the request sent are the same whether the notification succeeds,
returns a response that is not ok or throws; the store is the one left by the
status write, and whenever the page lists the application the update sets the
success message and leaves the error as it was, for every outcome of the
notification. -/
theorem updateStatus_notification_independent (page : ApplicationsPageState) (store : Store)
    (applicationId newStatus : String) (writeOk : Bool) (outcome outcome' : NotifyOutcome) :
    (ApplicationsPage.handleUpdateStatus page store applicationId newStatus writeOk
        outcome).store =
      (ApplicationsPage.handleUpdateStatus page store applicationId newStatus writeOk
        outcome').store ∧
    (ApplicationsPage.handleUpdateStatus page store applicationId newStatus writeOk
        outcome).page =
      (ApplicationsPage.handleUpdateStatus page store applicationId newStatus writeOk
        outcome').page ∧
    (ApplicationsPage.handleUpdateStatus page store applicationId newStatus writeOk
        outcome).requests =
      (ApplicationsPage.handleUpdateStatus page store applicationId newStatus writeOk
        outcome').requests ∧
    (ApplicationsPage.handleUpdateStatus page store applicationId newStatus writeOk
        outcome).store =
      (setApplications store (updateStatusIn applicationId newStatus store.applications)
        writeOk).1 ∧
    ∀ application : Application,
      page.applications.find? (fun app => app.applicationId == applicationId) =
          some application →
        (ApplicationsPage.handleUpdateStatus page store applicationId newStatus writeOk
            outcome).page.successMessage = "Application status updated to " ++ newStatus ∧
          (ApplicationsPage.handleUpdateStatus page store applicationId newStatus writeOk
            outcome).page.error = page.error := by
  refine ⟨?_, ?_, ?_, ApplicationsPage.handleUpdateStatus_store _ _ _ _ _ _, ?_⟩
  · rw [ApplicationsPage.handleUpdateStatus_store, ApplicationsPage.handleUpdateStatus_store]
  · unfold ApplicationsPage.handleUpdateStatus
    simp only
    split
    · rfl
    · split
      · cases outcome <;> cases outcome' <;> rfl
      · rfl
  · unfold ApplicationsPage.handleUpdateStatus
    simp only
    split
    · rfl
    · split
      · cases outcome <;> cases outcome' <;> rfl
      · rfl
  · intro application hfa
    unfold ApplicationsPage.handleUpdateStatus
    simp only [hfa]
    split
    · cases outcome <;> exact ⟨rfl, rfl⟩
    · exact ⟨rfl, rfl⟩

/-- The three outcomes of the notification are told apart only by the console:
the owner of the sample position accepts the sample application; the request
carries the volunteer's email and the status, and a failure is logged. -/
theorem updateStatus_notification_logged :
    (ApplicationsPage.handleUpdateStatus
        (ApplicationsPage.loadApplicationsData sampleStore (some ownerNgo)) sampleStore "a1"
        "accepted" true NotifyOutcome.throws).requests =
        [{ email := "asha@example.org", status := "accepted" }] ∧
      (ApplicationsPage.handleUpdateStatus
        (ApplicationsPage.loadApplicationsData sampleStore (some ownerNgo)) sampleStore "a1"
        "accepted" true NotifyOutcome.throws).consoleErrors =
        ["Error sending email notification:"] ∧
      (ApplicationsPage.handleUpdateStatus
        (ApplicationsPage.loadApplicationsData sampleStore (some ownerNgo)) sampleStore "a1"
        "accepted" true NotifyOutcome.ok).consoleErrors = [] := by
  decide!

/-! ## Notification and failed writes -/

/-- Looking a key up in a list of pairs built from a list of keys that holds
it. -/
theorem find?_map_pair {β : Type} (f : String → β) (key : String) :
    ∀ keys : List String, key ∈ keys →
      (keys.map (fun id => (id, f id))).find? (fun entry => entry.1 == key) =
        some (key, f key)
  | [], h => by simp at h
  | k :: rest, h => by
    by_cases hk : k = key
    · simp [hk]
    · have hmem : key ∈ rest := by
        rcases List.mem_cons.mp h with e | e
        · exact absurd e.symm hk
        · exact e
      simp [hk, find?_map_pair f key rest hmem]

/-- On an organization's `ApplicationsPage` loaded from the store, the status
update of a listed application whose volunteer has an email in the store sends
exactly one request, with that email and the lower-cased new status, whether
or not the write succeeded and however the request ends. -/
theorem ApplicationsPage.requests_of_listed (store : Store) (user volunteer : User)
    (target : Application) (newStatus : String) (writeOk : Bool) (outcome : NotifyOutcome)
    (hrole : user.role = ROLES.NGO)
    (hids : (store.applications.map (fun app => app.applicationId)).Nodup)
    (htarget : target ∈ (ApplicationsPage.loadApplicationsData store (some user)).applications)
    (hvol : getUser store target.volunteerId = some volunteer) (hemail : volunteer.email ≠ "") :
    (ApplicationsPage.handleUpdateStatus
        (ApplicationsPage.loadApplicationsData store (some user)) store target.applicationId
        newStatus writeOk outcome).requests =
      [{ email := volunteer.email, status := newStatus.toLower }] := by
  obtain ⟨hts, htn⟩ := (mem_loadApplicationsData_ngo store user target hrole).mp htarget
  have hv : isVolunteer (some user) = false := by
    simp [isVolunteer, hrole, ROLES.VOLUNTEER, ROLES.NGO]
  have hn : isNgo (some user) = true := by
    simp [isNgo, hrole]
  -- the application found in the page's list is the target
  have hfound : (ApplicationsPage.loadApplicationsData store (some user)).applications.find?
      (fun app => app.applicationId == target.applicationId) = some target := by
    cases hf : (ApplicationsPage.loadApplicationsData store (some user)).applications.find?
        (fun app => app.applicationId == target.applicationId) with
    | none =>
      rw [List.find?_eq_none] at hf
      have := hf target htarget
      simp at this
    | some found =>
      have hid : found.applicationId = target.applicationId := by
        have := List.find?_some hf
        simpa using this
      have hmem := (mem_loadApplicationsData_ngo store user found hrole).mp
        (List.mem_of_find?_eq_some hf)
      rw [List.inj_on_of_nodup_map hids hmem.1 hts hid]
  -- the page's map of volunteers holds the volunteer of the target
  have hemailOf : ApplicationsPage.volunteerEmail
      (ApplicationsPage.loadApplicationsData store (some user)).volunteers target.volunteerId =
        some volunteer.email := by
    have hkey : target.volunteerId ∈
        ((store.applications.filter (fun app => app.ngoId == user.id)).map
          (fun app => app.volunteerId)).dedup := by
      rw [List.mem_dedup, List.mem_map]
      exact ⟨target, by simp [hts, htn], rfl⟩
    have hlook := find?_map_pair (fun id => getUser store id) target.volunteerId _ hkey
    simp only [ApplicationsPage.loadApplicationsData, hv, hn, Bool.false_eq_true, if_false,
      if_true, ApplicationsPage.volunteerEmail, Option.map_some', Option.getD_some]
    rw [hlook]
    simp only [hvol]
    simp [hemail]
  unfold ApplicationsPage.handleUpdateStatus
  simp only [hfound, hemailOf]
  cases outcome <;> rfl

/-- C21 fails on `PositionApplicationsPage`: the owner of the sample position
accepts the sample application, whose volunteer has an email.  On
`ApplicationsPage` the update sends one request with that email and the
status; on `PositionApplicationsPage` the same update writes the same list and
sends no request. -/
theorem notification_missing_on_position_page :
    (ApplicationsPage.handleUpdateStatus
        (ApplicationsPage.loadApplicationsData sampleStore (some ownerNgo)) sampleStore "a1"
        "accepted" true NotifyOutcome.ok).requests =
        [{ email := "asha@example.org", status := "accepted" }] ∧
      (PositionApplicationsPage.handleUpdateStatus samplePositionApplications sampleStore "a1"
        "accepted" true).2.applications = [{ sampleApplication with status := "accepted" }] ∧
      PositionApplicationsPage.requestsSent samplePositionApplications sampleStore "a1"
        "accepted" true = [] := by
  decide!

/-- C22 fails when `localStorage.setItem` throws: the store is left as it was,
yet `handleApply` marks the volunteer as having applied and shows its success
message, and `handleUpdateStatus` shows the new status in the page's list,
shows its success message and sends the notification. -/
theorem failed_write_reported_as_success :
    (PositionDetailsPage.clickApply
        (PositionDetailsPage.loadPositionData emptyStore (some sampleVolunteer) "p1" 2000)
        emptyStore (some sampleVolunteer) 3000 "a1" false).2.applications = [] ∧
      (PositionDetailsPage.clickApply
        (PositionDetailsPage.loadPositionData emptyStore (some sampleVolunteer) "p1" 2000)
        emptyStore (some sampleVolunteer) 3000 "a1" false).1.hasApplied = true ∧
      (PositionDetailsPage.clickApply
        (PositionDetailsPage.loadPositionData emptyStore (some sampleVolunteer) "p1" 2000)
        emptyStore (some sampleVolunteer) 3000 "a1" false).1.successMessage =
        "Application submitted successfully!" ∧
      (ApplicationsPage.handleUpdateStatus
        (ApplicationsPage.loadApplicationsData sampleStore (some ownerNgo)) sampleStore "a1"
        "accepted" false NotifyOutcome.ok).store.applications = [sampleApplication] ∧
      (ApplicationsPage.handleUpdateStatus
        (ApplicationsPage.loadApplicationsData sampleStore (some ownerNgo)) sampleStore "a1"
        "accepted" false NotifyOutcome.ok).page.applications =
        [{ sampleApplication with status := "accepted" }] ∧
      (ApplicationsPage.handleUpdateStatus
        (ApplicationsPage.loadApplicationsData sampleStore (some ownerNgo)) sampleStore "a1"
        "accepted" false NotifyOutcome.ok).page.successMessage =
        "Application status updated to accepted" ∧
      (ApplicationsPage.handleUpdateStatus
        (ApplicationsPage.loadApplicationsData sampleStore (some ownerNgo)) sampleStore "a1"
        "accepted" false NotifyOutcome.ok).requests =
        [{ email := "asha@example.org", status := "accepted" }] ∧
      (PositionApplicationsPage.handleUpdateStatus samplePositionApplications sampleStore "a1"
        "accepted" false).2.applications = [sampleApplication] ∧
      (PositionApplicationsPage.handleUpdateStatus samplePositionApplications sampleStore "a1"
        "accepted" false).1.successMessage = "Application status updated to accepted" := by
  decide!

/-! ## Listings, breakdown and agreement of the two status updates -/

/-- The applications that `ApplicationsPage` lists for a volunteer are the
stored applications whose `volunteerId` is the volunteer's id. -/
theorem mem_loadApplicationsData_volunteer (store : Store) (user : User) (app : Application)
    (hrole : user.role = ROLES.VOLUNTEER) :
    app ∈ (ApplicationsPage.loadApplicationsData store (some user)).applications ↔
      app ∈ store.applications ∧ app.volunteerId = user.id := by
  have hv : isVolunteer (some user) = true := by
    simp [isVolunteer, hrole]
  simp [ApplicationsPage.loadApplicationsData, hv, List.mem_insertionSort]

/-- C23: for every store and logged-in user, the applications that
`loadApplicationsData` lists are exactly the stored applications with
`volunteerId = user.id` when the user is a volunteer and exactly those with
`ngoId = user.id` when the user is an organization; a user with neither role is
shown no application. -/
theorem loadApplicationsData_listing (store : Store) (user : User) :
    (user.role = ROLES.VOLUNTEER →
        ∀ app, app ∈ (ApplicationsPage.loadApplicationsData store (some user)).applications ↔
          app ∈ store.applications ∧ app.volunteerId = user.id) ∧
      (user.role = ROLES.NGO →
        ∀ app, app ∈ (ApplicationsPage.loadApplicationsData store (some user)).applications ↔
          app ∈ store.applications ∧ app.ngoId = user.id) ∧
      (user.role ≠ ROLES.VOLUNTEER → user.role ≠ ROLES.NGO →
        (ApplicationsPage.loadApplicationsData store (some user)).applications = []) := by
  refine ⟨fun h app => mem_loadApplicationsData_volunteer store user app h,
    fun h app => mem_loadApplicationsData_ngo store user app h, ?_⟩
  intro hv hn
  have h1 : isVolunteer (some user) = false := by simp [isVolunteer, hv]
  have h2 : isNgo (some user) = false := by simp [isNgo, hn]
  simp [ApplicationsPage.loadApplicationsData, h1, h2]

/-- The page's copy of `calculateMatchPercentage` is the function of
`src/utils/index.js`. -/
theorem PositionDetailsPage.calculateMatchPercentage_eq (userItems requiredItems : List String) :
    PositionDetailsPage.calculateMatchPercentage userItems requiredItems =
      calculateMatchPercentage userItems requiredItems := rfl

/-- C26: for every volunteer and stored position, the `scoreBreakdown` that
`PositionDetailsPage` sets holds the five terms of `calculateRelevanceScore`:
the displayed aggregate is `Math.round` of the weighted sum
`0.4 * skillMatch + 0.25 * causeMatch + 0.2 * availabilityMatch
+ 0.1 * proximityMatch + 0.05 * urgencyScore` of the displayed breakdown, as the
source evaluates it, and the page's own `calculateMatchPercentage` equals the
one of `src/utils/index.js` on every input. -/
theorem scoreBreakdown_terms (store : Store) (user : User) (position : Position)
    (positionId : String) (now : ℤ) (hvol : user.role = ROLES.VOLUNTEER)
    (hfind : store.positions.find? (fun pos => pos.positionId == positionId) = some position) :
    (∃ breakdown : ScoreBreakdown,
      (PositionDetailsPage.loadPositionData store (some user) positionId now).scoreBreakdown =
          some breakdown ∧
        (PositionDetailsPage.loadPositionData store (some user) positionId now).relevanceScore =
          jsRound (weightedSum breakdown.skillMatch breakdown.causeMatch
            breakdown.availabilityMatch breakdown.proximityMatch breakdown.urgencyScore) ∧
        (PositionDetailsPage.loadPositionData store (some user) positionId now).relevanceScore =
          calculateRelevanceScore (some user) (some position) ∧
        breakdown.skillMatch =
          calculateMatchPercentage (user.skills.getD []) (position.requiredSkills.getD []) ∧
        breakdown.causeMatch = causeMatch user position ∧
        breakdown.availabilityMatch =
          calculateMatchPercentage (user.availability.getD [])
            (position.availability.getD []) ∧
        breakdown.proximityMatch = proximityMatch user position ∧
        breakdown.urgencyScore = urgencyScore position) ∧
      ∀ userItems requiredItems : List String,
        PositionDetailsPage.calculateMatchPercentage userItems requiredItems =
          calculateMatchPercentage userItems requiredItems := by
  have hn : isNgo (some user) = false := by
    simp [isNgo, hvol, ROLES.VOLUNTEER, ROLES.NGO]
  have hv : isVolunteer (some user) = true := by
    simp [isVolunteer, hvol]
  refine ⟨?_, fun _ _ => rfl⟩
  refine ⟨{ skillMatch := calculateMatchPercentage (user.skills.getD [])
              (position.requiredSkills.getD []),
            causeMatch := causeMatch user position,
            availabilityMatch := calculateMatchPercentage (user.availability.getD [])
              (position.availability.getD []),
            proximityMatch := proximityMatch user position,
            urgencyScore := urgencyScore position }, ?_, ?_, ?_, rfl, rfl, rfl, rfl, rfl⟩
  · simp only [PositionDetailsPage.loadPositionData, hfind, hn, hv, Bool.false_and,
      Bool.false_eq_true, if_false, if_true]
    split <;> rfl
  · simp only [PositionDetailsPage.loadPositionData, hfind, hn, hv, Bool.false_and,
      Bool.false_eq_true, if_false, if_true]
    split <;> rfl
  · simp only [PositionDetailsPage.loadPositionData, hfind, hn, hv, Bool.false_and,
      Bool.false_eq_true, if_false, if_true]
    split <;> rfl

/-- Witness of C26: the sample volunteer opens the sample position. -/
theorem scoreBreakdown_terms_witness :
    (PositionDetailsPage.loadPositionData emptyStore (some sampleVolunteer) "p1"
        2000).relevanceScore =
      calculateRelevanceScore (some sampleVolunteer) (some samplePosition) := by
  obtain ⟨_, _, _, h, _⟩ :=
    (scoreBreakdown_terms emptyStore sampleVolunteer samplePosition "p1" 2000 rfl rfl).1
  exact h

/-- Updating twice with the same id and status is updating once. -/
theorem updateStatusIn_idem (applicationId newStatus : String) (apps : List Application) :
    updateStatusIn applicationId newStatus (updateStatusIn applicationId newStatus apps) =
      updateStatusIn applicationId newStatus apps := by
  unfold updateStatusIn
  rw [List.map_map]
  apply List.map_congr_left
  intro app _
  by_cases h : app.applicationId = applicationId <;> simp [h]

/-- C28: the two `handleUpdateStatus` implementations leave the same store,
which holds the list `updateStatusIn` when the write succeeds, and applying
the same update a second time leaves the list and the store of the first. -/
theorem updateStatus_agree (store : Store) (page page' : ApplicationsPageState)
    (positionPage positionPage' : PositionApplicationsState) (applicationId newStatus : String)
    (writeOk : Bool) (outcome outcome' : NotifyOutcome) :
    (ApplicationsPage.handleUpdateStatus page store applicationId newStatus writeOk
        outcome).store =
      (PositionApplicationsPage.handleUpdateStatus positionPage store applicationId newStatus
        writeOk).2 ∧
    (ApplicationsPage.handleUpdateStatus page store applicationId newStatus true
        outcome).store.applications =
      updateStatusIn applicationId newStatus store.applications ∧
    (PositionApplicationsPage.handleUpdateStatus positionPage store applicationId newStatus
        true).2.applications = updateStatusIn applicationId newStatus store.applications ∧
    updateStatusIn applicationId newStatus
        (updateStatusIn applicationId newStatus store.applications) =
      updateStatusIn applicationId newStatus store.applications ∧
    (ApplicationsPage.handleUpdateStatus page'
        (ApplicationsPage.handleUpdateStatus page store applicationId newStatus true
          outcome).store applicationId newStatus true outcome').store =
      (ApplicationsPage.handleUpdateStatus page store applicationId newStatus true
        outcome).store ∧
    (PositionApplicationsPage.handleUpdateStatus positionPage'
        (PositionApplicationsPage.handleUpdateStatus positionPage store applicationId newStatus
          true).2 applicationId newStatus true).2 =
      (PositionApplicationsPage.handleUpdateStatus positionPage store applicationId newStatus
        true).2 := by
  refine ⟨?_, ?_, rfl, updateStatusIn_idem _ _ _, ?_, ?_⟩
  · rw [ApplicationsPage.handleUpdateStatus_store]
    rfl
  · rw [ApplicationsPage.handleUpdateStatus_store]
    rfl
  · rw [ApplicationsPage.handleUpdateStatus_store, ApplicationsPage.handleUpdateStatus_store]
    simp [setApplications, updateStatusIn_idem]
  · simp [PositionApplicationsPage.handleUpdateStatus, setApplications, updateStatusIn_idem]

/-! ## Reachable stores -/

/-- What `handleApply` does to the store: nothing, or one pending application
for the page's position appended. -/
theorem handleApply_cases (page : PositionDetailsState) (store : Store) (user : Option User)
    (now : ℤ) (newId : String) (writeOk : Bool) :
    (PositionDetailsPage.handleApply page store user now newId writeOk).2 = store ∨
      ∃ (u : User) (position : Position), user = some u ∧ page.position = some position ∧
        page.hasApplied = false ∧ writeOk = true ∧
        (PositionDetailsPage.handleApply page store user now newId writeOk).2 =
          { store with
              applications := store.applications ++
                [{ applicationId := newId, volunteerId := u.id,
                   positionId := position.positionId, ngoId := position.ngoId,
                   status := APPLICATION_STATUS.PENDING, appliedAt := now }] } := by
  unfold PositionDetailsPage.handleApply
  cases hh : page.hasApplied with
  | true => left; simp
  | false =>
    cases user with
    | none => left; simp
    | some u =>
      cases hp : page.position with
      | none => left; simp
      | some position =>
        cases writeOk with
        | false => left; simp [setApplications]
        | true =>
          right
          exact ⟨u, position, rfl, rfl, rfl, rfl, by simp [setApplications]⟩

/-- What a write of the applications does to the store: nothing, or the list
is replaced. -/
theorem setApplications_cases (store : Store) (value : List Application) (writeOk : Bool) :
    (setApplications store value writeOk).1 = store ∨
      (setApplications store value writeOk).1 = { store with applications := value } := by
  cases writeOk
  · left; rfl
  · right; rfl

/-- The applications after a status update come from the applications before,
with the status replaced where the id matches. -/
theorem mem_updateStatusIn (applicationId newStatus : String) (apps : List Application)
    (app' : Application) :
    app' ∈ updateStatusIn applicationId newStatus apps ↔
      ∃ app ∈ apps, app' =
        if app.applicationId = applicationId then { app with status := newStatus } else app := by
  unfold updateStatusIn
  rw [List.mem_map]
  constructor
  · rintro ⟨app, happ, rfl⟩
    exact ⟨app, happ, rfl⟩
  · rintro ⟨app, happ, rfl⟩
    exact ⟨app, happ, rfl⟩

/-- A step of the application life cycle keeps every stored status among the
three statuses. -/
theorem statusStep_preserves (store next : Store) (hstep : StatusStep store next)
    (h : ∀ app ∈ store.applications, app.status ∈ APPLICATION_STATUS.values) :
    ∀ app ∈ next.applications, app.status ∈ APPLICATION_STATUS.values := by
  have hupdate : ∀ (applicationId newStatus : String) (writeOk : Bool),
      newStatus ∈ APPLICATION_STATUS.values →
      ∀ app ∈ (setApplications store (updateStatusIn applicationId newStatus store.applications)
        writeOk).1.applications, app.status ∈ APPLICATION_STATUS.values := by
    intro applicationId newStatus writeOk hs app happ
    rcases setApplications_cases store
      (updateStatusIn applicationId newStatus store.applications) writeOk with e | e
    · rw [e] at happ; exact h app happ
    · rw [e] at happ
      obtain ⟨old, hold, rfl⟩ := (mem_updateStatusIn _ _ _ _).mp happ
      by_cases hid : old.applicationId = applicationId
      · simpa [hid] using hs
      · simpa [hid] using h old hold
  cases hstep with
  | apply page user now newId writeOk =>
    intro app happ
    rcases handleApply_cases page store user now newId writeOk with e | ⟨u, position, -, -, -, -, e⟩
    · rw [e] at happ; exact h app happ
    · rw [e] at happ
      rcases List.mem_append.mp happ with hold | hnew
      · exact h app hold
      · rw [List.mem_singleton] at hnew
        rw [hnew]
        simp [APPLICATION_STATUS.values]
  | updateOnApplicationsPage page applicationId newStatus writeOk outcome hs =>
    rw [ApplicationsPage.handleUpdateStatus_store]
    exact hupdate applicationId newStatus writeOk hs
  | updateOnPositionPage page applicationId newStatus writeOk hs =>
    exact hupdate applicationId newStatus writeOk hs

/-- C24: in every store reachable from a store without applications by
`handleApply` and by status updates whose new status is one of `pending`,
`accepted`, `rejected`, every stored application has one of these three
statuses; an application that `handleApply` creates is `pending`; and whatever
the status of a stored application, an update with its id can set it to
`accepted` or to `rejected` from either page. -/
theorem status_lifecycle :
    (∀ store : Store, StatusReachable store →
        ∀ app ∈ store.applications, app.status ∈ APPLICATION_STATUS.values) ∧
      (∀ (page : PositionDetailsState) (store : Store) (user : Option User) (now : ℤ)
          (newId : String) (writeOk : Bool),
        ∀ app ∈ (PositionDetailsPage.handleApply page store user now newId
            writeOk).2.applications,
          app ∈ store.applications ∨
            (app.applicationId = newId ∧ app.status = APPLICATION_STATUS.PENDING)) ∧
      ∀ (store : Store) (page : ApplicationsPageState) (positionPage : PositionApplicationsState)
          (outcome : NotifyOutcome) (app : Application) (newStatus : String),
        app ∈ store.applications →
        newStatus ∈ [APPLICATION_STATUS.ACCEPTED, APPLICATION_STATUS.REJECTED] →
          { app with status := newStatus } ∈
              (ApplicationsPage.handleUpdateStatus page store app.applicationId newStatus true
                outcome).store.applications ∧
            { app with status := newStatus } ∈
              (PositionApplicationsPage.handleUpdateStatus positionPage store app.applicationId
                newStatus true).2.applications := by
  refine ⟨?_, ?_, ?_⟩
  · intro store hreach
    induction hreach with
    | empty store h => intro app happ; rw [h] at happ; simp at happ
    | step store next _ hstep ih => exact statusStep_preserves store next hstep ih
  · intro page store user now newId writeOk app happ
    rcases handleApply_cases page store user now newId writeOk with e | ⟨u, position, -, -, -, -, e⟩
    · rw [e] at happ; exact Or.inl happ
    · rw [e] at happ
      rcases List.mem_append.mp happ with hold | hnew
      · exact Or.inl hold
      · rw [List.mem_singleton] at hnew
        rw [hnew]
        exact Or.inr ⟨rfl, rfl⟩
  · intro store page positionPage outcome app newStatus happ _
    have hmem : { app with status := newStatus } ∈
        updateStatusIn app.applicationId newStatus store.applications :=
      (mem_updateStatusIn _ _ _ _).mpr ⟨app, happ, by simp⟩
    constructor
    · rw [ApplicationsPage.handleUpdateStatus_store]
      exact hmem
    · exact hmem

/-- The store in which the sample application has been accepted is reachable:
the sample volunteer applies and the owner accepts. -/
theorem statusReachable_accepted_sample :
    StatusReachable
      (PositionApplicationsPage.handleUpdateStatus samplePositionApplications
        (PositionDetailsPage.handleApply
          (PositionDetailsPage.loadPositionData emptyStore (some sampleVolunteer) "p1" 2000)
          emptyStore (some sampleVolunteer) 5000 "a1" true).2 "a1" "accepted" true).2 :=
  StatusReachable.step _ _
    (StatusReachable.step _ _ (StatusReachable.empty emptyStore rfl)
      (StatusStep.apply emptyStore _ (some sampleVolunteer) 5000 "a1" true))
    (StatusStep.updateOnPositionPage _ samplePositionApplications "a1" "accepted" true
      (by decide))

/-- Witness of C24 on the store in which the sample volunteer has applied and
the owner has accepted. -/
theorem status_lifecycle_witness :
    ∀ app ∈ (PositionApplicationsPage.handleUpdateStatus samplePositionApplications
        (PositionDetailsPage.handleApply
          (PositionDetailsPage.loadPositionData emptyStore (some sampleVolunteer) "p1" 2000)
          emptyStore (some sampleVolunteer) 5000 "a1" true).2 "a1" "accepted"
        true).2.applications, app.status ∈ APPLICATION_STATUS.values :=
  status_lifecycle.1 _ statusReachable_accepted_sample

/-! ## Creating a position -/

/-- What `handleSubmit` of `CreatePositionPage` does to the store: nothing, or,
when the form has no error and the write succeeds, the new position is
appended. -/
theorem handleSubmit_cases (page : CreatePositionState) (formData : PositionForm)
    (user : Option User) (store : Store) (now : ℤ) (newId : String) (writeOk : Bool) :
    (CreatePositionPage.handleSubmit page formData user store now newId writeOk).2 = store ∨
      ∃ u : User, user = some u ∧
        CreatePositionPage.validateForm formData = FormErrors.none ∧ writeOk = true ∧
        (CreatePositionPage.handleSubmit page formData user store now newId writeOk).2 =
          { store with
              positions := store.positions ++
                [CreatePositionPage.newPosition formData u now newId] } := by
  unfold CreatePositionPage.handleSubmit
  by_cases herr : CreatePositionPage.validateForm formData = FormErrors.none
  · cases user with
    | none => left; simp [herr]
    | some u =>
      cases writeOk with
      | false => left; simp [herr, setPositions]
      | true => right; exact ⟨u, rfl, herr, rfl, by simp [herr, setPositions]⟩
  · left; simp [herr]

/-- When `validateForm` records no error for `validForDays`, `parseInt` reads
a number between 1 and 365 from the field. -/
theorem validForDaysError_eq_none (value : String) (h : validForDaysError value = none) :
    ∃ days : ℤ, parseInt value = some days ∧ 1 ≤ days ∧ days ≤ 365 := by
  unfold validForDaysError at h
  by_cases hv : value = ""
  · simp [hv] at h
  · rw [if_neg hv] at h
    cases hp : parseInt value with
    | none => simp [hp] at h
    | some days =>
      simp only [hp] at h
      by_cases h0 : days ≤ 0
      · simp [h0] at h
      · by_cases h365 : days > 365
        · simp [h0, h365] at h
        · exact ⟨days, rfl, by omega, by omega⟩

/-- When the field `validForDays` is empty, or `parseInt` reads no number from
it, or the number read is not positive or exceeds 365, `validateForm` records an
error for it. -/
theorem validForDaysError_ne_none (value : String)
    (h : value = "" ∨ parseInt value = none ∨
      ∃ days : ℤ, parseInt value = some days ∧ (days ≤ 0 ∨ 365 < days)) :
    validForDaysError value ≠ none := by
  unfold validForDaysError
  by_cases hv : value = ""
  · simp [hv]
  · rw [if_neg hv]
    rcases h with h | h | ⟨days, hp, h0 | h365⟩
    · exact absurd h hv
    · simp [h]
    · simp [hp, h0]
    · by_cases h0 : days ≤ 0
      · simp [hp, h0]
      · simp [hp, h0, h365]

/-- A decimal digit is not white space and not a sign. -/
theorem isDigit_not_special (c : Char) (h : c.isDigit = true) :
    jsWhiteSpace c = false ∧ c ≠ '-' ∧ c ≠ '+' := by
  have hc : 48 ≤ c.toNat ∧ c.toNat ≤ 57 := by
    simp only [Char.isDigit, Bool.and_eq_true, decide_eq_true_eq] at h
    exact ⟨h.1, h.2⟩
  refine ⟨?_, ?_, ?_⟩
  · simp only [jsWhiteSpace, Bool.or_eq_false_iff, Bool.and_eq_false_iff, decide_eq_false_iff_not]
    constructor
    · rw [← Bool.not_eq_true, List.contains_iff_exists_mem_beq]
      rintro ⟨n, hn, hbeq⟩
      have : c.toNat = n := by simpa using hbeq
      simp only [List.mem_cons, List.mem_singleton, List.not_mem_nil, or_false] at hn
      omega
    · left; omega
  · rintro rfl; exact absurd h (by decide)
  · rintro rfl; exact absurd h (by decide)

/-- On a plain decimal numeral, `parseInt` reads the number it writes. -/
theorem parseInt_of_digits (s : String) (hne : s.toList ≠ [])
    (hdigits : ∀ c ∈ s.toList, c.isDigit = true) :
    parseInt s = some (digitsValue s.toList : ℤ) := by
  unfold parseInt
  obtain ⟨c, rest, hs⟩ := List.exists_cons_of_ne_nil hne
  have hc := isDigit_not_special c (hdigits c (by rw [hs]; exact List.mem_cons_self _ _))
  have hdrop : s.toList.dropWhile jsWhiteSpace = s.toList := by
    rw [hs, List.dropWhile_cons_of_neg (by simp [hc.1])]
  have htake : s.toList.takeWhile Char.isDigit = s.toList :=
    List.takeWhile_eq_self_iff.mpr hdigits
  simp only [hdrop]
  rw [hs] at htake ⊢
  have hm : stripSign (c :: rest) = c :: rest := by
    unfold stripSign
    split
    · rename_i heq; exact absurd (List.cons.inj heq).1 hc.2.1
    · rename_i heq; exact absurd (List.cons.inj heq).1 hc.2.2
    · rfl
  simp only [hm, htake]
  simp [hc.2.1]

/-- C25 fails on a field with more than leading digits: `validateForm` checks
what `parseInt` reads from the field, and `parseInt` reads the leading digits
and ignores the rest.  A form whose `validForDays` is "1e3" (the number 1000,
greater than 365) and a form whose `validForDays` is "12abc" (not a number) get
past the `isNaN` and `days > 365` checks, and `handleSubmit` writes positions
with `validForDays` 1 and 12. -/
theorem handleSubmit_reads_leading_digits :
    CreatePositionPage.validateForm { sampleForm with validForDays := "1e3" } =
        FormErrors.none ∧
      ((CreatePositionPage.handleSubmit CreatePositionPage.initialState
          { sampleForm with validForDays := "1e3" } (some ownerNgo) blankStore 1000 "p9"
          true).2.positions.map (fun position => position.validForDays)) = [some 1] ∧
      CreatePositionPage.validateForm { sampleForm with validForDays := "12abc" } =
        FormErrors.none ∧
      ((CreatePositionPage.handleSubmit CreatePositionPage.initialState
          { sampleForm with validForDays := "12abc" } (some ownerNgo) blankStore 1000 "p9"
          true).2.positions.map (fun position => position.validForDays)) = [some 12] := by
  decide!

/-- What the validation does ensure: for every form input, `handleSubmit`
either leaves the store as it was or, `validateForm` having returned no error,
appends one position whose `validForDays` is the integer that `parseInt` reads
from the field, and that integer is between 1 and 365; an input whose
`validForDays` is empty, or from which `parseInt` reads no number, or a number
that is not positive or exceeds 365, leaves the store as it was and gets an
error on the field; and on a plain decimal numeral `parseInt` reads the number
written, so that there the checks are on the field's number. -/
theorem handleSubmit_validForDays (page : CreatePositionState) (formData : PositionForm)
    (user : Option User) (store : Store) (now : ℤ) (newId : String) (writeOk : Bool) :
    ((CreatePositionPage.handleSubmit page formData user store now newId writeOk).2 = store ∨
        ∃ (u : User) (days : ℤ),
          CreatePositionPage.validateForm formData = FormErrors.none ∧
          parseInt formData.validForDays = some days ∧ 1 ≤ days ∧ days ≤ 365 ∧
          (CreatePositionPage.newPosition formData u now newId).validForDays = some days ∧
          (CreatePositionPage.handleSubmit page formData user store now newId writeOk).2 =
            { store with
                positions := store.positions ++
                  [CreatePositionPage.newPosition formData u now newId] }) ∧
      ((formData.validForDays = "" ∨ parseInt formData.validForDays = none ∨
          ∃ days : ℤ, parseInt formData.validForDays = some days ∧ (days ≤ 0 ∨ 365 < days)) →
        (CreatePositionPage.handleSubmit page formData user store now newId writeOk).2 = store ∧
          (CreatePositionPage.handleSubmit page formData user store now newId
            writeOk).1.errors.validForDays ≠ none) ∧
      (formData.validForDays.toList ≠ [] →
        (∀ c ∈ formData.validForDays.toList, c.isDigit = true) →
        parseInt formData.validForDays = some (digitsValue formData.validForDays.toList : ℤ)) := by
  refine ⟨?_, ?_, parseInt_of_digits formData.validForDays⟩
  · rcases handleSubmit_cases page formData user store now newId writeOk with
      h | ⟨u, -, herr, -, h⟩
    · exact Or.inl h
    · right
      have hv : validForDaysError formData.validForDays = none := by
        have := congrArg FormErrors.validForDays herr
        simpa [CreatePositionPage.validateForm, FormErrors.none] using this
      obtain ⟨days, hp, h1, h365⟩ := validForDaysError_eq_none _ hv
      exact ⟨u, days, herr, hp, h1, h365, by simp [CreatePositionPage.newPosition, hp], h⟩
  · intro hbad
    have hne := validForDaysError_ne_none _ hbad
    have herr : CreatePositionPage.validateForm formData ≠ FormErrors.none := by
      intro herr
      have := congrArg FormErrors.validForDays herr
      exact hne (by simpa [CreatePositionPage.validateForm, FormErrors.none] using this)
    unfold CreatePositionPage.handleSubmit
    simp only [ne_eq, herr, not_false_eq_true, if_true]
    exact ⟨trivial, by simpa [CreatePositionPage.validateForm] using hne⟩

/-- The sample form passes the validation, and submitting it to the blank store
writes one position that is valid for 30 days. -/
theorem handleSubmit_sample :
    (CreatePositionPage.handleSubmit CreatePositionPage.initialState sampleForm
        (some ownerNgo) blankStore 1000 "p1" true).2.positions.map
        (fun position => (position.positionId, position.ngoId, position.validForDays)) =
      [("p1", "ngo1", some 30)] := by
  decide!

/-- The sample form with `validForDays` 400 is rejected: the store stays as it
was and the field gets an error. -/
theorem handleSubmit_validForDays_witness :
    (CreatePositionPage.handleSubmit CreatePositionPage.initialState
        { sampleForm with validForDays := "400" } (some ownerNgo) blankStore 1000 "p9"
        true).2 = blankStore ∧
      (CreatePositionPage.handleSubmit CreatePositionPage.initialState
        { sampleForm with validForDays := "400" } (some ownerNgo) blankStore 1000 "p9"
        true).1.errors.validForDays ≠ none :=
  (handleSubmit_validForDays CreatePositionPage.initialState
    { sampleForm with validForDays := "400" } (some ownerNgo) blankStore 1000 "p9" true).2.1
    (Or.inr (Or.inr ⟨400, by decide!, Or.inr (by decide)⟩))

/-! ## Recommendations on the volunteer dashboard -/

/-- The dashboard's sort puts the scores in non-increasing order. -/
theorem sortedPositions_sorted (store : Store) (user : Option User) (now : ℤ) :
    (VolunteerDashboard.sortedPositions store user now).Pairwise
      (fun a b => b.relevanceScore ≤ a.relevanceScore) := by
  haveI : IsTotal ScoredPosition (fun a b => b.relevanceScore ≤ a.relevanceScore) :=
    ⟨fun a b => le_total b.relevanceScore a.relevanceScore⟩
  haveI : IsTrans ScoredPosition (fun a b => b.relevanceScore ≤ a.relevanceScore) :=
    ⟨fun _ _ _ hab hbc => le_trans hbc hab⟩
  exact List.sorted_insertionSort (fun a b : ScoredPosition => b.relevanceScore ≤ a.relevanceScore)
    (VolunteerDashboard.scoredPositions store user now)

/-- The scored positions are the stored positions that are not expired, each
with its score. -/
theorem mem_scoredPositions (store : Store) (user : Option User) (now : ℤ)
    (x : ScoredPosition) :
    x ∈ VolunteerDashboard.scoredPositions store user now ↔
      ∃ position ∈ store.positions, isPositionExpired position now = false ∧
        x = { position := position,
              relevanceScore := calculateRelevanceScore user (some position),
              daysRemaining := getDaysRemaining position now } := by
  simp only [VolunteerDashboard.scoredPositions, List.mem_map, List.mem_filter,
    Bool.not_eq_true_eq_eq_false, Bool.not_eq_true']
  constructor
  · rintro ⟨position, ⟨hmem, hexp⟩, rfl⟩
    exact ⟨position, hmem, hexp, rfl⟩
  · rintro ⟨position, hmem, hexp, rfl⟩
    exact ⟨position, ⟨hmem, hexp⟩, rfl⟩

/-- C27: for every volunteer and store, every recommendation that
`loadDashboardData` of `VolunteerDashboard` computes is a stored position that
is not expired at `now`, with its relevance score; the recommendations are in
order of non-increasing score; there are at most three; together with the
sorted positions after the third they are the scored positions, rearranged;
and every stored position that is not expired is either recommended or has a
score no greater than that of every recommended one. -/
theorem recommendedPositions_spec (store : Store) (user : User) (now : ℤ) :
    (∀ x ∈ VolunteerDashboard.recommendedPositions store (some user) now,
        x.position ∈ store.positions ∧ isPositionExpired x.position now = false ∧
          x.relevanceScore = calculateRelevanceScore (some user) (some x.position)) ∧
      (VolunteerDashboard.recommendedPositions store (some user) now).Pairwise
        (fun a b => b.relevanceScore ≤ a.relevanceScore) ∧
      (VolunteerDashboard.recommendedPositions store (some user) now).length ≤ 3 ∧
      (VolunteerDashboard.recommendedPositions store (some user) now ++
          (VolunteerDashboard.sortedPositions store (some user) now).drop 3).Perm
        (VolunteerDashboard.scoredPositions store (some user) now) ∧
      (∀ y ∈ (VolunteerDashboard.sortedPositions store (some user) now).drop 3,
        ∀ x ∈ VolunteerDashboard.recommendedPositions store (some user) now,
          y.relevanceScore ≤ x.relevanceScore) ∧
      ∀ position ∈ store.positions, isPositionExpired position now = false →
        (∃ x ∈ VolunteerDashboard.recommendedPositions store (some user) now,
            x.position = position) ∨
          ∀ x ∈ VolunteerDashboard.recommendedPositions store (some user) now,
            calculateRelevanceScore (some user) (some position) ≤ x.relevanceScore := by
  have hrec : VolunteerDashboard.recommendedPositions store (some user) now =
      (VolunteerDashboard.sortedPositions store (some user) now).take 3 := rfl
  have hsorted := sortedPositions_sorted store (some user) now
  have hperm : (VolunteerDashboard.sortedPositions store (some user) now).Perm
      (VolunteerDashboard.scoredPositions store (some user) now) :=
    List.perm_insertionSort _ _
  have hsplit : VolunteerDashboard.recommendedPositions store (some user) now ++
      (VolunteerDashboard.sortedPositions store (some user) now).drop 3 =
      VolunteerDashboard.sortedPositions store (some user) now := by
    rw [hrec]; exact List.take_append_drop 3 _
  have hleft : ∀ y ∈ (VolunteerDashboard.sortedPositions store (some user) now).drop 3,
      ∀ x ∈ VolunteerDashboard.recommendedPositions store (some user) now,
        y.relevanceScore ≤ x.relevanceScore := by
    intro y hy x hx
    have hpair := hsorted
    rw [← hsplit, List.pairwise_append] at hpair
    exact hpair.2.2 x hx y hy
  refine ⟨?_, ?_, ?_, ?_, hleft, ?_⟩
  · intro x hx
    have hmem : x ∈ VolunteerDashboard.scoredPositions store (some user) now :=
      hperm.subset (List.mem_of_mem_take (by rw [hrec] at hx; exact hx))
    obtain ⟨position, hpos, hexp, rfl⟩ := (mem_scoredPositions store (some user) now x).mp hmem
    exact ⟨hpos, hexp, rfl⟩
  · rw [hrec]
    exact hsorted.sublist (List.take_sublist 3 _)
  · rw [hrec]
    exact List.length_take_le 3 _
  · rw [hsplit]
    exact hperm
  · intro position hpos hexp
    have hmem : ({ position := position,
                   relevanceScore := calculateRelevanceScore (some user) (some position),
                   daysRemaining := getDaysRemaining position now } : ScoredPosition) ∈
        VolunteerDashboard.recommendedPositions store (some user) now ++
          (VolunteerDashboard.sortedPositions store (some user) now).drop 3 := by
      rw [hsplit]
      exact hperm.symm.subset
        ((mem_scoredPositions store (some user) now _).mpr ⟨position, hpos, hexp, rfl⟩)
    rcases List.mem_append.mp hmem with h | h
    · exact Or.inl ⟨_, h, rfl⟩
    · exact Or.inr (fun x hx => hleft _ h x hx)

/-- On a store with four open positions of different scores, the three with
the highest scores are recommended, highest first, and the sample position,
whose validity has ended, is not. -/
theorem recommendedPositions_sample :
    (VolunteerDashboard.recommendedPositions dashboardStore (some sampleVolunteer)
        (1000 + 31 * 86400000)).map
      (fun x => (x.position.positionId, x.relevanceScore)) =
      [("p5", 100), ("p3", 96), ("p4", 90)] := by
  decide!

/-! ## The organization of an application -/

/-- The invariant behind C29: stored positions have different ids, and every
stored application names a stored position and carries its `ngoId`. -/
theorem lifecycleStep_preserves (store next : Store) (hstep : LifecycleStep store next)
    (hnodup : (store.positions.map (fun position => position.positionId)).Nodup)
    (happs : ∀ app ∈ store.applications, ∃ position ∈ store.positions,
      position.positionId = app.positionId ∧ position.ngoId = app.ngoId) :
    (next.positions.map (fun position => position.positionId)).Nodup ∧
      ∀ app ∈ next.applications, ∃ position ∈ next.positions,
        position.positionId = app.positionId ∧ position.ngoId = app.ngoId := by
  have hupdate : ∀ (applicationId newStatus : String) (writeOk : Bool),
      ((setApplications store (updateStatusIn applicationId newStatus store.applications)
          writeOk).1.positions.map (fun position => position.positionId)).Nodup ∧
        ∀ app ∈ (setApplications store (updateStatusIn applicationId newStatus store.applications)
          writeOk).1.applications, ∃ position ∈ (setApplications store
            (updateStatusIn applicationId newStatus store.applications) writeOk).1.positions,
          position.positionId = app.positionId ∧ position.ngoId = app.ngoId := by
    intro applicationId newStatus writeOk
    rcases setApplications_cases store
      (updateStatusIn applicationId newStatus store.applications) writeOk with e | e
    · rw [e]; exact ⟨hnodup, happs⟩
    · rw [e]
      refine ⟨hnodup, ?_⟩
      intro app happ
      obtain ⟨old, hold, rfl⟩ := (mem_updateStatusIn _ _ _ _).mp happ
      obtain ⟨position, hpos, hid, hngo⟩ := happs old hold
      refine ⟨position, hpos, ?_, ?_⟩
      · split <;> simpa using hid
      · split <;> simpa using hngo
  cases hstep with
  | create page formData user now newId writeOk hfresh =>
    rcases handleSubmit_cases page formData user store now newId writeOk with
      e | ⟨u, -, -, -, e⟩
    · rw [e]; exact ⟨hnodup, happs⟩
    · rw [e]
      constructor
      · simp only [List.map_append, List.map_cons, List.map_nil]
        rw [List.nodup_append]
        refine ⟨hnodup, List.nodup_singleton _, ?_⟩
        intro id hid hnew
        rw [List.mem_singleton] at hnew
        obtain ⟨position, hpos, rfl⟩ := List.mem_map.mp hid
        exact hfresh position hpos (by simpa [CreatePositionPage.newPosition] using hnew)
      · intro app happ
        obtain ⟨position, hpos, hid, hngo⟩ := happs app happ
        exact ⟨position, List.mem_append_left _ hpos, hid, hngo⟩
  | apply page position user now newId writeOk hpage hstored =>
    rcases handleApply_cases page store user now newId writeOk with
      e | ⟨u, position', -, hpage', -, -, e⟩
    · rw [e]; exact ⟨hnodup, happs⟩
    · rw [e]
      refine ⟨hnodup, ?_⟩
      intro app happ
      rcases List.mem_append.mp happ with hold | hnew
      · exact happs app hold
      · rw [List.mem_singleton] at hnew
        have hsame : position' = position := by
          rw [hpage] at hpage'
          exact (Option.some.inj hpage').symm
        subst hsame
        exact ⟨position', List.mem_of_find?_eq_some hstored, by rw [hnew], by rw [hnew]⟩
  | updateOnApplicationsPage page applicationId newStatus writeOk outcome =>
    rw [ApplicationsPage.handleUpdateStatus_store]
    exact hupdate applicationId newStatus writeOk
  | updateOnPositionPage page applicationId newStatus writeOk =>
    exact hupdate applicationId newStatus writeOk

/-- In every reachable store, stored positions have different ids, and every
stored application names a stored position and carries its `ngoId`. -/
theorem lifecycleReachable_invariant (store : Store) (h : LifecycleReachable store) :
    (store.positions.map (fun position => position.positionId)).Nodup ∧
      ∀ app ∈ store.applications, ∃ position ∈ store.positions,
        position.positionId = app.positionId ∧ position.ngoId = app.ngoId := by
  induction h with
  | empty store hp ha =>
    rw [hp, ha]
    exact ⟨List.nodup_nil, fun app happ => absurd happ (List.not_mem_nil app)⟩
  | step store next _ hstep ih => exact lifecycleStep_preserves store next hstep ih.1 ih.2

/-- The store after the owner has created the sample form's position, the
sample volunteer has applied for it and the owner has accepted is reachable. -/
theorem lifecycleReachable_accepted_sample : LifecycleReachable lifecycleStore :=
  LifecycleReachable.step _ _
    (LifecycleReachable.step _ _
      (LifecycleReachable.step _ _ (LifecycleReachable.empty blankStore rfl rfl)
        (LifecycleStep.create blankStore CreatePositionPage.initialState sampleForm
          (some ownerNgo) 1000 "p1" true (by simp [blankStore])))
      (LifecycleStep.apply _ createdPositionPage
        (CreatePositionPage.newPosition sampleForm ownerNgo 1000 "p1") (some sampleVolunteer)
        5000 "a1" true rfl (by rfl)))
    (LifecycleStep.updateOnPositionPage _ samplePositionApplications "a1" "accepted" true)

/-- C29: in every store reachable from a store without positions and
applications by the creation of positions (under ids not yet stored), by
`handleApply` on a page showing a stored position, and by status updates, every
stored application names a stored position, and its `ngoId` is the `ngoId` of
every stored position with its `positionId`; hence, for every user, the
applications that `NGODashboard` selects (`positionId` among the ids of the
user's own positions) are the stored applications with `ngoId = user.id`, which
for an organization are the ones that `ApplicationsPage` lists. -/
theorem application_ngoId_of_position (store : Store) (h : LifecycleReachable store) :
    (∀ app ∈ store.applications,
        (∃ position ∈ store.positions, position.positionId = app.positionId) ∧
          ∀ position ∈ store.positions, position.positionId = app.positionId →
            app.ngoId = position.ngoId) ∧
      (∀ user : User, NGODashboard.positionApplications store user =
        store.applications.filter (fun app => app.ngoId == user.id)) ∧
      ∀ user : User, user.role = ROLES.NGO → ∀ app : Application,
        app ∈ NGODashboard.positionApplications store user ↔
          app ∈ (ApplicationsPage.loadApplicationsData store (some user)).applications := by
  obtain ⟨hnodup, happs⟩ := lifecycleReachable_invariant store h
  have hngo : ∀ app ∈ store.applications, ∀ position ∈ store.positions,
      position.positionId = app.positionId → app.ngoId = position.ngoId := by
    intro app happ position hpos hid
    obtain ⟨stored, hstored, hid', hngo'⟩ := happs app happ
    have hsame : stored = position :=
      List.inj_on_of_nodup_map hnodup hstored hpos (by simp only [hid, hid'])
    rw [← hngo', hsame]
  have hfilter : ∀ user : User, NGODashboard.positionApplications store user =
      store.applications.filter (fun app => app.ngoId == user.id) := by
    intro user
    unfold NGODashboard.positionApplications
    apply List.filter_congr
    intro app happ
    rw [Bool.eq_iff_iff]
    simp only [List.contains_iff_exists_mem_beq, List.mem_map, List.mem_filter, beq_iff_eq]
    constructor
    · rintro ⟨id, ⟨position, ⟨hpos, howner⟩, rfl⟩, hid⟩
      rw [hngo app happ position hpos hid.symm]
      exact howner
    · intro howner
      obtain ⟨stored, hstored, hid, hngo'⟩ := happs app happ
      exact ⟨stored.positionId, ⟨stored, ⟨hstored, by rw [hngo', howner]⟩, rfl⟩, hid.symm⟩
  refine ⟨fun app happ => ⟨?_, hngo app happ⟩, hfilter, ?_⟩
  · obtain ⟨stored, hstored, hid, -⟩ := happs app happ
    exact ⟨stored, hstored, hid⟩
  · intro user hrole app
    rw [hfilter user, mem_loadApplicationsData_ngo store user app hrole]
    simp [List.mem_filter]

/-- Witness of C29 on the store after the owner has created a position, the
sample volunteer has applied for it and the owner has accepted. -/
theorem application_ngoId_of_position_witness :
    LifecycleReachable lifecycleStore ∧
      NGODashboard.positionApplications lifecycleStore ownerNgo =
        lifecycleStore.applications.filter (fun app => app.ngoId == ownerNgo.id) :=
  ⟨lifecycleReachable_accepted_sample,
    (application_ngoId_of_position lifecycleStore lifecycleReachable_accepted_sample).2.1
      ownerNgo⟩

/-- The applications of the reachable sample store: one, accepted, for the
position `p1` of the organization `ngo1`. -/
theorem lifecycleStore_applications :
    lifecycleStore.applications =
      [{ sampleApplication with status := APPLICATION_STATUS.ACCEPTED }] := by
  decide!

/-! ## Monotonicity of the score in the volunteer's profile -/

/-- Rounding to the nearest integer, ties to even, commutes with negation. -/
theorem rne_neg (q : ℚ) : rne (-q) = -rne q := by
  have h1 : ((⌊q⌋ : ℤ) : ℚ) ≤ q := Int.floor_le q
  have h2 : q < ((⌊q⌋ : ℤ) : ℚ) + 1 := Int.lt_floor_add_one q
  by_cases hint : q = ((⌊q⌋ : ℤ) : ℚ)
  · rw [hint, ← Int.cast_neg, rne_intCast, rne_intCast]
  · have hlt : ((⌊q⌋ : ℤ) : ℚ) < q := lt_of_le_of_ne h1 (fun h => hint h.symm)
    have hfl : ⌊-q⌋ = -⌊q⌋ - 1 := by
      rw [Int.floor_eq_iff]
      push_cast
      constructor <;> linarith
    unfold rne
    simp only [hfl]
    push_cast
    split_ifs <;> first | omega | (exfalso; linarith)

/-- The exponent of a number is that of its negation. -/
theorem ilog2_neg (x : ℚ) : ilog2 (-x) = ilog2 x := by
  simp [ilog2]

/-- Rounding to the nearest double commutes with negation. -/
theorem fl_neg (x : ℚ) : fl (-x) = -fl x := by
  have he : ulpExp (-x) = ulpExp x := by
    unfold ulpExp
    rw [ilog2_neg]
  unfold fl
  rw [he, neg_div, rne_neg]
  push_cast
  ring

/-- A number that is not positive rounds to one that is not positive. -/
theorem fl_nonpos {x : ℚ} (h : x ≤ 0) : fl x ≤ 0 := by
  have := fl_nonneg (neg_nonneg.mpr h)
  rw [fl_neg] at this
  linarith

/-- Rounding to the nearest double is monotone. -/
theorem fl_monotone {x y : ℚ} (h : x ≤ y) : fl x ≤ fl y := by
  rcases le_total 0 x with hx | hx
  · exact fl_mono hx h
  · rcases le_total 0 y with hy | hy
    · exact le_trans (fl_nonpos hx) (fl_nonneg hy)
    · have := fl_mono (neg_nonneg.mpr hy) (neg_le_neg h)
      rw [fl_neg, fl_neg] at this
      linarith

/-- The weighted sum is monotone in each of its five arguments. -/
theorem weightedSum_monotone {s c a p u s' c' a' p' u' : ℚ} (hss : s ≤ s') (hcc : c ≤ c')
    (haa : a ≤ a') (hpp : p ≤ p') (huu : u ≤ u') :
    weightedSum s c a p u ≤ weightedSum s' c' a' p' u' := by
  have l1 : (0 : ℚ) ≤ jsLit (4 / 10) := jsLit_nonneg (by norm_num)
  have l2 : (0 : ℚ) ≤ jsLit (25 / 100) := jsLit_nonneg (by norm_num)
  have l3 : (0 : ℚ) ≤ jsLit (2 / 10) := jsLit_nonneg (by norm_num)
  have l4 : (0 : ℚ) ≤ jsLit (1 / 10) := jsLit_nonneg (by norm_num)
  have l5 : (0 : ℚ) ≤ jsLit (5 / 100) := jsLit_nonneg (by norm_num)
  have m : ∀ {x y w : ℚ}, 0 ≤ w → x ≤ y → jsMul x w ≤ jsMul y w := fun hw hxy =>
    fl_monotone (mul_le_mul_of_nonneg_right hxy hw)
  have ad : ∀ {x y x' y' : ℚ}, x ≤ x' → y ≤ y' → jsAdd x y ≤ jsAdd x' y' := fun hx hy =>
    fl_monotone (add_le_add hx hy)
  unfold weightedSum
  exact ad (ad (ad (ad (m l1 hss) (m l2 hcc)) (m l3 haa)) (m l4 hpp)) (m l5 huu)

/-- A larger list of the user's items matches at least as many required
items. -/
theorem countMatches_mono (userItems userItems' requiredItems : List String)
    (h : ∀ item ∈ userItems, item ∈ userItems') :
    countMatches userItems requiredItems ≤ countMatches userItems' requiredItems := by
  rw [countMatches_eq_countP, countMatches_eq_countP]
  apply List.countP_mono_left
  intro item _ hitem
  have hmem : item ∈ userItems := by simpa using hitem
  simpa using h item hmem

/-- The match percentage is monotone in the user's list. -/
theorem calculateMatchPercentage_mono (userItems userItems' requiredItems : List String)
    (h : ∀ item ∈ userItems, item ∈ userItems') :
    calculateMatchPercentage userItems requiredItems ≤
      calculateMatchPercentage userItems' requiredItems := by
  by_cases h0 : userItems.length = 0 ∨ requiredItems.length = 0
  · have : calculateMatchPercentage userItems requiredItems = 0 := by
      simp only [calculateMatchPercentage, if_pos h0]
    rw [this]
    exact calculateMatchPercentage_nonneg _ _
  · have hu : userItems ≠ [] := fun e => h0 (Or.inl (by simp [e]))
    have hr : requiredItems.length ≠ 0 := fun e => h0 (Or.inr e)
    have hu' : userItems'.length ≠ 0 := by
      obtain ⟨item, hi⟩ := List.exists_mem_of_ne_nil _ hu
      have := List.ne_nil_of_mem (h item hi)
      simpa using this
    have h0' : ¬(userItems'.length = 0 ∨ requiredItems.length = 0) := by
      rintro (e | e)
      · exact hu' e
      · exact hr e
    simp only [calculateMatchPercentage, if_neg h0, if_neg h0']
    apply fl_monotone
    apply mul_le_mul_of_nonneg_right _ (by norm_num)
    apply fl_monotone
    apply div_le_div_of_nonneg_right _ (Nat.cast_nonneg _)
    exact_mod_cast countMatches_mono userItems userItems' requiredItems h

/-- The cause match is monotone in the volunteer's causes. -/
theorem causeMatch_mono (volunteer volunteer' : User) (position : Position)
    (h : ∀ c ∈ volunteer.causes.getD [], c ∈ volunteer'.causes.getD []) :
    causeMatch volunteer position ≤ causeMatch volunteer' position := by
  rcases causeMatch_cases volunteer position with h0 | h100
  · rw [h0]
    rcases causeMatch_cases volunteer' position with e | e <;> rw [e]
    norm_num
  · have hmem : ∃ c, position.cause = some c ∧ c ∈ volunteer.causes.getD [] := by
      unfold causeMatch at h100
      cases hv : volunteer.causes with
      | none => rw [hv] at h100; simp at h100
      | some causes =>
        cases hp : position.cause with
        | none => rw [hv, hp] at h100; simp at h100
        | some c =>
          rw [hv, hp] at h100
          simp only at h100
          by_cases hc : causes.contains c = true
          · exact ⟨c, rfl, by simpa using hc⟩
          · rw [if_neg hc] at h100; norm_num at h100
    obtain ⟨c, hpc, hc⟩ := hmem
    have hc' := h c hc
    have : causeMatch volunteer' position = 100 := by
      unfold causeMatch
      cases hv : volunteer'.causes with
      | none => rw [hv] at hc'; simp at hc'
      | some causes =>
        rw [hv] at hc'
        simp only [Option.getD_some] at hc'
        simp [hpc, hc']
    rw [h100, this]

/-- C30: when a second volunteer has the location of the first and every skill,
every cause and every availability window of the first, the second
volunteer's relevance score for a position is at least the first one's. -/
theorem calculateRelevanceScore_mono (volunteer volunteer' : User) (position : Position)
    (hloc : volunteer'.location = volunteer.location)
    (hskills : ∀ s ∈ volunteer.skills.getD [], s ∈ volunteer'.skills.getD [])
    (hcauses : ∀ c ∈ volunteer.causes.getD [], c ∈ volunteer'.causes.getD [])
    (havail : ∀ w ∈ volunteer.availability.getD [], w ∈ volunteer'.availability.getD []) :
    calculateRelevanceScore (some volunteer) (some position) ≤
      calculateRelevanceScore (some volunteer') (some position) := by
  have hp : proximityMatch volunteer position ≤ proximityMatch volunteer' position := by
    simp [proximityMatch, hloc]
  simp only [calculateRelevanceScore, jsRound]
  apply Int.floor_le_floor
  apply add_le_add_right
  exact weightedSum_monotone (calculateMatchPercentage_mono _ _ _ hskills)
    (causeMatch_mono _ _ _ hcauses) (calculateMatchPercentage_mono _ _ _ havail) hp le_rfl

/-- Witness of C30: the sample volunteer has one skill more than
`lesserVolunteer`. -/
theorem calculateRelevanceScore_mono_witness :
    calculateRelevanceScore (some lesserVolunteer) (some samplePosition) ≤
      calculateRelevanceScore (some sampleVolunteer) (some samplePosition) :=
  calculateRelevanceScore_mono lesserVolunteer sampleVolunteer samplePosition rfl (by decide)
    (by decide) (by decide)

end YuvaSetu
